import Mathlib

/-!
Shallow embedding of the naitou_clone shogi engine core (Rust sources under
src/) into Lean 4, together with theorems settling the frozen claims about
its specification.

Conventions of the embedding:
* Rust `u8` quantities that the source manipulates with `wrapping_add` /
  `wrapping_sub` (`wadd` / `wsub`) are modelled as `Nat` with explicit
  `% 256` wrapping.  Quantities the source adds with plain `+` / `+=`
  (which panics on overflow rather than wrapping, and whose overflow is
  unreachable in the source) are modelled as plain `Nat`.
* Rust `i32` squares are modelled as `Int`; `x()`/`y()` use truncating
  division/`tmod`, matching Rust's `%` on `i32`.
* Fallible operations (`do_move(..).unwrap()` etc.) are modelled with
  `Option`; `none` corresponds to a panic of the original.
* Rust iterators are modelled as `List`s built in the exact enumeration
  order of the source; the unbounded ranged-ray walkers are modelled with
  an explicit fuel argument (11, more than the longest possible ray on the
  walled 11x11 board).
-/

set_option autoImplicit false

namespace Naitou

--------------------------------------------------------------------
-- Side (lib.rs)
--------------------------------------------------------------------

inductive Side where
  | Sente
  | Gote
deriving DecidableEq, Repr

def Side.iter : List Side := [Side.Sente, Side.Gote]

def Side.inv : Side → Side
  | Side.Sente => Side.Gote
  | Side.Gote => Side.Sente

/-- `1` for sente, `-1` for gote. -/
def Side.sgn : Side → Int
  | Side.Sente => 1
  | Side.Gote => -1

--------------------------------------------------------------------
-- Piece (lib.rs)
--------------------------------------------------------------------

inductive Piece where
  | Pawn
  | Lance
  | Knight
  | Silver
  | Bishop
  | Rook
  | Gold
  | King
  | ProPawn
  | ProLance
  | ProKnight
  | ProSilver
  | Horse
  | Dragon
deriving DecidableEq, Repr

def Piece.is_hand : Piece → Bool
  | Piece.Pawn | Piece.Lance | Piece.Knight | Piece.Silver
  | Piece.Bishop | Piece.Rook | Piece.Gold => true
  | _ => false

def Piece.is_promoted : Piece → Bool
  | Piece.ProPawn | Piece.ProLance | Piece.ProKnight | Piece.ProSilver
  | Piece.Horse | Piece.Dragon => true
  | _ => false

def Piece.can_promote : Piece → Bool
  | Piece.Pawn | Piece.Lance | Piece.Knight | Piece.Silver
  | Piece.Bishop | Piece.Rook => true
  | _ => false

def Piece.to_raw : Piece → Piece
  | Piece.ProPawn => Piece.Pawn
  | Piece.ProLance => Piece.Lance
  | Piece.ProKnight => Piece.Knight
  | Piece.ProSilver => Piece.Silver
  | Piece.Horse => Piece.Bishop
  | Piece.Dragon => Piece.Rook
  | pt => pt

def Piece.to_promoted : Piece → Option Piece
  | Piece.Pawn => some Piece.ProPawn
  | Piece.Lance => some Piece.ProLance
  | Piece.Knight => some Piece.ProKnight
  | Piece.Silver => some Piece.ProSilver
  | Piece.Bishop => some Piece.Horse
  | Piece.Rook => some Piece.Dragon
  | Piece.Gold | Piece.King => none
  | pt => some pt

def Piece.iter_hand : List Piece :=
  [Piece.Pawn, Piece.Lance, Piece.Knight, Piece.Silver, Piece.Bishop,
   Piece.Rook, Piece.Gold]

/-- Melee (single-step) effect offsets of `Piece::effects_melee` in lib.rs,
with the exact per-side hardcoded lists and their order. -/
def Piece.effects_melee (pt : Piece) (side : Side) : List Int :=
  match side, pt with
  | Side.Sente, Piece.Pawn => [-11]
  | Side.Sente, Piece.Knight => [-23, -21]
  | Side.Sente, Piece.Silver => [-12, -11, -10, 10, 12]
  | Side.Sente, Piece.Gold
  | Side.Sente, Piece.ProPawn
  | Side.Sente, Piece.ProLance
  | Side.Sente, Piece.ProKnight
  | Side.Sente, Piece.ProSilver => [-12, -11, -10, -1, 1, 11]
  | Side.Gote, Piece.Pawn => [11]
  | Side.Gote, Piece.Knight => [21, 23]
  | Side.Gote, Piece.Silver => [-12, -10, 10, 11, 12]
  | Side.Gote, Piece.Gold
  | Side.Gote, Piece.ProPawn
  | Side.Gote, Piece.ProLance
  | Side.Gote, Piece.ProKnight
  | Side.Gote, Piece.ProSilver => [-11, -1, 1, 10, 11, 12]
  | _, Piece.King => [-12, -11, -10, -1, 1, 10, 11, 12]
  | _, Piece.Horse => [-11, -1, 1, 11]
  | _, Piece.Dragon => [-12, -10, 10, 12]
  | _, Piece.Lance | _, Piece.Bishop | _, Piece.Rook => []

/-- Ranged effect directions of `Piece::effects_ranged` in lib.rs. -/
def Piece.effects_ranged (pt : Piece) (side : Side) : List Int :=
  match side, pt with
  | Side.Sente, Piece.Lance => [-11]
  | Side.Gote, Piece.Lance => [11]
  | _, Piece.Bishop | _, Piece.Horse => [-12, -10, 10, 12]
  | _, Piece.Rook | _, Piece.Dragon => [-11, -1, 1, 11]
  | _, _ => []

--------------------------------------------------------------------
-- Squares (lib.rs): a square is an i32 index into the 11x11 frame
--------------------------------------------------------------------

abbrev Sq := Int

def Sq.from_xy (x y : Int) : Sq := 11 * y + x

/-- `Sq::x`: Rust `i32 %` is truncating, matching `Int.tmod`. -/
def Sq.x (sq : Sq) : Int := sq.tmod 11

/-- `Sq::y`: Rust `i32 /` is truncating, matching `Int.tdiv`. -/
def Sq.y (sq : Sq) : Int := sq.tdiv 11

def SqX.is_ok (x : Int) : Bool := decide (0 ≤ x ∧ x < 11)

def SqX.is_valid (x : Int) : Bool := decide (1 ≤ x ∧ x ≤ 9)

def Sq.is_ok (sq : Sq) : Bool := decide (0 ≤ sq ∧ sq < 121)

def Sq.is_valid (sq : Sq) : Bool := SqX.is_valid sq.x && SqX.is_valid sq.y

/-- All 121 `ok` squares in ascending order (`Sq::iter_ok`). -/
def Sq.iter_ok : List Sq := (List.range 121).map fun n => (n : Int)

def Sq.iter_valid : List Sq := Sq.iter_ok.filter Sq.is_valid

def Sq.iter_valid_rev : List Sq := Sq.iter_valid.reverse

/-- `Sq::iter_valid_sim`: the original scans in my-side-relative order. -/
def Sq.iter_valid_sim (my : Side) : List Sq :=
  match my with
  | Side.Sente => Sq.iter_valid_rev
  | Side.Gote => Sq.iter_valid

def Sq.dist_x (sq1 sq2 : Sq) : Option Int :=
  if SqX.is_ok sq1.x ∧ SqX.is_ok sq2.x then
    some (((sq1.x - sq2.x).natAbs : Nat) : Int)
  else none

def Sq.dist_y (sq1 sq2 : Sq) : Option Int :=
  if SqX.is_ok sq1.y ∧ SqX.is_ok sq2.y then
    some (((sq1.y - sq2.y).natAbs : Nat) : Int)
  else none

/-- `Sq::dist`: Chebyshev distance, `none` when either square is not ok.
Note: `SqX::dist`/`SqY::dist` in the source check `is_ok` of the
coordinates, which for `i32` squares is equivalent to both squares being
in `0..121` only componentwise; we mirror the component checks exactly. -/
def Sq.dist (sq1 sq2 : Sq) : Option Int :=
  match Sq.dist_x sq1 sq2, Sq.dist_y sq1 sq2 with
  | some d1, some d2 => some (max d1 d2)
  | _, _ => none

/-- The source unwraps `Sq::dist` at call sites where both squares are
always ok; `none` (a panic in the original) is mapped to 0. -/
def Sq.distU (sq1 sq2 : Sq) : Int := (Sq.dist sq1 sq2).getD 0

def Sq.inv (sq : Sq) : Sq := 120 - sq

def Sq.rel (sq : Sq) (side : Side) : Sq :=
  match side with
  | Side.Sente => sq
  | Side.Gote => sq.inv

def SqY.inv (y : Int) : Int := 10 - y

def SqY.rel (y : Int) (side : Side) : Int :=
  match side with
  | Side.Sente => y
  | Side.Gote => SqY.inv y

def SqY.can_promote (y : Int) (side : Side) : Bool :=
  decide (1 ≤ SqY.rel y side ∧ SqY.rel y side ≤ 3)

def SqY.can_put (y : Int) (side : Side) (pt : Piece) : Bool :=
  match pt with
  | Piece.Pawn | Piece.Lance => decide (2 ≤ SqY.rel y side ∧ SqY.rel y side ≤ 9)
  | Piece.Knight => decide (3 ≤ SqY.rel y side ∧ SqY.rel y side ≤ 9)
  | _ => SqX.is_valid y

def Sq.can_promote (sq : Sq) (side : Side) : Bool := SqY.can_promote sq.y side

def Sq.can_put (sq : Sq) (side : Side) (pt : Piece) : Bool := SqY.can_put sq.y side pt

def SQ_INVALID : Sq := 99

/-- `can_promote` (free function in lib.rs). -/
def can_promote_mv (side : Side) (pt : Piece) (src dst : Sq) : Bool :=
  pt.can_promote && (src.can_promote side || dst.can_promote side)

--------------------------------------------------------------------
-- Price tables (price.rs)
--------------------------------------------------------------------

def PRICES_0 : Piece → Nat
  | Piece.Pawn => 1
  | Piece.Lance => 4
  | Piece.Knight => 4
  | Piece.Silver => 8
  | Piece.Bishop => 16
  | Piece.Rook => 17
  | Piece.Gold => 8
  | Piece.King => 40
  | Piece.ProPawn => 2
  | Piece.ProLance => 5
  | Piece.ProKnight => 6
  | Piece.ProSilver => 8
  | Piece.Horse => 20
  | Piece.Dragon => 22

def PRICES_1 : Piece → Nat
  | Piece.Pawn => 1
  | Piece.Lance => 4
  | Piece.Knight => 4
  | Piece.Silver => 8
  | Piece.Bishop => 16
  | Piece.Rook => 17
  | Piece.Gold => 8
  | Piece.King => 40
  | Piece.ProPawn => 8
  | Piece.ProLance => 8
  | Piece.ProKnight => 8
  | Piece.ProSilver => 8
  | Piece.Horse => 22
  | Piece.Dragon => 22

def PRICES_2 : Piece → Nat
  | Piece.Pawn => 1
  | Piece.Lance => 4
  | Piece.Knight => 4
  | Piece.Silver => 8
  | Piece.Bishop => 16
  | Piece.Rook => 17
  | Piece.Gold => 8
  | Piece.King => 40
  | Piece.ProPawn => 2
  | Piece.ProLance => 8
  | Piece.ProKnight => 8
  | Piece.ProSilver => 8
  | Piece.Horse => 22
  | Piece.Dragon => 22

def PRICES_3 : Piece → Nat
  | Piece.Pawn => 1
  | Piece.Lance => 4
  | Piece.Knight => 4
  | Piece.Silver => 8
  | Piece.Bishop => 16
  | Piece.Rook => 17
  | Piece.Gold => 8
  | Piece.King => 40
  | Piece.ProPawn => 1
  | Piece.ProLance => 4
  | Piece.ProKnight => 4
  | Piece.ProSilver => 8
  | Piece.Horse => 20
  | Piece.Dragon => 22

--------------------------------------------------------------------
-- 8-bit wrapping arithmetic (util.rs wadd / wsub on u8)
--------------------------------------------------------------------

def wadd (a b : Nat) : Nat := (a + b) % 256

def wsub (a b : Nat) : Nat := ((((a : Int) - (b : Int)) % 256)).toNat

/-- `util::chmax` specialised to `Nat`: returns the new maximum and
whether it changed. -/
def chmax (xmax x : Nat) : Nat × Bool :=
  if xmax < x then (x, true) else (xmax, false)

end Naitou

namespace Naitou

--------------------------------------------------------------------
-- BoardCell and Board (lib.rs)
--------------------------------------------------------------------

inductive BoardCell where
  | Empty
  | Sente (pt : Piece)
  | Gote (pt : Piece)
  | Wall
deriving DecidableEq, Repr

def BoardCell.from_side_pt (side : Side) (pt : Piece) : BoardCell :=
  match side with
  | Side.Sente => BoardCell.Sente pt
  | Side.Gote => BoardCell.Gote pt

def BoardCell.is_empty : BoardCell → Bool
  | BoardCell.Empty => true
  | _ => false

def BoardCell.is_wall : BoardCell → Bool
  | BoardCell.Wall => true
  | _ => false

def BoardCell.is_side (cell : BoardCell) (side : Side) : Bool :=
  match cell, side with
  | BoardCell.Sente _, Side.Sente => true
  | BoardCell.Gote _, Side.Gote => true
  | _, _ => false

def BoardCell.is_piece (cell : BoardCell) : Bool :=
  cell.is_side Side.Sente || cell.is_side Side.Gote

def BoardCell.piece_of (cell : BoardCell) (side : Side) : Option Piece :=
  match cell, side with
  | BoardCell.Sente pt, Side.Sente => some pt
  | BoardCell.Gote pt, Side.Gote => some pt
  | _, _ => none

def BoardCell.is_side_pt (cell : BoardCell) (side : Side) (pt_query : Piece) : Bool :=
  match cell with
  | BoardCell.Sente pt => (side = Side.Sente : Bool) && pt = pt_query
  | BoardCell.Gote pt => (side = Side.Gote : Bool) && pt = pt_query
  | _ => false

/-- The board is modelled as a total cell function on square indices; the
source's `Board` is an array of 121 cells indexed by `sq.get() as usize`. -/
def Board := Sq → BoardCell

def Board.update (b : Board) (sq : Sq) (cell : BoardCell) : Board :=
  fun s => if s = sq then cell else b s

/-- `Board::empty`: walls on the frame, empty on the 9x9 playing area.
Outside `0..121` the array of the source does not exist; we extend with
`Wall`. -/
def Board.empty : Board :=
  fun sq => if Sq.is_valid sq then BoardCell.Empty
            else BoardCell.Wall

--------------------------------------------------------------------
-- Hands (lib.rs)
--------------------------------------------------------------------

def Hands := Side → Piece → Nat

def Hands.update (h : Hands) (side : Side) (pt : Piece) (n : Nat) : Hands :=
  fun s p => if s = side ∧ p = pt then n else h s p

def Hands.empty : Hands := fun _ _ => 0

--------------------------------------------------------------------
-- Moves (lib.rs)
--------------------------------------------------------------------

/-- `Move`. The source's `MoveNondrop::new` asserts `src.is_valid()`,
`dst.is_valid()` and `src != dst`; those invariants are established
separately for every move the engine constructs. -/
inductive Move where
  | Nondrop (src dst : Sq) (is_promotion : Bool)
  | Drop (pt : Piece) (dst : Sq)
deriving DecidableEq, Repr

def Move.dst : Move → Sq
  | Move.Nondrop _ dst _ => dst
  | Move.Drop _ dst => dst

def Move.is_drop : Move → Bool
  | Move.Drop _ _ => true
  | _ => false

def Move.is_nondrop : Move → Bool
  | Move.Nondrop _ _ _ => true
  | _ => false

def Move.is_drop_pt (mv : Move) (pt : Piece) : Bool :=
  match mv with
  | Move.Drop p _ => p = pt
  | _ => false

--------------------------------------------------------------------
-- MoveCmd and Position (position.rs)
--------------------------------------------------------------------

inductive MoveCmd where
  | Nondrop (src dst : Sq) (is_promotion : Bool) (pt_capture : Option Piece)
  | Drop (pt : Piece) (dst : Sq)
deriving DecidableEq, Repr

structure Position where
  side : Side
  board : Board
  hands : Hands
  ply : Int

def Position.hand (pos : Position) (side : Side) : Piece → Nat := pos.hands side

/-- `PawnMask::from_board_side` followed by `test`: bit `x` is set iff
column `x` (for `x` in `1..=9`) holds a pawn of `side`. -/
def pawn_mask_test (b : Board) (side : Side) (x : Int) : Bool :=
  decide (1 ≤ x ∧ x ≤ 9) &&
    ((List.range' 1 9).any fun y =>
      (b (Sq.from_xy x (y : Int))).is_side_pt side Piece.Pawn)

/-- `Position::do_move`; `none` models the `Err` cases (which the engine
always unwraps). -/
def Position.do_move (pos : Position) (mv : Move) : Option (Position × MoveCmd) :=
  match mv with
  | Move.Nondrop src dst is_promotion =>
    match (pos.board src).piece_of pos.side with
    | none => none
    | some pt_src =>
      if (pos.board dst).is_side pos.side then none
      else
        match (if is_promotion then pt_src.to_promoted else some pt_src) with
        | none => none
        | some pt_dst =>
          let pt_capture := (pos.board dst).piece_of pos.side.inv
          let board' := (pos.board.update src BoardCell.Empty).update dst
            (BoardCell.from_side_pt pos.side pt_dst)
          let hands' :=
            match pt_capture with
            | some pt =>
              pos.hands.update pos.side pt.to_raw (pos.hands pos.side pt.to_raw + 1)
            | none => pos.hands
          some ({ side := pos.side.inv, board := board', hands := hands',
                  ply := pos.ply + 1 },
                MoveCmd.Nondrop src dst is_promotion pt_capture)
  | Move.Drop pt dst =>
    if pos.hand pos.side pt > 0 then
      if (pos.board dst).is_empty then
        let board' := pos.board.update dst (BoardCell.from_side_pt pos.side pt)
        let hands' := pos.hands.update pos.side pt (pos.hands pos.side pt - 1)
        some ({ side := pos.side.inv, board := board', hands := hands',
                ply := pos.ply + 1 },
              MoveCmd.Drop pt dst)
      else none
    else none

/-- `Position::undo_move`. -/
def Position.undo_move (pos : Position) (mv_cmd : MoveCmd) : Option Position :=
  let opponent := pos.side.inv
  match mv_cmd with
  | MoveCmd.Nondrop src dst is_promotion pt_capture =>
    match (pos.board dst).piece_of opponent with
    | none => none
    | some pt_dst =>
      if (pos.board src).is_empty then
        let pt_src := if is_promotion then pt_dst.to_raw else pt_dst
        let hand_ok : Bool :=
          match pt_capture with
          | some pt => pos.hands opponent pt.to_raw > 0
          | none => true
        if hand_ok then
          let board₁ := pos.board.update src (BoardCell.from_side_pt opponent pt_src)
          let (board₂, hands') :=
            match pt_capture with
            | some pt =>
              (board₁.update dst (BoardCell.from_side_pt pos.side pt),
               pos.hands.update opponent pt.to_raw (pos.hands opponent pt.to_raw - 1))
            | none => (board₁.update dst BoardCell.Empty, pos.hands)
          some { side := opponent, board := board₂, hands := hands',
                 ply := pos.ply - 1 }
        else none
      else none
  | MoveCmd.Drop pt dst =>
    if pos.board dst = BoardCell.from_side_pt opponent pt then
      some { side := opponent,
             board := pos.board.update dst BoardCell.Empty,
             hands := pos.hands.update opponent pt (pos.hands opponent pt + 1),
             ply := pos.ply - 1 }
    else none

end Naitou

namespace Naitou

--------------------------------------------------------------------
-- Effects (effect.rs)
--------------------------------------------------------------------

/-- `piece_effects_melee` (effect.rs): sente base list times `sgn`. -/
def piece_effects_melee (side : Side) (pt : Piece) : List Int :=
  let effects : List Int :=
    match pt with
    | Piece.Pawn => [-11]
    | Piece.Knight => [-23, -21]
    | Piece.Silver => [-12, -11, -10, 10, 12]
    | Piece.King => [-12, -11, -10, -1, 1, 10, 11, 12]
    | Piece.Horse => [-11, -1, 1, 11]
    | Piece.Dragon => [-12, -10, 10, 12]
    | Piece.Gold | Piece.ProPawn | Piece.ProLance | Piece.ProKnight
    | Piece.ProSilver => [-12, -11, -10, -1, 1, 11]
    | _ => []
  effects.map fun di => di * side.sgn

/-- `piece_effects_ranged` (effect.rs). -/
def piece_effects_ranged (side : Side) (pt : Piece) : List Int :=
  let effects : List Int :=
    match pt with
    | Piece.Lance => [-11]
    | Piece.Bishop | Piece.Horse => [-12, -10, 10, 12]
    | Piece.Rook | Piece.Dragon => [-11, 11, -1, 1]
    | _ => []
  effects.map fun di => di * side.sgn

/-- Fuel bound for ray walkers: on a board with walls on the whole frame a
ray from a valid square stops after at most 9 steps, so 11 never runs out. -/
def rayFuel : Nat := 11

/-- `iter_uni_ranged_effects_by`: squares along `dir` until a wall
(exclusive) or the first piece (inclusive); starts at `sq + dir`. -/
def ranged_dsts (b : Board) (dir : Int) : Nat → Sq → List Sq
  | 0, _ => []
  | fuel + 1, dst =>
    if (b dst).is_wall then []
    else if !(b dst).is_empty then [dst]
    else dst :: ranged_dsts b dir fuel (dst + dir)

def iter_melee_effects_by (side : Side) (sq : Sq) (pt : Piece) : List Sq :=
  ((pt.effects_melee side).map fun di => sq + di).filter Sq.is_valid

def iter_ranged_effects_by (b : Board) (side : Side) (sq : Sq) (pt : Piece) : List Sq :=
  (pt.effects_ranged side).flatMap fun dir => ranged_dsts b dir rayFuel (sq + dir)

def iter_effects_by (b : Board) (side : Side) (sq : Sq) (pt : Piece) : List Sq :=
  iter_melee_effects_by side sq pt ++ iter_ranged_effects_by b side sq pt

/-- `iter_effects`: all `(src, dst)` effects of `side` on the board. -/
def iter_effects (b : Board) (side : Side) : List (Sq × Sq) :=
  Sq.iter_valid.flatMap fun src =>
    match (b src).piece_of side with
    | some pt => (iter_effects_by b side src pt).map fun dst => (src, dst)
    | none => []

/-- `can_support`: whether a same-side ranged effect running onto `pt`
produces a shadow effect one square past it. -/
def can_support (side : Side) (dir : Int) (pt : Piece) : Bool :=
  if pt = Piece.King then false
  else (pt.effects_melee side).contains dir || (pt.effects_ranged side).contains dir

/-- The `Support` state of the shadow-effect walker: one more square,
emitted as a shadow, unless it is a wall. -/
def support_step (b : Board) (dst : Sq) : List (Bool × Sq) :=
  if (b dst).is_wall then [] else [(true, dst)]

/-- `iter_uni_ranged_support_effects_by` (the `Normal` state of the
three-state walker), starting at `sq + dir`. -/
def support_ranged_dsts (b : Board) (side : Side) (dir : Int) :
    Nat → Sq → List (Bool × Sq)
  | 0, _ => []
  | fuel + 1, dst =>
    if (b dst).is_wall then []
    else
      match (b dst).piece_of side with
      | some pt =>
        (false, dst) ::
          (if can_support side dir pt then support_step b (dst + dir) else [])
      | none =>
        if (b dst).is_piece then [(false, dst)]
        else (false, dst) :: support_ranged_dsts b side dir fuel (dst + dir)

def iter_melee_support_effects_by (side : Side) (sq : Sq) (pt : Piece) :
    List (Bool × Sq) :=
  (iter_melee_effects_by side sq pt).map fun dst => (false, dst)

def iter_ranged_support_effects_by (b : Board) (side : Side) (sq : Sq) (pt : Piece) :
    List (Bool × Sq) :=
  (pt.effects_ranged side).flatMap fun dir =>
    support_ranged_dsts b side dir rayFuel (sq + dir)

def iter_support_effects_by (b : Board) (side : Side) (sq : Sq) (pt : Piece) :
    List (Bool × Sq) :=
  iter_melee_support_effects_by side sq pt ++
    iter_ranged_support_effects_by b side sq pt

/-- `iter_support_effects`: `(is_support, src, dst)` triples of `side`, in
my-side-relative scan order. -/
def iter_support_effects (b : Board) (side my : Side) : List (Bool × Sq × Sq) :=
  (Sq.iter_valid_sim my).flatMap fun src =>
    match (b src).piece_of side with
    | some pt => (iter_support_effects_by b side src pt).map fun e => (e.1, src, e.2)
    | none => []

--------------------------------------------------------------------
-- EffectBoard (effect.rs)
--------------------------------------------------------------------

structure EffectInfo where
  count : Nat
  attacker : Option Piece
deriving DecidableEq, Repr

def EffectInfo.default : EffectInfo := { count := 0, attacker := none }

def EffectBoard := Sq → Side → EffectInfo

def EffectBoard.empty : EffectBoard := fun _ _ => EffectInfo.default

/-- The cell array of the source's `EffectBoard` is modelled as a sparse
association list from squares to (sente info, gote info); absent squares
hold the default cell. -/
abbrev EffectData := List (Sq × EffectInfo × EffectInfo)

def eff_data_get (d : EffectData) (sq : Sq) : EffectInfo × EffectInfo :=
  match d.find? fun c => c.1 = sq with
  | some c => c.2
  | none => (EffectInfo.default, EffectInfo.default)

def eff_data_set (d : EffectData) (sq : Sq) (v : EffectInfo × EffectInfo) :
    EffectData :=
  (sq, v) :: d.filter fun c => c.1 ≠ sq

def eff_pick (p : EffectInfo × EffectInfo) (side : Side) : EffectInfo :=
  match side with
  | Side.Sente => p.1
  | Side.Gote => p.2

def eff_put (p : EffectInfo × EffectInfo) (side : Side) (v : EffectInfo) :
    EffectInfo × EffectInfo :=
  match side with
  | Side.Sente => (v, p.2)
  | Side.Gote => (p.1, v)

/-- `util::opt_chmin_by_key` on the attacker under price table 0: the new
piece replaces the old attacker only on a strict price decrease. -/
def opt_chmin_attacker (o : Option Piece) (pt : Piece) : Option Piece :=
  match o with
  | none => some pt
  | some q => if PRICES_0 pt < PRICES_0 q then some pt else some q

/-- One effect applied to the effect board: the count is incremented, and
for a non-shadow effect the attacker is updated from the piece at `src`
(present for every emitted effect; the source unwraps it). -/
def EffectBoard.apply_one (b : Board) (side : Side) (d : EffectData)
    (e : Bool × Sq × Sq) : EffectData :=
  let cell := eff_data_get d e.2.2
  let info := eff_pick cell side
  let attacker' :=
    if e.1 then info.attacker
    else
      match (b e.2.1).piece_of side with
      | some pt => opt_chmin_attacker info.attacker pt
      | none => info.attacker
  eff_data_set d e.2.2
    (eff_put cell side { count := info.count + 1, attacker := attacker' })

/-- The update fold of `EffectBoard::from_board`. -/
def EffectBoard.from_board_data (b : Board) (my : Side) : EffectData :=
  Side.iter.foldl
    (fun d side =>
      (iter_support_effects b side my).foldl (EffectBoard.apply_one b side) d)
    []

/-- `EffectBoard::from_board`. -/
def EffectBoard.from_board (b : Board) (my : Side) : EffectBoard :=
  fun sq side => eff_pick (eff_data_get (EffectBoard.from_board_data b my) sq) side

end Naitou

namespace Naitou

--------------------------------------------------------------------
-- find_king_sq (ai.rs)
--------------------------------------------------------------------

def find_king_sq (b : Board) (side : Side) : Option Sq :=
  Sq.iter_valid.find? fun sq => (b sq).is_side_pt side Piece.King

--------------------------------------------------------------------
-- my_move.rs: book-legal test
--------------------------------------------------------------------

/-- `is_book_legal_nondrop_ranged_dir`: from `min(src, dst)` the walk must
pass `step - 1` empty squares in direction `dir`. -/
def is_book_legal_nondrop_ranged_dir (pos : Position) (src dst : Sq)
    (dir step : Int) : Bool :=
  let s := min src dst
  if step = 1 then true
  else (List.range (step - 1).toNat).all fun i =>
    (pos.board (s + ((i : Int) + 1) * dir)).is_empty

def is_book_legal_nondrop_melee (pos : Position) (src dst : Sq) (pt : Piece) : Bool :=
  (pt.effects_melee pos.side).any fun di => di = dst - src

def is_book_legal_nondrop_king (pos : Position) (eff_board : EffectBoard)
    (src dst : Sq) : Bool :=
  if (eff_board dst pos.side.inv).count > 0 then false
  else is_book_legal_nondrop_melee pos src dst Piece.King

def is_book_legal_nondrop_lance (pos : Position) (src dst : Sq) : Bool :=
  let my := pos.side
  let src' := src.rel my
  let dst' := dst.rel my
  if src'.x ≠ dst'.x then false
  else if dst'.y > src'.y then false
  else
    let step := (Sq.dist_y src' dst').getD 0
    is_book_legal_nondrop_ranged_dir pos src dst 11 step

def is_book_legal_nondrop_bishop (pos : Position) (src dst : Sq) : Bool :=
  let dx := dst.x - src.x
  let dy := dst.y - src.y
  let step := (dx.natAbs : Int)
  if dx = dy then is_book_legal_nondrop_ranged_dir pos src dst 12 step
  else if dx = -dy then is_book_legal_nondrop_ranged_dir pos src dst 10 step
  else false

def is_book_legal_nondrop_rook (pos : Position) (src dst : Sq) : Bool :=
  if src.y = dst.y then
    let step := (Sq.dist_x src dst).getD 0
    is_book_legal_nondrop_ranged_dir pos src dst 1 step
  else if src.x ≠ dst.x then false
  else
    let step := (Sq.dist_y src dst).getD 0
    is_book_legal_nondrop_ranged_dir pos src dst 11 step

def is_book_legal_nondrop_horse (pos : Position) (src dst : Sq) : Bool :=
  if Sq.distU src dst < 2 then true
  else is_book_legal_nondrop_bishop pos src dst

def is_book_legal_nondrop_dragon (pos : Position) (src dst : Sq) : Bool :=
  if Sq.distU src dst < 2 then true
  else is_book_legal_nondrop_rook pos src dst

def is_book_legal_nondrop (pos : Position) (eff_board : EffectBoard)
    (src dst : Sq) (is_promotion : Bool) : Bool :=
  let my := pos.side
  if (pos.board dst).is_side my then false
  else
    match (pos.board src).piece_of my with
    | none => false
    | some pt =>
      let promo_ok : Bool := if is_promotion then can_promote_mv my pt src dst else true
      if !promo_ok then false
      else
        let pt_dst := if is_promotion then (pt.to_promoted).getD pt else pt
        if !(dst.can_put my pt_dst) then false
        else
          match pt with
          | Piece.King => is_book_legal_nondrop_king pos eff_board src dst
          | Piece.Lance => is_book_legal_nondrop_lance pos src dst
          | Piece.Bishop => is_book_legal_nondrop_bishop pos src dst
          | Piece.Rook => is_book_legal_nondrop_rook pos src dst
          | Piece.Horse => is_book_legal_nondrop_horse pos src dst
          | Piece.Dragon => is_book_legal_nondrop_dragon pos src dst
          | _ => is_book_legal_nondrop_melee pos src dst pt

/-- `is_book_legal`; the source marks the `Drop` arm `unreachable!` (book
moves are never drops); we return `false` there. -/
def is_book_legal (pos : Position) (eff_board : EffectBoard) (mv : Move) : Bool :=
  match mv with
  | Move.Nondrop src dst is_promotion =>
    is_book_legal_nondrop pos eff_board src dst is_promotion
  | Move.Drop _ _ => false

--------------------------------------------------------------------
-- my_move.rs: pseudo-legal move generation
--------------------------------------------------------------------

def moves_pseudo_legal_nondrop_melee (pos : Position) (src : Sq) (pt : Piece) :
    List Move :=
  (piece_effects_melee pos.side pt).filterMap fun di =>
    let dst := src + di
    let is_promotion := can_promote_mv pos.side pt src dst
    let cell := pos.board dst
    if cell.is_empty || cell.is_side pos.side.inv then
      some (Move.Nondrop src dst is_promotion)
    else none

/-- `moves_pseudo_legal_nondrop_ranged`: walk from `src + dir`; an
opponent piece is a final destination, own piece or wall stops the walk. -/
def pl_ranged_walk (pos : Position) (src : Sq) (pt : Piece) (dir : Int) :
    Nat → Sq → List Move
  | 0, _ => []
  | fuel + 1, dst =>
    if (pos.board dst).is_side pos.side.inv then
      [Move.Nondrop src dst (can_promote_mv pos.side pt src dst)]
    else if !(pos.board dst).is_empty then []
    else
      Move.Nondrop src dst (can_promote_mv pos.side pt src dst) ::
        pl_ranged_walk pos src pt dir fuel (dst + dir)

def moves_pseudo_legal_nondrop_ranged (pos : Position) (src : Sq) (pt : Piece)
    (dir : Int) : List Move :=
  pl_ranged_walk pos src pt dir rayFuel (src + dir)

def moves_pseudo_legal_nondrop_lance (pos : Position) (src : Sq) : List Move :=
  moves_pseudo_legal_nondrop_ranged pos src Piece.Lance (-11 * pos.side.sgn)

def moves_pseudo_legal_nondrop_bishop (pos : Position) (src : Sq) (pt : Piece) :
    List Move :=
  ([12, 10, -10, -12] : List Int).flatMap fun dir =>
    moves_pseudo_legal_nondrop_ranged pos src pt (dir * pos.side.sgn)

def moves_pseudo_legal_nondrop_rook (pos : Position) (src : Sq) (pt : Piece) :
    List Move :=
  ([11, -11, 1, -1] : List Int).flatMap fun dir =>
    moves_pseudo_legal_nondrop_ranged pos src pt (dir * pos.side.sgn)

def moves_pseudo_legal_nondrop_horse (pos : Position) (src : Sq) : List Move :=
  moves_pseudo_legal_nondrop_bishop pos src Piece.Horse ++
    moves_pseudo_legal_nondrop_melee pos src Piece.Horse

def moves_pseudo_legal_nondrop_dragon (pos : Position) (src : Sq) : List Move :=
  moves_pseudo_legal_nondrop_rook pos src Piece.Dragon ++
    moves_pseudo_legal_nondrop_melee pos src Piece.Dragon

def moves_pseudo_legal_nondrop (pos : Position) (src : Sq) (pt : Piece) :
    List Move :=
  match pt with
  | Piece.Lance => moves_pseudo_legal_nondrop_lance pos src
  | Piece.Bishop => moves_pseudo_legal_nondrop_bishop pos src Piece.Bishop
  | Piece.Rook => moves_pseudo_legal_nondrop_rook pos src Piece.Rook
  | Piece.Horse => moves_pseudo_legal_nondrop_horse pos src
  | Piece.Dragon => moves_pseudo_legal_nondrop_dragon pos src
  | _ => moves_pseudo_legal_nondrop_melee pos src pt

/-- `moves_pseudo_legal_drop`: drops of the pieces in hand (original drop
ordering pawn, lance, knight, silver, gold, bishop, rook) onto `dst`. -/
def moves_pseudo_legal_drop (pos : Position) (dst : Sq) : List Move :=
  let PTS : List Piece :=
    [Piece.Pawn, Piece.Lance, Piece.Knight, Piece.Silver, Piece.Gold,
     Piece.Bishop, Piece.Rook]
  let my := pos.side
  let is_ok : Piece → Bool := fun pt =>
    if !(pos.board dst).is_empty then false
    else if !(dst.can_put my pt) then false
    else if pt = Piece.Pawn && pawn_mask_test pos.board my dst.x then false
    else true
  (((PTS.filter fun pt => pos.hand my pt > 0).filter is_ok).map
    fun pt => Move.Drop pt dst)

def moves_pseudo_legal (pos : Position) : List Move :=
  (Sq.iter_valid_sim pos.side).flatMap fun sq =>
    match (pos.board sq).piece_of pos.side with
    | some pt => moves_pseudo_legal_nondrop pos sq pt
    | none => moves_pseudo_legal_drop pos sq

--------------------------------------------------------------------
-- your_move.rs: evasion generation
--------------------------------------------------------------------

/-- The your-side evasion nondrop generators
(`moves_evasion_nondrop{,_melee,_ranged,_lance,_bishop,_rook,_horse,_dragon}`)
are textually identical to the my-side pseudo-legal nondrop generators with
the roles `my`/`your` renamed; both emit moves of `pos.side` against
`pos.side.inv`.  We therefore share the definition. -/
def moves_evasion_nondrop (pos : Position) (src : Sq) (pt : Piece) : List Move :=
  moves_pseudo_legal_nondrop pos src pt

/-- `moves_evasion_drop`: drops on the 3x3 neighborhood of the king, hand
pieces in `Piece::iter_hand` order. -/
def moves_evasion_drop (pos : Position) (sq_king_your : Sq) : List Move :=
  let NEIGHBOR : List Int := [-12, -11, -10, -1, 0, 1, 10, 11, 12]
  let your := pos.side
  let is_ok : Piece → Sq → Bool := fun pt dst =>
    if !(pos.board dst).is_empty then false
    else if !(dst.can_put your pt) then false
    else if pt = Piece.Pawn && pawn_mask_test pos.board your dst.x then false
    else true
  let sqs := (NEIGHBOR.map fun di => sq_king_your + di).filter Sq.is_valid
  ((sqs.flatMap fun dst =>
      (Piece.iter_hand.filter fun pt => pos.hand your pt > 0).map
        fun pt => (pt, dst)).filter
    fun pd => is_ok pd.1 pd.2).map fun pd => Move.Drop pd.1 pd.2

/-- `moves_evasion`: king nondrops, then drops around the king, then
non-king nondrops.  `none` models the king-lookup panic. -/
def moves_evasion (pos : Position) : Option (List Move) :=
  match find_king_sq pos.board pos.side with
  | none => none
  | some sq_king_your =>
    let it_nondrop_king := moves_evasion_nondrop pos sq_king_your Piece.King
    let it_drop := moves_evasion_drop pos sq_king_your
    let it_nondrop_nonking :=
      ((Sq.iter_valid.filter fun sq => sq ≠ sq_king_your).flatMap fun src =>
        match (pos.board src).piece_of pos.side with
        | some pt => moves_evasion_nondrop pos src pt
        | none => [])
    some (it_nondrop_king ++ it_drop ++ it_nondrop_nonking)

--------------------------------------------------------------------
-- can_capture_king (position.rs)
--------------------------------------------------------------------

/-- `Position::can_capture_king`; the source unwraps the king lookup, we
return `false` when the opposite king is absent. -/
def Position.can_capture_king (pos : Position) : Bool :=
  match find_king_sq pos.board pos.side.inv with
  | some sq => (iter_effects pos.board pos.side).any fun e => sq = e.2
  | none => false

end Naitou

namespace Naitou

--------------------------------------------------------------------
-- Opening book (book.rs)
--------------------------------------------------------------------

inductive Formation where
  | Nakabisha
  | Sikenbisha
  | Kakugawari
  | Sujichigai
  | YourHishaochi
  | YourNimaiochi
  | MyHishaochi
  | MyNimaiochi
  | Nothing
deriving DecidableEq, Repr

/-- A book branch entry: a canned reply or a formation change. -/
inductive BookBranchEntry where
  | Mv (sq_your : Sq) (pt_your : Piece) (src_my dst_my : Sq)
  | Change (sq_your : Sq) (pt_your : Piece) (formation : Formation) (ply : Nat)
deriving DecidableEq, Repr

abbrev BookMovesEntry := Sq × Sq

/-- Book squares are written from the my-is-gote viewpoint; flip for sente. -/
def book_sq (sq : Sq) (my : Side) : Sq :=
  match my with
  | Side.Sente => sq.inv
  | Side.Gote => sq

/-- The done bitmasks (u32 in the source) are modelled as bit functions. -/
structure BookState where
  formation : Formation
  done_branch : Nat → Bool
  done_moves : Nat → Bool

def bit_assign (f : Nat → Bool) (bit : Nat) (value : Bool) : Nat → Bool :=
  fun j => if j = bit then value else f j

def BookState.new (formation : Formation) : BookState :=
  { formation := formation, done_branch := fun _ => false,
    done_moves := fun _ => false }

def BookState.change_formation (_bs : BookState) (formation : Formation) : BookState :=
  { formation := formation, done_branch := fun _ => false,
    done_moves := fun _ => false }

def bbm (sx sy : Int) (pt : Piece) (mx m_y dx dy : Int) : BookBranchEntry :=
  BookBranchEntry.Mv (Sq.from_xy sx sy) pt (Sq.from_xy mx m_y) (Sq.from_xy dx dy)

def bbc (sx sy : Int) (pt : Piece) (f : Formation) (ply : Nat) : BookBranchEntry :=
  BookBranchEntry.Change (Sq.from_xy sx sy) pt f ply

def bme (sx sy dx dy : Int) : BookMovesEntry := (Sq.from_xy sx sy, Sq.from_xy dx dy)

def BRANCH_NAKABISHA : List BookBranchEntry :=
  [bbc 8 2 Piece.Bishop Formation.Kakugawari 5,
   bbc 8 2 Piece.Horse Formation.Kakugawari 5,
   bbm 5 5 Piece.Bishop 5 3 5 4,
   bbm 6 6 Piece.Bishop 6 4 6 5,
   bbm 6 6 Piece.Silver 6 4 6 5,
   bbm 8 6 Piece.Silver 6 1 7 2,
   bbm 6 6 Piece.Pawn 8 2 7 3,
   bbm 1 6 Piece.Pawn 1 3 1 4,
   bbm 8 5 Piece.Pawn 8 2 7 3,
   bbm 7 5 Piece.Silver 6 4 6 5]

def BRANCH_SIKENBISHA : List BookBranchEntry :=
  [bbc 8 2 Piece.Bishop Formation.Kakugawari 5,
   bbc 8 2 Piece.Horse Formation.Kakugawari 5,
   bbm 5 5 Piece.Bishop 5 3 5 4,
   bbm 6 6 Piece.Bishop 6 4 6 5,
   bbm 6 6 Piece.Silver 6 4 6 5,
   bbm 8 6 Piece.Silver 6 2 7 2,
   bbm 6 6 Piece.Pawn 8 2 7 3,
   bbm 1 6 Piece.Pawn 1 3 1 4,
   bbm 8 5 Piece.Pawn 8 2 7 3,
   bbm 7 5 Piece.Silver 6 4 6 5]

def BRANCH_KAKUGAWARI : List BookBranchEntry :=
  [bbc 6 5 Piece.Bishop Formation.Sujichigai 5,
   bbc 5 6 Piece.Bishop Formation.Sujichigai 5,
   bbm 1 6 Piece.Pawn 1 3 1 4]

def BRANCH_SUJICHIGAI : List BookBranchEntry :=
  [bbm 1 6 Piece.Pawn 1 3 1 4,
   bbm 9 6 Piece.Pawn 9 3 9 4]

def BRANCH_YOUR_HISHAOCHI : List BookBranchEntry :=
  [bbm 9 6 Piece.Pawn 9 3 9 4,
   bbm 1 6 Piece.Pawn 1 3 1 4,
   bbm 8 2 Piece.Bishop 7 1 8 2,
   bbm 8 2 Piece.Horse 7 1 8 2]

def BRANCH_YOUR_NIMAIOCHI : List BookBranchEntry :=
  [bbm 5 6 Piece.Pawn 5 3 5 4]

def BRANCH_MY_HISHAOCHI : List BookBranchEntry :=
  [bbm 8 5 Piece.Pawn 8 2 7 3,
   bbm 1 6 Piece.Pawn 1 3 1 4,
   bbm 9 6 Piece.Pawn 9 3 9 4]

def BRANCH_MY_NIMAIOCHI : List BookBranchEntry :=
  [bbm 9 6 Piece.Pawn 9 3 9 4,
   bbm 1 6 Piece.Pawn 1 3 1 4,
   bbm 5 6 Piece.Pawn 5 3 5 4,
   bbm 7 5 Piece.Pawn 7 1 8 2]

def MOVES_NAKABISHA : List BookMovesEntry :=
  [bme 7 3 7 4, bme 6 3 6 4, bme 7 1 6 2, bme 2 2 5 2, bme 6 2 6 3,
   bme 5 1 4 2, bme 4 2 3 2, bme 3 1 4 2, bme 8 2 7 3, bme 5 3 5 4,
   bme 4 3 4 4, bme 4 2 4 3, bme 4 1 4 2, bme 6 1 6 2, bme 6 2 5 3,
   bme 5 2 8 2, bme 8 3 8 4, bme 8 4 8 5, bme 6 4 6 5]

def MOVES_SIKENBISHA : List BookMovesEntry :=
  [bme 7 3 7 4, bme 6 3 6 4, bme 7 1 7 2, bme 2 2 6 2, bme 7 2 6 3,
   bme 5 1 4 2, bme 4 2 3 2, bme 3 2 2 2, bme 3 1 3 2, bme 6 1 5 2,
   bme 8 2 7 3, bme 4 3 4 4, bme 5 2 4 3, bme 3 3 3 4, bme 6 2 6 1,
   bme 1 3 1 4, bme 6 4 6 5]

def MOVES_KAKUGAWARI : List BookMovesEntry :=
  [bme 7 3 7 4, bme 7 1 8 2, bme 8 2 7 3, bme 3 1 4 2, bme 2 3 2 4,
   bme 6 1 7 2, bme 2 4 2 5, bme 4 1 5 2, bme 5 1 6 1, bme 4 3 4 4,
   bme 4 2 4 3, bme 3 3 3 4, bme 6 1 7 1, bme 7 1 8 2, bme 6 3 6 4,
   bme 5 2 6 3, bme 1 3 1 4, bme 2 1 3 3, bme 4 4 4 5, bme 4 3 5 4]

def MOVES_SUJICHIGAI : List BookMovesEntry :=
  [bme 7 3 7 4, bme 7 1 8 2, bme 4 1 5 2, bme 6 1 7 2, bme 8 2 7 3,
   bme 3 1 4 2, bme 2 3 2 4, bme 2 4 2 5, bme 5 1 6 1, bme 4 3 4 4,
   bme 4 2 4 3, bme 5 3 5 4, bme 3 3 3 4, bme 2 1 3 3, bme 1 3 1 4,
   bme 9 3 9 4, bme 7 3 6 4, bme 4 4 4 5]

def MOVES_YOUR_HISHAOCHI : List BookMovesEntry :=
  [bme 7 3 7 4, bme 2 3 2 4, bme 2 4 2 5, bme 6 1 7 2, bme 3 1 4 2,
   bme 4 1 5 2, bme 5 1 6 1, bme 5 3 5 4, bme 3 3 3 4, bme 7 1 6 2,
   bme 4 3 4 4, bme 4 2 4 3, bme 2 1 3 3, bme 1 3 1 4, bme 9 3 9 4,
   bme 8 2 7 3, bme 4 4 4 5]

def MOVES_YOUR_NIMAIOCHI : List BookMovesEntry :=
  [bme 7 3 7 4, bme 4 3 4 4, bme 4 4 4 5, bme 2 2 4 2, bme 3 3 3 4,
   bme 3 4 3 5, bme 3 1 3 2, bme 3 2 3 3, bme 6 1 7 2, bme 4 1 5 2,
   bme 5 1 6 1, bme 7 1 6 2, bme 5 3 5 4, bme 3 3 3 4, bme 2 1 3 3,
   bme 1 3 1 4, bme 9 3 9 4, bme 4 2 4 1, bme 3 5 3 6]

def MOVES_MY_HISHAOCHI : List BookMovesEntry :=
  [bme 7 3 7 4, bme 6 3 6 4, bme 6 1 7 2, bme 7 1 6 2, bme 6 2 6 3,
   bme 5 1 4 2, bme 4 2 3 2, bme 3 1 4 2, bme 5 3 5 4, bme 9 3 9 4,
   bme 1 3 1 4, bme 4 3 4 4, bme 4 2 4 3, bme 4 1 4 2, bme 3 3 3 4,
   bme 8 2 7 3]

def MOVES_MY_NIMAIOCHI : List BookMovesEntry :=
  [bme 6 1 7 2, bme 3 1 4 2, bme 5 3 5 4, bme 4 2 5 3, bme 4 1 4 2,
   bme 4 3 4 4, bme 4 2 4 3, bme 3 3 3 4, bme 5 1 4 2, bme 9 3 9 4,
   bme 1 3 1 4, bme 2 1 3 3, bme 7 1 6 2, bme 4 4 4 5]

/-- `get_book_branch`; `Nothing` is unreachable (asserted away by
`BookState::process`) and mapped to the empty table. -/
def get_book_branch : Formation → List BookBranchEntry
  | Formation.Nakabisha => BRANCH_NAKABISHA
  | Formation.Sikenbisha => BRANCH_SIKENBISHA
  | Formation.Kakugawari => BRANCH_KAKUGAWARI
  | Formation.Sujichigai => BRANCH_SUJICHIGAI
  | Formation.YourHishaochi => BRANCH_YOUR_HISHAOCHI
  | Formation.YourNimaiochi => BRANCH_YOUR_NIMAIOCHI
  | Formation.MyHishaochi => BRANCH_MY_HISHAOCHI
  | Formation.MyNimaiochi => BRANCH_MY_NIMAIOCHI
  | Formation.Nothing => []

def get_book_moves : Formation → List BookMovesEntry
  | Formation.Nakabisha => MOVES_NAKABISHA
  | Formation.Sikenbisha => MOVES_SIKENBISHA
  | Formation.Kakugawari => MOVES_KAKUGAWARI
  | Formation.Sujichigai => MOVES_SUJICHIGAI
  | Formation.YourHishaochi => MOVES_YOUR_HISHAOCHI
  | Formation.YourNimaiochi => MOVES_YOUR_NIMAIOCHI
  | Formation.MyHishaochi => MOVES_MY_HISHAOCHI
  | Formation.MyNimaiochi => MOVES_MY_NIMAIOCHI
  | Formation.Nothing => []

/-- Result of one scan of the branch table. -/
inductive BranchScanResult where
  | found (mv : Move) (bs : BookState)
  | changed (bs : BookState)
  | nothing

/-- One pass over the (indexed) branch entries of the current formation. -/
def scan_branches (pos : Position) (progress_ply : Nat) (bs : BookState) :
    List (Nat × BookBranchEntry) → BranchScanResult
  | [] => BranchScanResult.nothing
  | (i, e) :: rest =>
    if bs.done_branch i then scan_branches pos progress_ply bs rest
    else
      let my := pos.side
      let your := my.inv
      match e with
      | BookBranchEntry.Mv sq_your pt_your src_my dst_my =>
        if (pos.board (book_sq sq_your my)).is_side_pt your pt_your then
          BranchScanResult.found
            (Move.Nondrop (book_sq src_my my) (book_sq dst_my my) false)
            { bs with done_branch := bit_assign bs.done_branch i (progress_ply ≠ 0) }
        else scan_branches pos progress_ply bs rest
      | BookBranchEntry.Change sq_your pt_your formation ply =>
        if (pos.board (book_sq sq_your my)).is_side_pt your pt_your
            && progress_ply ≤ ply then
          BranchScanResult.changed (bs.change_formation formation)
        else scan_branches pos progress_ply bs rest

/-- The `'outer` loop of `BookState::process`: rescan from the top after
every formation change.  Fuel models the (finite) cascade; `none` is
unreachable for the book data of the source. -/
def branch_loop (pos : Position) (progress_ply : Nat) :
    Nat → BookState → Option (Option (Move × BookState) × BookState)
  | 0, _ => none
  | fuel + 1, bs =>
    match scan_branches pos progress_ply bs (get_book_branch bs.formation).enum with
    | BranchScanResult.found mv bs' => some (some (mv, bs'), bs')
    | BranchScanResult.changed bs' => branch_loop pos progress_ply fuel bs'
    | BranchScanResult.nothing => some (none, bs)

/-- The moves-table scan of `BookState::process`. -/
def scan_moves (my : Side) (progress_ply : Nat) (bs : BookState) :
    List (Nat × BookMovesEntry) → Option (Move × BookState)
  | [] => none
  | (i, e) :: rest =>
    if bs.done_moves i then scan_moves my progress_ply bs rest
    else
      some (Move.Nondrop (book_sq e.1 my) (book_sq e.2 my) false,
        { bs with done_moves := bit_assign bs.done_moves i (progress_ply ≠ 0) })

/-- `BookState::process`.  The outer `Option` models the panics and the
branch-cascade fuel; the inner `Option Move` is the book's answer (with
`none` meaning the book is exhausted and the formation became `Nothing`). -/
def BookState.process (bs : BookState) (pos : Position) (progress_ply : Nat) :
    Option (Option Move × BookState) :=
  if bs.formation = Formation.Nothing then none
  else
    match branch_loop pos progress_ply 16 bs with
    | none => none
    | some (some (mv, bs'), _) => some (some mv, bs')
    | some (none, bs₁) =>
      match scan_moves pos.side progress_ply bs₁ (get_book_moves bs₁.formation).enum with
      | some (mv, bs₂) => some (some mv, bs₂)
      | none => some (none, { bs₁ with formation := Formation.Nothing })

end Naitou

namespace Naitou

--------------------------------------------------------------------
-- ai.rs: evaluation structures
--------------------------------------------------------------------

structure RootEval where
  adv_price : Nat
  disadv_price : Nat
  power_my : Nat
  power_your : Nat
  rbp_my : Nat
deriving DecidableEq, Repr

structure PositionEval where
  adv_price : Nat
  adv_sq : Sq
  disadv_price : Nat
  disadv_sq : Sq
  hanging_your : Bool
  king_safety_far_my : Nat
  king_threat_far_my : Nat
  king_threat_far_your : Nat
  king_threat_near_my : Nat
  n_choke_my : Nat
  n_loose_my : Nat
  n_promoted_my : Nat
  n_promoted_your : Nat
deriving DecidableEq, Repr

structure CandEval where
  adv_price : Nat
  capture_price : Nat
  disadv_price : Nat
  dst_to_your_king : Nat
  is_sacrifice : Bool
  nega : Nat
  posi : Nat
  to_my_king : Nat
deriving DecidableEq, Repr

structure BestEval where
  adv_price : Nat
  adv_sq : Sq
  capture_price : Nat
  disadv_price : Nat
  disadv_sq : Sq
  dst_to_your_king : Nat
  king_safety_far_my : Nat
  king_threat_far_my : Nat
  king_threat_far_your : Nat
  n_loose_my : Nat
  n_promoted_my : Nat
  nega : Nat
  posi : Nat
  to_my_king : Nat
deriving DecidableEq, Repr

/-- `BestEval::default`: sentinel values any first candidate improves on. -/
def BestEval.default : BestEval :=
  { adv_price := 0, adv_sq := SQ_INVALID, capture_price := 0,
    disadv_price := 99, disadv_sq := SQ_INVALID, dst_to_your_king := 99,
    king_safety_far_my := 0, king_threat_far_my := 99,
    king_threat_far_your := 0, n_loose_my := 99, n_promoted_my := 0,
    nega := 99, posi := 0, to_my_king := 0 }

inductive TweakResult where
  | Normal
  | YourMate
  | Reject
deriving DecidableEq, Repr

inductive MateJudge where
  | Nonmate
  | Mate
  | DropPawnMate
deriving DecidableEq, Repr

/-- `naitou_drop_src`; the non-hand arm panics in the source (never
reached for drop moves) and is mapped to 0. -/
def naitou_drop_src : Piece → Nat
  | Piece.Rook => 207
  | Piece.Bishop => 206
  | Piece.Gold => 205
  | Piece.Silver => 204
  | Piece.Knight => 203
  | Piece.Lance => 202
  | Piece.Pawn => 201
  | _ => 0

structure CandInfo where
  mv : Move
  pt_src : Piece
  pt_dst : Piece
  pt_capture : Option Piece
  sq_king_my : Sq
  sq_king_your : Sq
deriving DecidableEq, Repr

/-- `CandInfo::from_pos_mv`; `none` models its unwraps. -/
def CandInfo.from_pos_mv (pos : Position) (mv : Move) : Option CandInfo :=
  let my := pos.side
  let your := my.inv
  let pts : Option (Piece × Piece) :=
    match mv with
    | Move.Nondrop src _ is_promotion =>
      match (pos.board src).piece_of my with
      | none => none
      | some pt_src =>
        if is_promotion then
          match pt_src.to_promoted with
          | some pt_dst => some (pt_src, pt_dst)
          | none => none
        else some (pt_src, pt_src)
    | Move.Drop pt _ => some (pt, pt)
  match pts, find_king_sq pos.board my, find_king_sq pos.board your with
  | some (pt_src, pt_dst), some sq_king_my, some sq_king_your =>
    some { mv := mv, pt_src := pt_src, pt_dst := pt_dst,
           pt_capture := (pos.board mv.dst).piece_of your,
           sq_king_my := sq_king_my, sq_king_your := sq_king_your }
  | _, _, _ => none

--------------------------------------------------------------------
-- ai.rs: evaluators (the `self` fields an evaluator reads are passed
-- explicitly: `my`, `progress_level`, `progress_ply`, `pos`)
--------------------------------------------------------------------

/-- `Ai::eval_power`: `(rbp, power)` with 8-bit wrapping accumulation. -/
def eval_power (progress_ply : Nat) (pos : Position) (side : Side)
    (n_promoted : Nat) : Nat × Nat :=
  let rbp := pos.hand side Piece.Rook + pos.hand side Piece.Bishop + n_promoted
  let gs := pos.hand side Piece.Gold + pos.hand side Piece.Silver
  let kl := pos.hand side Piece.Knight + pos.hand side Piece.Lance
  let p := pos.hand side Piece.Pawn
  let ply_factor0 := progress_ply / 11
  let ply_factor := if ply_factor0 ≥ 7 then ply_factor0 * 2 else ply_factor0
  let power := wadd (wadd (wadd (wadd (wadd 0 (rbp * 8 % 256)) (4 * gs)) (2 * kl)) p) ply_factor
  (rbp, power)

/-- `Ai::is_adv_sq`.  The attacker lookup is unwrapped in the source; a
square with positive count but no attacker cannot arise from
`EffectBoard::from_board` (every shadow effect is accompanied by the
blocker's own direct effect), and is treated as not advantaged. -/
def is_adv_sq (my : Side) (progress_level : Nat) (pos : Position)
    (eff_board : EffectBoard) (sq : Sq) : Bool :=
  let your := my.inv
  match (pos.board sq).piece_of your with
  | none => false
  | some pt_your =>
    let eff_my := (eff_board sq my).count
    let eff_your := (eff_board sq your).count
    if eff_my = 0 then false
    else if eff_your = 0 then true
    else
      match (eff_board sq my).attacker with
      | none => false
      | some atk_my =>
        let price_my := PRICES_1 atk_my
        let price_your := PRICES_1 pt_your
        if price_my < price_your then true
        else if price_my = price_your then progress_level ≠ 0
        else false

/-- `Ai::eval_adv`: `(posi sum, adv_price, adv_sq)`.  The your-piece
lookup is guaranteed by `is_adv_sq` (unwrapped in the source). -/
def eval_adv (my : Side) (progress_level : Nat) (pos : Position)
    (eff_board : EffectBoard) : Nat × Nat × Sq :=
  let your := my.inv
  let sqs := (Sq.iter_valid_sim my).filter fun sq =>
    is_adv_sq my progress_level pos eff_board sq
  sqs.foldl
    (fun acc sq =>
      match (pos.board sq).piece_of your with
      | some pt_your =>
        let price := PRICES_1 pt_your
        let sum' := wadd acc.1 price
        let (adv', ch) := chmax acc.2.1 price
        (sum', adv', if ch then sq else acc.2.2)
      | none => acc)
    (0, 0, SQ_INVALID)

/-- `Ai::is_disadv_sq`: `(is disadvantage square, recapture flag)`. -/
def is_disadv_sq (my : Side) (pos : Position) (eff_board : EffectBoard)
    (sq : Sq) : Bool × Bool :=
  let your := my.inv
  match (pos.board sq).piece_of my with
  | none => (false, false)
  | some pt_my =>
    let eff_my := (eff_board sq my).count
    let eff_your := (eff_board sq your).count
    if eff_your = 0 then (false, false)
    else if pt_my = Piece.King then (true, false)
    else if eff_my = 0 then (true, false)
    else
      match (eff_board sq my).attacker, (eff_board sq your).attacker with
      | some atk_my, some atk_your =>
        let price_pt_my := PRICES_3 pt_my
        let price_atk_my := PRICES_3 atk_my
        let price_atk_your := PRICES_2 atk_your
        if eff_my < eff_your then
          (price_pt_my + price_atk_my ≥ price_atk_your, false)
        else if price_atk_your < price_pt_my then (true, true)
        else (false, false)
      | _, _ => (false, false)

structure DisadvAcc where
  nega : Nat
  disadv_price : Nat
  disadv_sq : Sq
  is_sacrifice_my : Bool
  exchange : Bool
deriving DecidableEq, Repr

def DisadvAcc.init : DisadvAcc :=
  { nega := 0, disadv_price := 0, disadv_sq := SQ_INVALID,
    is_sacrifice_my := false, exchange := false }

/-- One iteration of the `Ai::eval_disadv` square loop. -/
def eval_disadv_step (my : Side) (pos : Position) (eff_board : EffectBoard)
    (cand : Option CandInfo) (acc : DisadvAcc) (sq : Sq) : DisadvAcc :=
  let r := is_disadv_sq my pos eff_board sq
  if !r.1 then acc
  else
    let exchange := acc.exchange || r.2
    let is_sac := acc.is_sacrifice_my ||
      (match cand with
       | some c => sq = c.mv.dst && c.pt_capture = none
       | none => false)
    match (pos.board sq).piece_of my with
    | none => acc
    | some pt_my =>
      let price := PRICES_3 pt_my
      let nega1 := wadd acc.nega price
      let c := chmax acc.disadv_price price
      let dsq1 := if c.2 then sq else acc.disadv_sq
      if exchange then
        { nega := wsub nega1 1, disadv_price := wsub c.1 1, disadv_sq := dsq1,
          is_sacrifice_my := is_sac, exchange := exchange }
      else
        { nega := nega1, disadv_price := c.1, disadv_sq := dsq1,
          is_sacrifice_my := is_sac, exchange := exchange }

/-- `Ai::eval_disadv`: `(nega, disadv_price, disadv_sq, is_sacrifice_my)`. -/
def eval_disadv (my : Side) (pos : Position) (eff_board : EffectBoard)
    (cand : Option CandInfo) : Nat × Nat × Sq × Bool :=
  let acc := (Sq.iter_valid_sim my).foldl
    (eval_disadv_step my pos eff_board cand) DisadvAcc.init
  (acc.nega, acc.disadv_price, acc.disadv_sq, acc.is_sacrifice_my)

/-- `Ai::eval_hanging`. -/
def eval_hanging (my : Side) (b : Board) (eff_board : EffectBoard) : Bool :=
  let your := my.inv
  Sq.iter_valid.any fun sq =>
    if SqY.rel sq.y my < 6 then false
    else
      match (b sq).piece_of your with
      | some pt =>
        if pt = Piece.Pawn ∨ pt = Piece.Lance then
          let dst := sq + 11 * my.sgn
          (eff_board dst my).count < (eff_board dst your).count
        else false
      | none => false

/-- `Ai::eval_n_loose`. -/
def eval_n_loose (my : Side) (b : Board) (eff_board : EffectBoard) : Nat :=
  Sq.iter_valid.foldl
    (fun n sq =>
      match (b sq).piece_of my with
      | some pt =>
        if pt = Piece.King ∨ pt = Piece.Knight ∨ pt = Piece.Lance ∨ pt = Piece.Pawn
        then n
        else if (eff_board sq my).count = 0 then n + 1 else n
      | none => n)
    0

def cell_promoted (cell : BoardCell) (side : Side) : Bool :=
  match cell.piece_of side with
  | some pt => pt.is_promoted
  | none => false

/-- `Ai::eval_n_promoted`: `(my promoted count, your promoted count)`. -/
def eval_n_promoted (my : Side) (b : Board) : Nat × Nat :=
  Sq.iter_valid.foldl
    (fun acc sq =>
      ((if cell_promoted (b sq) my then acc.1 + 1 else acc.1),
       (if cell_promoted (b sq) my.inv then acc.2 + 1 else acc.2)))
    (0, 0)

/-- `Ai::eval_around_kings`: the five king-proximity aggregates. -/
def eval_around_kings (my : Side) (eff_board : EffectBoard)
    (sq_king_my sq_king_your : Sq) : Nat × Nat × Nat × Nat × Nat :=
  let your := my.inv
  Sq.iter_valid.foldl
    (fun acc sq =>
      let (ksf, ktf, ktfy, ktn, nch) := acc
      let dist_to_my := Sq.distU sq sq_king_my
      let dist_to_your := Sq.distU sq sq_king_your
      let cnt_my := (eff_board sq my).count
      let cnt_your := (eff_board sq your).count
      let ksf := if dist_to_my ≤ 2 then ksf + cnt_my else ksf
      let ktf := if dist_to_my ≤ 2 then ktf + cnt_your else ktf
      let ktn := if dist_to_my = 1 then ktn + cnt_your else ktn
      let nch := if dist_to_my = 1 ∧ cnt_your ≥ cnt_my then nch + 1 else nch
      let ktfy := if dist_to_your ≤ 2 then ktfy + cnt_my else ktfy
      (ksf, ktf, ktfy, ktn, nch))
    (0, 0, 0, 0, 0)

/-- `Ai::eval_position`; `none` models the king-lookup panics. -/
def eval_position (my : Side) (progress_level : Nat) (pos : Position)
    (eff_board : EffectBoard) (cand : Option CandInfo) :
    Option (PositionEval × Option CandEval) :=
  let kings : Option (Sq × Sq) :=
    match cand with
    | some c => some (c.sq_king_my, c.sq_king_your)
    | none =>
      match find_king_sq pos.board my, find_king_sq pos.board my.inv with
      | some km, some ky => some (km, ky)
      | _, _ => none
  match kings with
  | none => none
  | some (sq_king_my, sq_king_your) =>
    let (posi, adv_price, adv_sq) := eval_adv my progress_level pos eff_board
    let (nega, disadv_price, disadv_sq, is_sacrifice_my) :=
      eval_disadv my pos eff_board cand
    let hanging_your := eval_hanging my pos.board eff_board
    let n_loose_my := eval_n_loose my pos.board eff_board
    let (n_promoted_my, n_promoted_your) := eval_n_promoted my pos.board
    let (king_safety_far_my, king_threat_far_my, king_threat_far_your,
         king_threat_near_my, n_choke_my) :=
      eval_around_kings my eff_board sq_king_my sq_king_your
    let pos_eval : PositionEval :=
      { adv_price := adv_price, adv_sq := adv_sq,
        disadv_price := disadv_price, disadv_sq := disadv_sq,
        hanging_your := hanging_your,
        king_safety_far_my := king_safety_far_my,
        king_threat_far_my := king_threat_far_my,
        king_threat_far_your := king_threat_far_your,
        king_threat_near_my := king_threat_near_my,
        n_choke_my := n_choke_my, n_loose_my := n_loose_my,
        n_promoted_my := n_promoted_my, n_promoted_your := n_promoted_your }
    let cand_eval : Option CandEval :=
      match cand with
      | some c =>
        let capture_price := match c.pt_capture with
          | some pt => PRICES_0 pt
          | none => 0
        let dst_to_your_king := (Sq.distU c.mv.dst sq_king_your).toNat
        let to_my_king := (Sq.distU
          (match c.mv with
           | Move.Nondrop src _ _ => src
           | Move.Drop _ dst => dst) sq_king_my).toNat
        some { adv_price := adv_price, capture_price := capture_price,
               disadv_price := disadv_price,
               dst_to_your_king := dst_to_your_king,
               is_sacrifice := is_sacrifice_my, nega := nega, posi := posi,
               to_my_king := to_my_king }
      | none => none
    some (pos_eval, cand_eval)

/-- `Ai::eval_root`. -/
def eval_root (my : Side) (progress_level progress_ply : Nat)
    (pos : Position) (eff_board : EffectBoard) : Option RootEval :=
  match eval_position my progress_level pos eff_board none with
  | none => none
  | some (pos_eval, _) =>
    let (rbp_my, power_my) := eval_power progress_ply pos my pos_eval.n_promoted_my
    let power_your := (eval_power progress_ply pos my.inv pos_eval.n_promoted_your).2
    some { adv_price := pos_eval.adv_price, disadv_price := pos_eval.disadv_price,
           power_my := power_my, power_your := power_your, rbp_my := rbp_my }

end Naitou

namespace Naitou

--------------------------------------------------------------------
-- ai.rs: mate judgement
--------------------------------------------------------------------

/-- The evasion loop of `Ai::judge_mate_your`: `some true` iff some
evasion leaves the opponent king free of own-side effects. -/
def judge_mate_loop (my : Side) (pos : Position) : List Move → Option Bool
  | [] => some false
  | mv :: rest =>
    match pos.do_move mv with
    | none => none
    | some (pos', _) =>
      match find_king_sq pos'.board my.inv with
      | none => none
      | some sq_king_your =>
        if (EffectBoard.from_board pos'.board my sq_king_your my).count = 0 then
          some true
        else judge_mate_loop my pos rest

/-- `Ai::judge_mate_your`, called with the candidate already applied
(`pos.side` is the opponent). -/
def judge_mate_your (my : Side) (pos : Position) (mv_cand : Move) :
    Option MateJudge :=
  match moves_evasion pos with
  | none => none
  | some mvs =>
    match judge_mate_loop my pos mvs with
    | none => none
    | some true => some MateJudge.Nonmate
    | some false =>
      if mv_cand.is_drop_pt Piece.Pawn then some MateJudge.DropPawnMate
      else some MateJudge.Mate

--------------------------------------------------------------------
-- ai.rs: the tweak pipeline, split into its successive steps
--------------------------------------------------------------------

/-- Tweak step 1 (mate test trigger): `some none` is Reject
(drop-pawn-mate), `some (some (ce, m))` continues with `m` marking
opponent-mate, outer `none` models panics inside the mate test. -/
def tweak_mate_stage (my : Side) (pos : Position) (mv_cand : Move)
    (ce : CandEval) : Option (Option (CandEval × Bool)) :=
  if ce.disadv_price < 30 ∧ ce.adv_price ≥ 30 ∧ ce.dst_to_your_king < 3 then
    match judge_mate_your my pos mv_cand with
    | none => none
    | some MateJudge.Nonmate => some (some (ce, false))
    | some MateJudge.DropPawnMate => some none
    | some MateJudge.Mate =>
      some (some ({ ce with adv_price := 60, capture_price := 60,
                            disadv_price := 0 }, true))
  else some (some (ce, false))

/-- Tweak step 2: pawn capture bonus. -/
def tweak_step_pawn_capture (cand : CandInfo) (ce : CandEval) : CandEval :=
  if ce.disadv_price < 20 ∧ cand.pt_dst = Piece.Pawn ∧ ce.capture_price > 0 then
    { ce with nega := wsub ce.nega 1 }
  else ce

/-- Tweak step 4: hanging pawn/lance penalty. -/
def tweak_step_hanging (pos_eval : PositionEval) (ce : CandEval) : CandEval :=
  if pos_eval.hanging_your then { ce with nega := wadd ce.nega 4 } else ce

/-- Tweak step 5: far-pawn-loss tolerance. -/
def tweak_step_far_pawn (root_eval : RootEval) (pos_eval : PositionEval)
    (sq_king_my : Sq) (ce : CandEval) : CandEval :=
  if (root_eval.power_my ≥ 15 ∨ root_eval.power_your ≥ 15) ∧ ce.nega < 3 ∧
      Sq.distU pos_eval.disadv_sq sq_king_my ≥ 4 then
    { ce with nega := wsub ce.nega ce.disadv_price }
  else ce

/-- Tweak step 6: endgame bundle (three sequential sub-rules). -/
def tweak_step_endgame (root_eval : RootEval) (pos_eval : PositionEval)
    (cand : CandInfo) (sq_king_my sq_king_your : Sq) (ce : CandEval) : CandEval :=
  if root_eval.power_my ≥ 25 ∨ root_eval.power_your ≥ 25 then
    let ce :=
      if Sq.distU pos_eval.adv_sq sq_king_my ≥ 3 ∧
          Sq.distU pos_eval.adv_sq sq_king_your ≥ 4 then
        { ce with posi := wsub ce.posi ce.adv_price }
      else ce
    let ce :=
      if ce.disadv_price < 7 ∧ Sq.distU pos_eval.disadv_sq sq_king_my ≥ 3 ∧
          Sq.distU pos_eval.disadv_sq sq_king_your ≥ 3 then
        { ce with nega := wsub ce.nega ce.disadv_price }
      else ce
    if ce.capture_price > 0 then
      let dst_to_my_king := Sq.distU cand.mv.dst sq_king_my
      let dst_to_your_king := Sq.distU cand.mv.dst sq_king_your
      if dst_to_your_king ≤ 2 then
        { ce with capture_price := wadd ce.capture_price 2 }
      else if dst_to_my_king ≥ 4 ∧ dst_to_your_king ≥ 4 then
        { ce with capture_price := wsub ce.capture_price 3 }
      else ce
    else ce
  else ce

/-- Tweak step 7: idle-check suppression. -/
def tweak_step_idle_check (root_eval : RootEval) (pos_eval : PositionEval)
    (ce : CandEval) : CandEval :=
  if ce.adv_price ≥ 30 ∧ pos_eval.king_threat_far_your < 12 ∧
      root_eval.rbp_my < 4 ∧ root_eval.power_my < 35 ∧
      wsub ce.posi ce.adv_price < 3 then
    { ce with posi := wsub ce.posi ce.adv_price }
  else ce

/-- Tweak step 8: back-rank drop penalty. -/
def tweak_step_back_rank_drop (my : Side) (root_eval : RootEval)
    (cand : CandInfo) (ce : CandEval) : CandEval :=
  if cand.mv.is_drop ∧
      (cand.pt_dst = Piece.Rook ∨ cand.pt_dst = Piece.Bishop ∨
       cand.pt_dst = Piece.Gold ∨ cand.pt_dst = Piece.Silver) ∧
      SqY.rel cand.mv.dst.y my ≥ 5 ∧ root_eval.disadv_price < 30 ∧
      ce.dst_to_your_king ≥ 3 ∧ ce.to_my_king ≥ 3 then
    { ce with nega := wadd ce.nega 2 }
  else ce

/-- Tweak step 9: posi-to-capture nudge. -/
def tweak_step_posi_nudge (root_eval : RootEval) (ce : CandEval) : CandEval :=
  if root_eval.power_my ≥ 27 then
    if 3 ≤ ce.posi ∧ ce.posi < 6 then
      { ce with capture_price := wadd ce.capture_price 1 }
    else if 6 ≤ ce.posi then
      { ce with capture_price := wadd ce.capture_price 4 }
    else ce
  else ce

/-- Tweak step 10: big-piece drop placement. -/
def tweak_step_big_drop (my : Side) (root_eval : RootEval) (cand : CandInfo)
    (ce : CandEval) : CandEval :=
  if cand.mv.is_drop ∧ (cand.pt_dst = Piece.Rook ∨ cand.pt_dst = Piece.Bishop) then
    let y_rel := SqY.rel cand.mv.dst.y my
    if y_rel ≤ 2 then
      { ce with posi := wadd ce.posi 2, nega := wsub ce.nega 2 }
    else if root_eval.disadv_price < 30 then
      let ce := { ce with posi := wsub ce.posi 2, nega := wadd ce.nega 2 }
      if y_rel ≥ 6 then { ce with nega := wadd ce.nega 2 } else ce
    else ce
  else ce

/-- Tweak step 11: king-captures penalty. -/
def tweak_step_king_capture (cand : CandInfo) (ce : CandEval) : CandEval :=
  if cand.pt_dst = Piece.King then
    { ce with capture_price := wsub ce.capture_price 1, posi := wsub ce.posi 2 }
  else ce

/-- Tweak step 12 (opaque rule A). -/
def tweak_step_opaque_a (root_eval : RootEval) (pos_eval : PositionEval)
    (sq_king_my : Sq) (ce : CandEval) : CandEval :=
  if root_eval.power_my ≥ 31 ∧ ce.adv_price < 4 ∧ ce.disadv_price = 0 ∧
      pos_eval.king_threat_far_your ≥ 7 ∧
      Sq.distU pos_eval.adv_sq sq_king_my ≤ 2 then
    { ce with posi := wadd ce.posi ((pos_eval.king_threat_far_your - 7) / 2) }
  else ce

/-- Tweak step 13: bishop-clash avoidance. -/
def tweak_step_bishop_clash (cand : CandInfo) (ce : CandEval) : CandEval :=
  if ce.adv_price = 16 ∧ cand.pt_dst = Piece.Bishop then
    { ce with posi := wsub ce.posi ce.adv_price, adv_price := 0 }
  else ce

/-- Tweak step 14: choke-square discouragement. -/
def tweak_step_choke (root_eval : RootEval) (pos_eval : PositionEval)
    (cand : CandInfo) (ce : CandEval) : CandEval :=
  if root_eval.power_my ≥ 27 ∧
      ¬(cand.mv.is_drop ∧ (cand.pt_dst = Piece.Rook ∨ cand.pt_dst = Piece.Bishop))
  then
    { ce with posi := wsub ce.posi (4 * pos_eval.n_choke_my),
              nega := wadd ce.nega (4 * pos_eval.n_choke_my) }
  else ce

/-- The captured-piece filter of tweak step 15. -/
def is_big_capture_pt : Option Piece → Bool
  | some pt =>
    pt = Piece.King ∨ pt = Piece.Rook ∨ pt = Piece.Bishop ∨
      pt = Piece.Gold ∨ pt = Piece.Silver
  | none => false

/-- Tweak step 15: big-capture check bonus. -/
def tweak_step_big_capture_check (root_eval : RootEval) (pos_eval : PositionEval)
    (cand : CandInfo) (sq_king_your : Sq) (ce : CandEval) : CandEval :=
  if ce.capture_price ≥ 8 ∧ is_big_capture_pt cand.pt_capture ∧
      (ce.adv_price ≥ 30 ∨ Sq.distU pos_eval.adv_sq sq_king_your < 3) then
    if root_eval.power_my ≥ 30 ∧ pos_eval.king_threat_far_your ≥ 7 ∧
        root_eval.rbp_my ≥ 4 then
      let ce := { ce with posi := wadd ce.posi 2 }
      if 8 ≤ ce.disadv_price ∧ ce.disadv_price < 30 then
        { ce with nega := 8, disadv_price := 8 }
      else ce
    else ce
  else ce

/-- Tweak step 16: king-takes-nothing in crisis. -/
def tweak_step_king_crisis (pos_eval : PositionEval) (cand : CandInfo)
    (ce : CandEval) : CandEval :=
  if pos_eval.king_threat_near_my ≥ 5 ∧ cand.pt_dst = Piece.King then
    { ce with capture_price := 0 }
  else ce

/-- Tweak step 17: capture-check bonus. -/
def tweak_step_capture_check (root_eval : RootEval) (ce : CandEval) : CandEval :=
  if root_eval.power_my ≥ 35 ∧ ce.adv_price ≥ 30 ∧ ce.capture_price ≥ 2 then
    { ce with nega := wsub ce.nega 2 }
  else ce

/-- Tweak step 18 (opaque rule B). -/
def tweak_step_opaque_b (root_eval : RootEval) (ce : CandEval) : CandEval :=
  if root_eval.power_my ≥ 20 ∧ ce.capture_price < 2 then
    if ce.posi ≤ 4 then ce
    else if ce.posi ≤ 9 then { ce with capture_price := wadd ce.capture_price 1 }
    else if ce.posi ≤ 19 then { ce with capture_price := wadd ce.capture_price 2 }
    else { ce with capture_price := wadd ce.capture_price 3 }
  else ce

/-- Tweak step 19: rear big-piece drop. -/
def tweak_step_rear_drop (my : Side) (cand : CandInfo) (ce : CandEval) : CandEval :=
  if cand.mv.is_drop ∧ (cand.pt_dst = Piece.Rook ∨ cand.pt_dst = Piece.Bishop) ∧
      SqY.rel cand.mv.dst.y my ≥ 4 then
    { ce with posi := wsub ce.posi 3, nega := wadd ce.nega 3 }
  else ce

/-- Tweak step 20: promoted-piece king-approach; `dd as u8` truncates the
(possibly negative) i32 difference to its low 8 bits. -/
def tweak_step_promoted_approach (cand : CandInfo) (sq_king_your : Sq)
    (ce : CandEval) : CandEval :=
  match cand.mv with
  | Move.Nondrop src dst _ =>
    if cand.pt_src.is_promoted then
      let dd := Sq.distU src sq_king_your - Sq.distU dst sq_king_your
      { ce with posi := wadd ce.posi ((dd % 256)).toNat }
    else ce
  | Move.Drop _ _ => ce

/-- Tweak step 21: check bonus. -/
def tweak_step_check_bonus (root_eval : RootEval) (ce : CandEval) : CandEval :=
  if root_eval.power_my ≥ 25 ∧ ce.adv_price ≥ 30 then
    { ce with posi := wadd ce.posi 4, capture_price := wadd ce.capture_price 1,
              nega := wsub ce.nega 2 }
  else ce

/-- Tweak step 22: big-capture check bonus 2. -/
def tweak_step_big_capture_check2 (ce : CandEval) : CandEval :=
  if ce.adv_price ≥ 30 ∧ ce.capture_price ≥ 8 then
    { ce with nega := wsub ce.nega 4 }
  else ce

def chmax_zero (x : Nat) : Nat := if x &&& 128 ≠ 0 then 0 else x

/-- Tweak step 23: negative clamp. -/
def tweak_step_clamp (ce : CandEval) : CandEval :=
  { ce with capture_price := chmax_zero ce.capture_price,
            posi := chmax_zero ce.posi, nega := chmax_zero ce.nega }

/-- Tweak steps 4..23, i.e. everything after the sacrifice filter. -/
def tweak_rest (my : Side) (root_eval : RootEval) (pos_eval : PositionEval)
    (cand : CandInfo) (ce : CandEval) : CandEval :=
  let km := cand.sq_king_my
  let ky := cand.sq_king_your
  tweak_step_big_capture_check2
    (tweak_step_check_bonus root_eval
      (tweak_step_promoted_approach cand ky
        (tweak_step_rear_drop my cand
          (tweak_step_opaque_b root_eval
            (tweak_step_capture_check root_eval
              (tweak_step_king_crisis pos_eval cand
                (tweak_step_big_capture_check root_eval pos_eval cand ky
                  (tweak_step_choke root_eval pos_eval cand
                    (tweak_step_bishop_clash cand
                      (tweak_step_opaque_a root_eval pos_eval km
                        (tweak_step_king_capture cand
                          (tweak_step_big_drop my root_eval cand
                            (tweak_step_posi_nudge root_eval
                              (tweak_step_back_rank_drop my root_eval cand
                                (tweak_step_idle_check root_eval pos_eval
                                  (tweak_step_endgame root_eval pos_eval cand km ky
                                    (tweak_step_far_pawn root_eval pos_eval km
                                      (tweak_step_hanging pos_eval
                                        ce))))))))))))))))))
  |> tweak_step_clamp

/-- `Ai::tweak_eval`, returning the result together with the final
candidate evaluation (the source mutates it in place). -/
def tweak_eval (my : Side) (pos : Position) (root_eval : RootEval)
    (pos_eval : PositionEval) (ce : CandEval) (cand : CandInfo) :
    Option (TweakResult × CandEval) :=
  match tweak_mate_stage my pos cand.mv ce with
  | none => none
  | some none => some (TweakResult.Reject, ce)
  | some (some (ce1, is_mate)) =>
    let ce2 := tweak_step_pawn_capture cand ce1
    if ce2.is_sacrifice ∧ root_eval.disadv_price < 30 ∧ ¬is_mate then
      some (TweakResult.Reject, ce2)
    else
      let ce3 := tweak_rest my root_eval pos_eval cand ce2
      some ((if is_mate then TweakResult.YourMate else TweakResult.Normal), ce3)

end Naitou

namespace Naitou

--------------------------------------------------------------------
-- ai.rs: the best-vs-candidate comparator
--------------------------------------------------------------------

/-- The `tie_break!` macro: decide on strict inequality, fall through on
equality. -/
def tie_break (lhs rhs : Nat) : Option Bool :=
  if rhs < lhs then some true else if lhs < rhs then some false else none

/-- `Ai::can_improve_best`.  `naitou_best_src` is the persistent
`self.naitou_best_src` of the engine. -/
def can_improve_best (naitou_best_src : Nat) (root_eval : RootEval)
    (pos_eval : PositionEval) (cand_eval : CandEval) (best_eval : BestEval)
    (mv_cand : Move) : Bool :=
  if cand_eval.disadv_price ≥ 40 ∧ best_eval.disadv_price < 40 then false
  else if cand_eval.disadv_price < 40 ∧ best_eval.disadv_price ≥ 40 then true
  else
    let primary : Option Bool :=
      if best_eval.nega < cand_eval.nega then
        some
          (if cand_eval.capture_price < best_eval.capture_price then false
           else if best_eval.capture_price < cand_eval.capture_price then
             decide (cand_eval.nega - best_eval.nega ≤
               cand_eval.capture_price - best_eval.capture_price)
           else if root_eval.power_my < 18 then false
           else if cand_eval.capture_price > 0 then false
           else if best_eval.posi < cand_eval.posi then
             decide (cand_eval.nega - best_eval.nega <
               cand_eval.posi - best_eval.posi)
           else false)
      else if cand_eval.nega < best_eval.nega then
        if 30 ≤ best_eval.nega ∧ best_eval.nega < 80 then some true
        else if best_eval.capture_price < cand_eval.capture_price then some true
        else if cand_eval.capture_price < best_eval.capture_price then
          tie_break (best_eval.nega - cand_eval.nega)
            (best_eval.capture_price - cand_eval.capture_price)
        else if root_eval.power_my < 18 then some true
        else if cand_eval.capture_price > 0 then some true
        else if best_eval.posi ≤ cand_eval.posi then some true
        else
          tie_break (best_eval.nega - cand_eval.nega)
            (best_eval.posi - cand_eval.posi)
      else tie_break cand_eval.capture_price best_eval.capture_price
    match primary with
    | some b => b
    | none =>
      match tie_break pos_eval.n_promoted_my best_eval.n_promoted_my <|>
            tie_break cand_eval.posi best_eval.posi <|>
            tie_break cand_eval.adv_price best_eval.adv_price with
      | some b => b
      | none =>
        match mv_cand with
        | Move.Nondrop _ _ _ =>
          match tie_break pos_eval.king_threat_far_your best_eval.king_threat_far_your <|>
                tie_break pos_eval.king_safety_far_my best_eval.king_safety_far_my <|>
                tie_break best_eval.king_threat_far_my pos_eval.king_threat_far_my <|>
                tie_break best_eval.n_loose_my pos_eval.n_loose_my <|>
                (if cand_eval.to_my_king ≥ 3 then
                  tie_break best_eval.dst_to_your_king cand_eval.dst_to_your_king
                 else none) with
          | some b => b
          | none => decide (best_eval.to_my_king < cand_eval.to_my_king)
        | Move.Drop pt _ =>
          if root_eval.disadv_price < 30 then false
          else decide (naitou_drop_src pt < naitou_best_src)

/-- The best-eval update performed by `Ai::try_improve_best` on success. -/
def update_best_eval (_best_eval : BestEval) (pos_eval : PositionEval)
    (cand_eval : CandEval) : BestEval :=
  { adv_price := cand_eval.adv_price, adv_sq := pos_eval.adv_sq,
    capture_price := cand_eval.capture_price,
    disadv_price := cand_eval.disadv_price, disadv_sq := pos_eval.disadv_sq,
    dst_to_your_king := cand_eval.dst_to_your_king,
    king_safety_far_my := pos_eval.king_safety_far_my,
    king_threat_far_my := pos_eval.king_threat_far_my,
    king_threat_far_your := pos_eval.king_threat_far_your,
    n_loose_my := pos_eval.n_loose_my,
    n_promoted_my := pos_eval.n_promoted_my, nega := cand_eval.nega,
    posi := cand_eval.posi, to_my_king := cand_eval.to_my_king }

/-- `Ai::try_improve_best`: apply the candidate, evaluate, tweak, undo
(the position is unchanged by construction here), compare; returns
`(improved, is_mate_your, pos_eval, cand_eval, best_eval')`. -/
def try_improve_best (my : Side) (progress_level naitou_best_src : Nat)
    (pos : Position) (root_eval : RootEval) (best_eval : BestEval)
    (cand : CandInfo) :
    Option (Bool × Bool × PositionEval × CandEval × BestEval) :=
  match pos.do_move cand.mv with
  | none => none
  | some (pos', _) =>
    let eff_board := EffectBoard.from_board pos'.board my
    match eval_position my progress_level pos' eff_board (some cand) with
    | none => none
    | some (_, none) => none
    | some (pos_eval, some cand_eval0) =>
      match tweak_eval my pos' root_eval pos_eval cand_eval0 cand with
      | none => none
      | some (TweakResult.Reject, cand_eval) =>
        some (false, false, pos_eval, cand_eval, best_eval)
      | some (res, cand_eval) =>
        let is_mate_your := res = TweakResult.YourMate
        let improved := can_improve_best naitou_best_src root_eval pos_eval
          cand_eval best_eval cand.mv
        let best_eval' :=
          if improved then update_best_eval best_eval pos_eval cand_eval
          else best_eval
        some (improved, is_mate_your, pos_eval, cand_eval, best_eval')

/-- `update_naitou_best_src` as a value. -/
def naitou_src_of_move : Move → Nat
  | Move.Nondrop _ _ _ => 200
  | Move.Drop pt _ => naitou_drop_src pt

/-- The candidate loop of `Ai::think_nonbook`; returns
`(best_eval, mv_best, naitou_best_src, is_mate_your)`. -/
def cand_loop (my : Side) (progress_level : Nat) (pos : Position)
    (root_eval : RootEval) :
    List Move → BestEval → Option Move → Nat →
    Option (BestEval × Option Move × Nat × Bool)
  | [], best_eval, mv_best, nbs => some (best_eval, mv_best, nbs, false)
  | mv :: rest, best_eval, mv_best, nbs =>
    match CandInfo.from_pos_mv pos mv with
    | none => none
    | some cand =>
      match try_improve_best my progress_level nbs pos root_eval best_eval cand with
      | none => none
      | some (improved, cand_is_mate, _, _, best_eval') =>
        let (mv_best', nbs') :=
          if improved || cand_is_mate then (some mv, naitou_src_of_move mv)
          else (mv_best, nbs)
        if cand_is_mate then some (best_eval', mv_best', nbs', true)
        else cand_loop my progress_level pos root_eval rest best_eval' mv_best' nbs'

/-- `Ai::think_nonbook`; returns
`(mv_best, root_eval, best_eval, is_mate_your, naitou_best_src)`. -/
def think_nonbook (my : Side) (progress_level progress_ply naitou_best_src : Nat)
    (pos : Position) :
    Option (Option Move × RootEval × BestEval × Bool × Nat) :=
  let eff_board := EffectBoard.from_board pos.board my
  match eval_root my progress_level progress_ply pos eff_board with
  | none => none
  | some root_eval =>
    if root_eval.adv_price ≥ 30 then
      some (none, root_eval, BestEval.default, false, naitou_best_src)
    else
      let cands := moves_pseudo_legal pos
      match cand_loop my progress_level pos root_eval cands BestEval.default
          none naitou_best_src with
      | none => none
      | some (best_eval, mv_best, nbs, is_mate_your) =>
        some (mv_best, root_eval, best_eval, is_mate_your, nbs)

end Naitou

namespace Naitou

--------------------------------------------------------------------
-- ai.rs: the Ai state and the thinker top level
--------------------------------------------------------------------

structure Ai where
  my : Side
  pos : Position
  mv_your : Option Move
  progress_ply : Nat
  progress_level : Nat
  progress_level_sub : Nat
  book_state : BookState
  naitou_best_src : Nat

structure StepMyCmd where
  mv_cmd : Option MoveCmd
  progress_ply : Nat
  progress_level : Nat
  progress_level_sub : Nat
  book_state : BookState
  naitou_best_src : Nat

structure MoveYourCmd where
  mv_cmd : MoveCmd
  mv_your : Option Move
  progress_ply : Nat
  progress_level : Nat

inductive RecordEntry where
  | Move (mv : Move)
  | MyWin (mv : Move)
  | YourSuicide
  | YourWin
deriving DecidableEq, Repr

/-- The acceptance test of the `Ai::process_opening` loop for one book
move: book-legality, the effect-count guard, and the disadvantage guard
with its own-relative-(4,5) exception.  `none` models the panics of the
inner `do_move`/evaluation. -/
def opening_move_ok (my : Side) (progress_level : Nat) (pos : Position)
    (mv_your : Option Move) (eff_board : EffectBoard) (mv : Move) :
    Option Bool :=
  if ¬ is_book_legal pos eff_board mv then some false
  else if (eff_board mv.dst my).count ≤ (eff_board mv.dst my.inv).count then
    some false
  else
    match pos.do_move mv with
    | none => none
    | some (pos', _) =>
      let eff_board' := EffectBoard.from_board pos'.board my
      match eval_position my progress_level pos' eff_board' none with
      | none => none
      | some (pos_eval, _) =>
        let disadv : Bool := pos_eval.disadv_price > 0
        let reject : Bool := disadv &&
          (match mv_your with
           | some mvy => decide (mvy.dst.rel my ≠ Sq.from_xy 4 5)
           | none => true)
        some (!reject)

/-- The retry loop of `Ai::process_opening`; with `progress_ply = 0` the
book never marks entries done, so a rejected move loops forever in the
source — fuel exhaustion (`none`) models that divergence. -/
def process_opening_go (my : Side) (progress_level progress_ply : Nat)
    (pos : Position) (mv_your : Option Move) (eff_board : EffectBoard) :
    Nat → BookState → Option (Option Move × BookState)
  | 0, _ => none
  | fuel + 1, bs =>
    match bs.process pos progress_ply with
    | none => none
    | some (none, bs') => some (none, bs')
    | some (some mv, bs') =>
      match opening_move_ok my progress_level pos mv_your eff_board mv with
      | none => none
      | some true => some (some mv, bs')
      | some false =>
        process_opening_go my progress_level progress_ply pos mv_your
          eff_board fuel bs'

/-- `Ai::process_opening` (book state in, possibly-updated book state
out; the inner `Option Move` is the accepted book move). -/
def process_opening (my : Side) (progress_level progress_ply : Nat)
    (pos : Position) (mv_your : Option Move) (bs : BookState) :
    Option (Option Move × BookState) :=
  let eff_board := EffectBoard.from_board pos.board my
  process_opening_go my progress_level progress_ply pos mv_your eff_board 64 bs

/-- The destinations that force opening processing within the first six
plies (`DSTS_SPECIAL`). -/
def DSTS_SPECIAL : List Sq := [Sq.from_xy 4 5, Sq.from_xy 5 4, Sq.from_xy 2 8]

/-- The tail of `Ai::think_go` after the opening-exception block: the
win/loss verdicts, the `mv_best` unwrap, the sub-progress update and the
quiet-position book processing. -/
def think_go_rest (ai : Ai) (mv_best : Option Move) (root_eval : RootEval)
    (best_eval : BestEval) (is_mate_your : Bool) :
    Option (RecordEntry × Bool × Ai) :=
  if root_eval.adv_price ≥ 31 then some (RecordEntry.YourSuicide, is_mate_your, ai)
  else if best_eval.disadv_price ≥ 31 then
    some (RecordEntry.YourWin, is_mate_your, ai)
  else
    match mv_best with
    | none => none
    | some mv_best =>
      let nonquiet := root_eval.adv_price > 0 ∨ root_eval.disadv_price > 0 ∨
        best_eval.capture_price > 0
      let ai :=
        if ai.progress_level = 0 ∧ nonquiet then
          let sub := ai.progress_level_sub + 1
          { ai with progress_level_sub := sub,
                    progress_level := if sub ≥ 5 then 1 else ai.progress_level }
        else ai
      if ai.progress_level > 0 ∨ nonquiet then
        some (RecordEntry.Move mv_best, is_mate_your, ai)
      else if best_eval.posi ≠ best_eval.adv_price ∧ best_eval.posi ≥ 8 then
        some (RecordEntry.Move mv_best, is_mate_your, ai)
      else if ai.progress_level = 0 then
        match process_opening ai.my ai.progress_level ai.progress_ply ai.pos
            ai.mv_your ai.book_state with
        | none => none
        | some (some mv, bs') =>
          some (RecordEntry.Move mv, is_mate_your, { ai with book_state := bs' })
        | some (none, bs') =>
          some (RecordEntry.Move mv_best, is_mate_your,
            { ai with book_state := bs', progress_level := 1 })
      else some (RecordEntry.Move mv_best, is_mate_your, ai)

/-- `Ai::think_go`; returns the record entry, `is_mate_your`, and the
updated engine state.  `none` models the panics (including the `mv_best`
unwrap) and the side-to-move assertion. -/
def think_go (ai : Ai) : Option (RecordEntry × Bool × Ai) :=
  if ai.pos.side ≠ ai.my then none
  else
    match think_nonbook ai.my ai.progress_level ai.progress_ply
        ai.naitou_best_src ai.pos with
    | none => none
    | some (mv_best, root_eval, best_eval, is_mate_your, nbs) =>
      let ai := { ai with naitou_best_src := nbs }
      let cond : Bool := decide (ai.progress_ply ≤ 6) &&
        (match ai.mv_your with
         | some mv => DSTS_SPECIAL.contains (mv.dst.rel ai.my)
         | none => false)
      if cond && decide (ai.progress_level = 0) then
        match process_opening ai.my ai.progress_level ai.progress_ply ai.pos
            ai.mv_your ai.book_state with
        | none => none
        | some (some mv, bs') =>
          some (RecordEntry.Move mv, is_mate_your, { ai with book_state := bs' })
        | some (none, bs') =>
          think_go_rest { ai with book_state := bs', progress_level := 1 }
            mv_best root_eval best_eval is_mate_your
      else think_go_rest ai mv_best root_eval best_eval is_mate_your

/-- `Ai::think`: runs `think_go` and post-processes a `Move` entry into
`MyWin` when the played move leaves `adv_price ≥ 31` with mate found. -/
def think (ai : Ai) : Option (RecordEntry × Ai) :=
  match think_go ai with
  | none => none
  | some (entry, is_mate_your, ai') =>
    match entry with
    | RecordEntry.YourSuicide => some (RecordEntry.YourSuicide, ai')
    | RecordEntry.YourWin => some (RecordEntry.YourWin, ai')
    | RecordEntry.MyWin _ => none
    | RecordEntry.Move mv =>
      match ai'.pos.do_move mv with
      | none => none
      | some (pos', _) =>
        let eff_board := EffectBoard.from_board pos'.board ai'.my
        match eval_position ai'.my ai'.progress_level pos' eff_board none with
        | none => none
        | some (pos_eval, _) =>
          if pos_eval.adv_price ≥ 31 ∧ is_mate_your then
            some (RecordEntry.MyWin mv, ai')
          else some (RecordEntry.Move mv, ai')

def increment_progress_ply (p : Nat) : Nat := min 100 (p + 1)

/-- `Ai::move_my`. -/
def Ai.move_my (ai : Ai) (mv : Move) : Option (MoveCmd × Ai) :=
  if ai.pos.side ≠ ai.my then none
  else
    match ai.pos.do_move mv with
    | none => none
    | some (pos', mv_cmd) =>
      some (mv_cmd, { ai with pos := pos',
                              progress_ply := increment_progress_ply ai.progress_ply })

/-- `Ai::move_your`. -/
def Ai.move_your (ai : Ai) (mv : Move) : Option (MoveYourCmd × Ai) :=
  if ai.pos.side ≠ ai.my.inv then none
  else
    match ai.pos.do_move mv with
    | none => none
    | some (pos', mv_cmd) =>
      let ply' := increment_progress_ply ai.progress_ply
      let level₁ :=
        if ply' ≥ 51 then min 2 (ai.progress_level + 1) else ai.progress_level
      let level₂ := if ply' ≥ 71 then 3 else level₁
      let cmd : MoveYourCmd :=
        { mv_cmd := mv_cmd, mv_your := ai.mv_your,
          progress_ply := ai.progress_ply, progress_level := ai.progress_level }
      some (cmd,
        { ai with pos := pos', mv_your := some mv, progress_ply := ply',
                  progress_level := level₂ })

/-- `Ai::undo_move_your`. -/
def Ai.undo_move_your (ai : Ai) (cmd : MoveYourCmd) : Option Ai :=
  match ai.pos.undo_move cmd.mv_cmd with
  | none => none
  | some pos' =>
    some { ai with pos := pos', mv_your := cmd.mv_your,
                   progress_ply := cmd.progress_ply,
                   progress_level := cmd.progress_level }

/-- `Ai::step_my`: snapshot, think, apply the chosen move. -/
def Ai.step_my (ai : Ai) : Option (RecordEntry × StepMyCmd × Ai) :=
  match think ai with
  | none => none
  | some (entry, ai₁) =>
    let mk := fun (mv_cmd : Option MoveCmd) (ai₂ : Ai) =>
      let cmd : StepMyCmd :=
        { mv_cmd := mv_cmd, progress_ply := ai.progress_ply,
          progress_level := ai.progress_level,
          progress_level_sub := ai.progress_level_sub,
          book_state := ai.book_state,
          naitou_best_src := ai.naitou_best_src }
      some (entry, cmd, ai₂)
    match entry with
    | RecordEntry.Move mv =>
      match ai₁.move_my mv with
      | none => none
      | some (mv_cmd, ai₂) => mk (some mv_cmd) ai₂
    | RecordEntry.MyWin mv =>
      match ai₁.move_my mv with
      | none => none
      | some (mv_cmd, ai₂) => mk (some mv_cmd) ai₂
    | _ => mk none ai₁

/-- `Ai::undo_step_my`. -/
def Ai.undo_step_my (ai : Ai) (cmd : StepMyCmd) : Option Ai :=
  let restore := fun (pos : Position) =>
    some { ai with pos := pos, progress_ply := cmd.progress_ply,
                   progress_level := cmd.progress_level,
                   progress_level_sub := cmd.progress_level_sub,
                   book_state := cmd.book_state,
                   naitou_best_src := cmd.naitou_best_src }
  match cmd.mv_cmd with
  | some mv_cmd =>
    match ai.pos.undo_move mv_cmd with
    | none => none
    | some pos' => restore pos'
  | none => restore ai.pos

end Naitou

namespace Naitou

--------------------------------------------------------------------
-- Witness fixtures (concrete boards and states used by the witnesses)
--------------------------------------------------------------------

def mkBoard (l : List (Int × Int × BoardCell)) : Board :=
  l.foldl (fun b e => b.update (Sq.from_xy e.1 e.2.1) e.2.2) Board.empty

/-- C5 fixture: gote to think; the gote rook on (3,3) is attacked by the
sente pawn on (3,4) and defended by the gote gold on (3,2) (raising the
recapture flag), and the gote knight on (7,7) hangs to the sente pawn on
(7,8). -/
def board_c5 : Board := mkBoard
  [(3, 4, BoardCell.Sente Piece.Pawn), (3, 3, BoardCell.Gote Piece.Rook),
   (3, 2, BoardCell.Gote Piece.Gold), (7, 8, BoardCell.Sente Piece.Pawn),
   (7, 7, BoardCell.Gote Piece.Knight)]

def pos_c5 : Position :=
  { side := Side.Gote, board := board_c5, hands := Hands.empty, ply := 10 }

def eff_c5 : EffectBoard := EffectBoard.from_board board_c5 Side.Gote

def pos_empty : Position :=
  { side := Side.Sente, board := Board.empty, hands := Hands.empty, ply := 1 }

/-- An opponent evasion escapes the mate when, after playing it, the
own-side effect count on the opponent king's square is 0 (the test of the
`Ai::judge_mate_your` loop). -/
def evasion_escapes (my : Side) (pos : Position) (mv : Move) : Prop :=
  ∃ pos' cmd, pos.do_move mv = some (pos', cmd) ∧
    ∃ k, find_king_sq pos'.board my.inv = some k ∧
      (EffectBoard.from_board pos'.board my k my).count = 0

/-- C3 fixture: the position right after the mating candidate (gold to
(5,2), backed by the rook on (5,4)); gote (the opponent) to move. -/
def board_c3 : Board := mkBoard
  [(5, 1, BoardCell.Gote Piece.King), (5, 2, BoardCell.Sente Piece.Gold),
   (5, 4, BoardCell.Sente Piece.Rook), (9, 9, BoardCell.Sente Piece.King)]

def pos_c3 : Position :=
  { side := Side.Gote, board := board_c3, hands := Hands.empty, ply := 20 }

def mvs_c3 : List Move := (moves_evasion pos_c3).getD []

def cand_c3 : CandInfo :=
  { mv := Move.Nondrop (Sq.from_xy 5 3) (Sq.from_xy 5 2) false,
    pt_src := Piece.Gold, pt_dst := Piece.Gold, pt_capture := none,
    sq_king_my := Sq.from_xy 9 9, sq_king_your := Sq.from_xy 5 1 }

def ce_c3 : CandEval :=
  { adv_price := 40, capture_price := 0, disadv_price := 0,
    dst_to_your_king := 1, is_sacrifice := false, nega := 0, posi := 40,
    to_my_king := 7 }

def root_eval_c3 : RootEval :=
  { adv_price := 0, disadv_price := 0, power_my := 0, power_your := 0,
    rbp_my := 0 }

def pos_eval_c3 : PositionEval :=
  { adv_price := 40, adv_sq := Sq.from_xy 5 1, disadv_price := 0,
    disadv_sq := SQ_INVALID, hanging_your := false, king_safety_far_my := 0,
    king_threat_far_my := 0, king_threat_far_your := 4,
    king_threat_near_my := 0, n_choke_my := 0, n_loose_my := 0,
    n_promoted_my := 0, n_promoted_your := 0 }

/-- The `disadv` block of `Ai::process_opening`: apply the book move,
rebuild the effect board, and ask the position evaluator whether any
disadvantage is reported. -/
def opening_disadv (my : Side) (progress_level : Nat) (pos : Position)
    (mv : Move) : Option Bool :=
  match pos.do_move mv with
  | none => none
  | some (pos', _) =>
    let eff_board' := EffectBoard.from_board pos'.board my
    match eval_position my progress_level pos' eff_board' none with
    | none => none
    | some (pos_eval, _) => some (decide (pos_eval.disadv_price > 0))

/-- C2 fixture: gote to move at progress_ply 7.  The sente bishop on
(6,6) triggers the Sikenbisha branch entry ordering the pawn push
(6,4)→(6,5); the push captures the sente pawn on (6,5) (the opponent's
last move destination, own-relative (4,5) for gote) but leaves the pawn
hanging to the sente rook on (6,2), so the post-move evaluation reports
a disadvantage. -/
def board_c2 : Board := mkBoard
  [(2, 1, BoardCell.Gote Piece.King), (6, 4, BoardCell.Gote Piece.Pawn),
   (6, 6, BoardCell.Sente Piece.Bishop), (6, 5, BoardCell.Sente Piece.Pawn),
   (6, 2, BoardCell.Sente Piece.Rook), (9, 9, BoardCell.Sente Piece.King)]

def pos_c2 : Position :=
  { side := Side.Gote, board := board_c2, hands := Hands.empty, ply := 8 }

def mv_your_c2 : Move := Move.Nondrop (Sq.from_xy 6 6) (Sq.from_xy 6 5) false

def bs_c2 : BookState := BookState.new Formation.Sikenbisha

def mv_c2 : Move := Move.Nondrop (Sq.from_xy 6 4) (Sq.from_xy 6 5) false

--------------------------------------------------------------------
/-- The progress-counter invariant maintained by the forward engine
operations: the ply counter is saturated at 100, the level is at most 3
and only reaches 3 from ply 71 on, and the sub-counter is at most 5 (at
most 4 while the level is still 0). -/
def ProgressInv (ai : Ai) : Prop :=
  ai.progress_ply ≤ 100 ∧ ai.progress_level ≤ 3 ∧
  (ai.progress_level = 3 → 71 ≤ ai.progress_ply) ∧
  ai.progress_level_sub ≤ 5 ∧
  (ai.progress_level = 0 → ai.progress_level_sub ≤ 4)

/-- C8 fixture: two bare kings, opponent to move at progress_ply 70 —
the opponent's next move crosses the ply-71 threshold that forces
progress_level 3. -/
def board_w : Board := mkBoard
  [(5, 9, BoardCell.Sente Piece.King), (5, 1, BoardCell.Gote Piece.King)]

def aiW : Ai :=
  { my := Side.Sente,
    pos := { side := Side.Gote, board := board_w, hands := Hands.empty,
             ply := 70 },
    mv_your := none, progress_ply := 70, progress_level := 2,
    progress_level_sub := 5, book_state := BookState.new Formation.Sikenbisha,
    naitou_best_src := 0 }

def mvW : Move := Move.Nondrop (Sq.from_xy 5 1) (Sq.from_xy 5 2) false

def cW : MoveYourCmd :=
  match aiW.move_your mvW with
  | some (c, _) => c
  | none => { mv_cmd := MoveCmd.Drop Piece.Pawn 0, mv_your := none,
              progress_ply := 0, progress_level := 0 }

def aiW' : Ai :=
  match aiW.move_your mvW with
  | some (_, a) => a
  | none => aiW

/-- C1 fixture: the bare-kings position with the engine (sente) to
move, and the components of its `think_nonbook` result. -/
def posK : Position :=
  { side := Side.Sente, board := board_w, hands := Hands.empty, ply := 4 }

def tnbK : Option (Option Move × RootEval × BestEval × Bool × Nat) :=
  think_nonbook Side.Sente 1 4 200 posK

def mbK : Option Move :=
  match tnbK with
  | some (mb, _) => mb
  | none => none

def reK : RootEval :=
  match tnbK with
  | some (_, re, _) => re
  | none => { adv_price := 0, disadv_price := 0, power_my := 0,
              power_your := 0, rbp_my := 0 }

def beK : BestEval :=
  match tnbK with
  | some (_, _, be, _) => be
  | none => BestEval.default

def imK : Bool :=
  match tnbK with
  | some (_, _, _, im, _) => im
  | none => false

def nbsK : Nat :=
  match tnbK with
  | some (_, _, _, _, n) => n
  | none => 0

def aiK : Ai :=
  { my := Side.Sente, pos := posK, mv_your := none, progress_ply := 4,
    progress_level := 1, progress_level_sub := 0,
    book_state := BookState.new Formation.Sikenbisha, naitou_best_src := 200 }

/-- Well-formedness of a move against a position, as established by the
move generators: the destination cell is never a wall, and a promoting
move only moves a promotable piece (the source asserts these through its
constructors). -/
def mv_wf (pos : Position) : Move → Prop
  | Move.Nondrop src dst promo =>
      pos.board dst ≠ BoardCell.Wall ∧
      (promo = true → ∀ pt, (pos.board src).piece_of pos.side = some pt →
        pt.can_promote = true)
  | Move.Drop _ _ => True

/-- C6 fixture: the step taken by the engine from the bare-kings state
`aiK`, and its components. -/
def stepK : Option (RecordEntry × StepMyCmd × Ai) := aiK.step_my

def eK : RecordEntry :=
  match stepK with
  | some (e, _, _) => e
  | none => RecordEntry.YourSuicide

def cmdK : StepMyCmd :=
  match stepK with
  | some (_, c, _) => c
  | none => { mv_cmd := none, progress_ply := 0, progress_level := 0,
              progress_level_sub := 0,
              book_state := BookState.new Formation.Sikenbisha,
              naitou_best_src := 0 }

def aiK2 : Ai :=
  match stepK with
  | some (_, _, a) => a
  | none => aiK

/-- A board whose frame (every geometrically invalid square) is walls —
true of every board the program builds. -/
def Board.walled (b : Board) : Prop :=
  ∀ sq : Sq, ¬ Sq.is_valid sq → b sq = BoardCell.Wall

def contributors (b : Board) (side my : Side) (sq : Sq) : List Piece :=
  (iter_support_effects b side my).filterMap fun e =>
    if e.1 = false ∧ e.2.2 = sq then (b e.2.1).piece_of side else none

def attacker_spec (l : List Piece) : Option Piece :=
  l.foldl opt_chmin_attacker none

/-- C9 fixture: the C3 board with sente to move — the sente gold on
(5,2) attacks the gote king on (5,1). -/
def posC9 : Position :=
  { side := Side.Sente, board := board_c3, hands := Hands.empty, ply := 21 }

--------------------------------------------------------------------
-- C4: the best-vs-candidate comparator
--------------------------------------------------------------------

/-- C4.  The comparator `can_improve_best` satisfies: (a) if exactly one
of `cand.disadv_price ≥ 40` and `best.disadv_price ≥ 40` holds, the side
not exceeding 40 is chosen; (b) when the filter of (a) does not decide
and `cand.nega > best.nega` and `cand.capture_price >
best.capture_price`, the candidate is accepted iff
`cand.nega − best.nega ≤ cand.capture_price − best.capture_price`
(all comparisons unsigned). -/
theorem c4_comparator (nbs : Nat) (re : RootEval) (pe : PositionEval)
    (ce : CandEval) (be : BestEval) (mv : Move) :
    (ce.disadv_price ≥ 40 → be.disadv_price < 40 →
      can_improve_best nbs re pe ce be mv = false) ∧
    (ce.disadv_price < 40 → be.disadv_price ≥ 40 →
      can_improve_best nbs re pe ce be mv = true) ∧
    (((ce.disadv_price ≥ 40 ∧ be.disadv_price ≥ 40) ∨
      (ce.disadv_price < 40 ∧ be.disadv_price < 40)) →
      ce.nega > be.nega → ce.capture_price > be.capture_price →
      (can_improve_best nbs re pe ce be mv = true ↔
        ce.nega - be.nega ≤ ce.capture_price - be.capture_price)) := by
  refine ⟨?_, ?_, ?_⟩
  · intro h1 h2
    unfold can_improve_best
    rw [if_pos ⟨h1, h2⟩]
  · intro h1 h2
    unfold can_improve_best
    rw [if_neg (by omega), if_pos ⟨h1, h2⟩]
  · intro hfilter hnega hcap
    unfold can_improve_best
    rw [if_neg (by omega), if_neg (by omega)]
    have hgt : be.nega < ce.nega := hnega
    simp only [if_pos hgt]
    rw [if_neg (by omega), if_pos hcap]
    by_cases h : ce.nega - be.nega ≤ ce.capture_price - be.capture_price
    · simp [h]
    · simp [h]

/-- Witness for C4 at concrete evaluations. -/
theorem c4_comparator_witness :
    can_improve_best 0
      { adv_price := 0, disadv_price := 0, power_my := 0, power_your := 0,
        rbp_my := 0 }
      { adv_price := 0, adv_sq := SQ_INVALID, disadv_price := 0,
        disadv_sq := SQ_INVALID, hanging_your := false,
        king_safety_far_my := 0, king_threat_far_my := 0,
        king_threat_far_your := 0, king_threat_near_my := 0, n_choke_my := 0,
        n_loose_my := 0, n_promoted_my := 0, n_promoted_your := 0 }
      { adv_price := 0, capture_price := 9, disadv_price := 3,
        dst_to_your_king := 5, is_sacrifice := false, nega := 7, posi := 0,
        to_my_king := 5 }
      { adv_price := 0, adv_sq := SQ_INVALID, capture_price := 4,
        disadv_price := 2, disadv_sq := SQ_INVALID, dst_to_your_king := 9,
        king_safety_far_my := 0, king_threat_far_my := 9,
        king_threat_far_your := 0, n_loose_my := 9, n_promoted_my := 0,
        nega := 3, posi := 0, to_my_king := 0 }
      (Move.Nondrop 60 49 false) = true := by
  have h := (c4_comparator 0
    { adv_price := 0, disadv_price := 0, power_my := 0, power_your := 0,
      rbp_my := 0 }
    { adv_price := 0, adv_sq := SQ_INVALID, disadv_price := 0,
      disadv_sq := SQ_INVALID, hanging_your := false,
      king_safety_far_my := 0, king_threat_far_my := 0,
      king_threat_far_your := 0, king_threat_near_my := 0, n_choke_my := 0,
      n_loose_my := 0, n_promoted_my := 0, n_promoted_your := 0 }
    { adv_price := 0, capture_price := 9, disadv_price := 3,
      dst_to_your_king := 5, is_sacrifice := false, nega := 7, posi := 0,
      to_my_king := 5 }
    { adv_price := 0, adv_sq := SQ_INVALID, capture_price := 4,
      disadv_price := 2, disadv_sq := SQ_INVALID, dst_to_your_king := 9,
      king_safety_far_my := 0, king_threat_far_my := 9,
      king_threat_far_your := 0, n_loose_my := 9, n_promoted_my := 0,
      nega := 3, posi := 0, to_my_king := 0 }
    (Move.Nondrop 60 49 false)).2.2
  exact (h (by decide) (by decide) (by decide)).mpr (by decide)

end Naitou

namespace Naitou

--------------------------------------------------------------------
-- C10: the SQ_INVALID sentinel participates in distance-gated rules
--------------------------------------------------------------------

theorem sqx_is_valid_iff (x : Int) : SqX.is_valid x = true ↔ 1 ≤ x ∧ x ≤ 9 := by
  simp [SqX.is_valid]

theorem sq_is_valid_iff (sq : Sq) :
    Sq.is_valid sq = true ↔ (1 ≤ sq.x ∧ sq.x ≤ 9) ∧ 1 ≤ sq.y ∧ sq.y ≤ 9 := by
  simp [Sq.is_valid, sqx_is_valid_iff]

/-- Chebyshev distance from the sentinel square 99 = (file 0, rank 9) to a
valid square is at most 2 exactly on the bottom-left corner region. -/
theorem sq_invalid_dist_iff (km : Sq) (hv : Sq.is_valid km = true) :
    Sq.distU SQ_INVALID km ≤ 2 ↔ km.x ≤ 2 ∧ 7 ≤ km.y := by
  obtain ⟨⟨hx1, hx9⟩, hy1, hy9⟩ := (sq_is_valid_iff km).mp hv
  have hokx : SqX.is_ok km.x = true := by simp [SqX.is_ok]; omega
  have hoky : SqX.is_ok km.y = true := by simp [SqX.is_ok]; omega
  have hdx : Sq.dist_x SQ_INVALID km =
      some (((Sq.x SQ_INVALID - km.x).natAbs : Nat) : Int) := by
    rw [Sq.dist_x, if_pos ⟨by decide, hokx⟩]
  have hdy : Sq.dist_y SQ_INVALID km =
      some (((Sq.y SQ_INVALID - km.y).natAbs : Nat) : Int) := by
    rw [Sq.dist_y, if_pos ⟨by decide, hoky⟩]
  have hxinv : Sq.x SQ_INVALID = 0 := by decide
  have hyinv : Sq.y SQ_INVALID = 9 := by decide
  rw [Sq.distU, Sq.dist, hdx, hdy]
  simp only [Option.getD_some, hxinv, hyinv]
  rw [max_le_iff]
  omega

/-- C10.  The "no advantage square" sentinel: `SQ_INVALID = 99` is
geometrically the frame square at file 0, rank 9; an advantage scan that
finds no advantage square leaves `adv_sq = SQ_INVALID`; and tweak step 12
(opaque rule A), whose gate compares the Chebyshev distance from `adv_sq`
to the own king, then fires from that concrete frame square — whenever
the own king is within distance 2 of square 99 (i.e. on files 1..2, ranks
7..9) and the other conditions hold, it adds
`(king_threat_far_your − 7) / 2` to `posi` even though no advantage
square exists (`adv_price = 0 < 4` included). -/
theorem c10_sq_invalid_rules (my : Side) (lvl : Nat) (pos : Position)
    (eff : EffectBoard) (re : RootEval) (pe : PositionEval) (ce : CandEval)
    (km : Sq) :
    (Sq.x SQ_INVALID = 0 ∧ Sq.y SQ_INVALID = 9 ∧ Sq.is_valid SQ_INVALID = false) ∧
    ((∀ sq ∈ Sq.iter_valid_sim my, is_adv_sq my lvl pos eff sq = false) →
      eval_adv my lvl pos eff = (0, 0, SQ_INVALID)) ∧
    (Sq.is_valid km = true →
      (Sq.distU SQ_INVALID km ≤ 2 ↔ km.x ≤ 2 ∧ 7 ≤ km.y)) ∧
    (pe.adv_sq = SQ_INVALID → Sq.is_valid km = true → km.x ≤ 2 → 7 ≤ km.y →
      re.power_my ≥ 31 → ce.adv_price < 4 → ce.disadv_price = 0 →
      pe.king_threat_far_your ≥ 7 →
      tweak_step_opaque_a re pe km ce =
        { ce with posi := wadd ce.posi ((pe.king_threat_far_your - 7) / 2) }) := by
  refine ⟨by decide, ?_, sq_invalid_dist_iff km, ?_⟩
  · intro h
    have hnil : (Sq.iter_valid_sim my).filter
        (fun sq => is_adv_sq my lvl pos eff sq) = [] := by
      rw [List.filter_eq_nil_iff]
      intro a ha
      simp [h a ha]
    rw [eval_adv]
    simp only [hnil, List.foldl_nil]
  · intro hsq hval hx hy hpow hadv hdis hktfy
    have hdist : Sq.distU pe.adv_sq km ≤ 2 := by
      rw [hsq]
      exact (sq_invalid_dist_iff km hval).mpr ⟨hx, hy⟩
    rw [tweak_step_opaque_a, if_pos ⟨hpow, hadv, hdis, hktfy, hdist⟩]

end Naitou

namespace Naitou

--------------------------------------------------------------------
-- C5: recapture-flag contagion in the disadvantage pass
--------------------------------------------------------------------

theorem foldl_filter_of_skip {α β : Type} (f : β → α → β) (p : α → Bool)
    (h : ∀ acc x, p x = false → f acc x = acc) :
    ∀ (l : List α) (init : β), l.foldl f init = (l.filter p).foldl f init := by
  intro l
  induction l with
  | nil => intro init; rfl
  | cons a l ih =>
    intro init
    by_cases hp : p a = true
    · simp [List.filter_cons, hp, ih]
    · have hp' : p a = false := by revert hp; cases p a <;> simp
      simp [List.filter_cons, hp', h init a hp', ih]

theorem prices3_bounds (pt : Piece) : 1 ≤ PRICES_3 pt ∧ PRICES_3 pt ≤ 40 := by
  cases pt <;> exact ⟨by decide, by decide⟩

theorem wadd_eq_of_lt {a b : Nat} (h : a + b < 256) : wadd a b = a + b :=
  Nat.mod_eq_of_lt h

theorem wsub_eq_of_le {a b : Nat} (h1 : b ≤ a) (h2 : a < 256) :
    wsub a b = a - b := by
  rw [wsub]
  have h3 : (a : Int) - b = ((a - b : Nat) : Int) := by omega
  rw [h3, Int.emod_eq_of_lt (by omega) (by omega)]
  omega

theorem chmax_fst (a b : Nat) : (chmax a b).1 = max a b := by
  rw [chmax]; split <;> omega

/-- The disadvantage step skips squares that are not disadvantaged. -/
theorem eval_disadv_step_skip (my : Side) (pos : Position) (eff : EffectBoard)
    (cand : Option CandInfo) (acc : DisadvAcc) (sq : Sq)
    (h : (is_disadv_sq my pos eff sq).1 = false) :
    eval_disadv_step my pos eff cand acc sq = acc := by
  rw [eval_disadv_step.eq_def]
  simp [h]

/-- The disadvantage step on a disadvantaged square while the recapture
flag is up: the contribution is written, both counters then wrapping-drop
by 1, and the flag stays up. -/
theorem eval_disadv_step_exchange (my : Side) (pos : Position)
    (eff : EffectBoard) (cand : Option CandInfo) (acc : DisadvAcc) (sq : Sq)
    (pt : Piece) (hx : acc.exchange = true)
    (hd : (is_disadv_sq my pos eff sq).1 = true)
    (hpt : (pos.board sq).piece_of my = some pt) :
    (eval_disadv_step my pos eff cand acc sq).nega =
      wsub (wadd acc.nega (PRICES_3 pt)) 1 ∧
    (eval_disadv_step my pos eff cand acc sq).disadv_price =
      wsub (chmax acc.disadv_price (PRICES_3 pt)).1 1 ∧
    (eval_disadv_step my pos eff cand acc sq).exchange = true := by
  rw [eval_disadv_step.eq_def]
  simp [hd, hx, hpt]

/-- C5.  In the disadvantage pass, once the recapture flag is up every
subsequent disadvantage contribution is written and then reduced by 1 in
both `nega` and `disadv_price` (8-bit wrapping); in particular for a scan
with exactly two disadvantage squares where the first raises the flag,
the totals are `nega = p1 + p2 - 2 (mod 256)` and
`disadv_price = max (p1 - 1) p2 - 1` — the second square's contribution
enters reduced by exactly 1. -/
theorem c5_recapture_contagion (my : Side) (pos : Position)
    (eff : EffectBoard) (cand : Option CandInfo) (s1 s2 : Sq) (pt1 pt2 : Piece)
    (hfilt : (Sq.iter_valid_sim my).filter
      (fun sq => (is_disadv_sq my pos eff sq).1) = [s1, s2])
    (hex : (is_disadv_sq my pos eff s1).2 = true)
    (hpt1 : (pos.board s1).piece_of my = some pt1)
    (hpt2 : (pos.board s2).piece_of my = some pt2) :
    (∀ (acc : DisadvAcc) (sq : Sq) (pt : Piece), acc.exchange = true →
      (is_disadv_sq my pos eff sq).1 = true →
      (pos.board sq).piece_of my = some pt →
      (eval_disadv_step my pos eff cand acc sq).nega =
        wsub (wadd acc.nega (PRICES_3 pt)) 1 ∧
      (eval_disadv_step my pos eff cand acc sq).disadv_price =
        wsub (chmax acc.disadv_price (PRICES_3 pt)).1 1 ∧
      (eval_disadv_step my pos eff cand acc sq).exchange = true) ∧
    (eval_disadv my pos eff cand).1 =
      (PRICES_3 pt1 + PRICES_3 pt2 - 2) % 256 ∧
    (eval_disadv my pos eff cand).2.1 =
      max (PRICES_3 pt1 - 1) (PRICES_3 pt2) - 1 := by
  refine ⟨fun acc sq pt hx hd hpt =>
    eval_disadv_step_exchange my pos eff cand acc sq pt hx hd hpt, ?_⟩
  obtain ⟨hb1, hb2⟩ := prices3_bounds pt1
  obtain ⟨hc1, hc2⟩ := prices3_bounds pt2
  have hd1 : (is_disadv_sq my pos eff s1).1 = true := by
    have : s1 ∈ (Sq.iter_valid_sim my).filter
        (fun sq => (is_disadv_sq my pos eff sq).1) := by
      rw [hfilt]; exact List.mem_cons_self _ _
    exact (List.mem_filter.mp this).2
  have hd2 : (is_disadv_sq my pos eff s2).1 = true := by
    have : s2 ∈ (Sq.iter_valid_sim my).filter
        (fun sq => (is_disadv_sq my pos eff sq).1) := by
      rw [hfilt]; simp
    exact (List.mem_filter.mp this).2
  -- reduce the full scan to the two disadvantaged squares
  have hskip : ∀ (acc : DisadvAcc) (sq : Sq),
      (fun sq => (is_disadv_sq my pos eff sq).1) sq = false →
      eval_disadv_step my pos eff cand acc sq = acc := by
    intro acc sq h
    exact eval_disadv_step_skip my pos eff cand acc sq h
  have hred : (Sq.iter_valid_sim my).foldl
      (eval_disadv_step my pos eff cand) DisadvAcc.init =
      eval_disadv_step my pos eff cand
        (eval_disadv_step my pos eff cand DisadvAcc.init s1) s2 := by
    rw [foldl_filter_of_skip (eval_disadv_step my pos eff cand)
      (fun sq => (is_disadv_sq my pos eff sq).1) hskip, hfilt]
    rfl
  -- the first square raises the flag and contributes p1, then drops 1
  have hstep1 : eval_disadv_step my pos eff cand DisadvAcc.init s1 =
      { nega := PRICES_3 pt1 - 1, disadv_price := PRICES_3 pt1 - 1,
        disadv_sq := s1,
        is_sacrifice_my :=
          (match cand with
           | some c => decide (s1 = c.mv.dst) && decide (c.pt_capture = none)
           | none => false),
        exchange := true } := by
    rw [eval_disadv_step.eq_def]
    have hch : chmax 0 (PRICES_3 pt1) = (PRICES_3 pt1, true) := by
      rw [chmax, if_pos (by omega)]
    have h1 : wadd 0 (PRICES_3 pt1) = PRICES_3 pt1 := by
      rw [wadd_eq_of_lt (by omega)]; omega
    have h2 : wsub (PRICES_3 pt1) 1 = PRICES_3 pt1 - 1 :=
      wsub_eq_of_le (by omega) (by omega)
    simp only [hd1, hex, Bool.not_true, Bool.false_eq_true, if_false, hpt1,
      DisadvAcc.init, Bool.false_or, if_true, hch, h1, h2]
    cases cand <;> rfl
  -- the second square contributes p2 then drops 1 in both counters
  have hstep2 := eval_disadv_step_exchange my pos eff cand
    (eval_disadv_step my pos eff cand DisadvAcc.init s1) s2 pt2
    (by rw [hstep1]) hd2 hpt2
  rw [eval_disadv, hred]
  refine ⟨?_, ?_⟩
  · rw [hstep2.1, hstep1]
    simp only
    rw [wadd_eq_of_lt (by omega), wsub_eq_of_le (by omega) (by omega)]
    omega
  · rw [hstep2.2.1, hstep1]
    simp only
    rw [chmax_fst, wsub_eq_of_le (by omega) (by omega)]

end Naitou

namespace Naitou

/-- Witness for C5 on the fixture board: the recapture flag raised at
square 36 (the defended rook) reduces the hanging knight's contribution
at square 84 by exactly 1 in both counters. -/
theorem c5_recapture_contagion_witness :
    (eval_disadv Side.Gote pos_c5 eff_c5 none).1 =
      (PRICES_3 Piece.Rook + PRICES_3 Piece.Knight - 2) % 256 ∧
    (eval_disadv Side.Gote pos_c5 eff_c5 none).2.1 =
      max (PRICES_3 Piece.Rook - 1) (PRICES_3 Piece.Knight) - 1 :=
  (c5_recapture_contagion Side.Gote pos_c5 eff_c5 none 36 84 Piece.Rook
    Piece.Knight (by decide) (by decide) (by decide) (by decide)).2

end Naitou

namespace Naitou

/-- Witness for C10: on the empty board the advantage scan leaves the
sentinel, and opaque rule A fires from it for a king on (2,8). -/
theorem c10_sq_invalid_rules_witness :
    eval_adv Side.Gote 0 pos_empty EffectBoard.empty = (0, 0, SQ_INVALID) ∧
    tweak_step_opaque_a
      { adv_price := 0, disadv_price := 0, power_my := 31, power_your := 0,
        rbp_my := 0 }
      { adv_price := 0, adv_sq := SQ_INVALID, disadv_price := 0,
        disadv_sq := SQ_INVALID, hanging_your := false,
        king_safety_far_my := 0, king_threat_far_my := 0,
        king_threat_far_your := 9, king_threat_near_my := 0, n_choke_my := 0,
        n_loose_my := 0, n_promoted_my := 0, n_promoted_your := 0 }
      (Sq.from_xy 2 8)
      { adv_price := 0, capture_price := 0, disadv_price := 0,
        dst_to_your_king := 5, is_sacrifice := false, nega := 0, posi := 3,
        to_my_king := 5 } =
      { adv_price := 0, capture_price := 0, disadv_price := 0,
        dst_to_your_king := 5, is_sacrifice := false, nega := 0,
        posi := wadd 3 ((9 - 7) / 2), to_my_king := 5 } := by
  have h := c10_sq_invalid_rules Side.Gote 0 pos_empty EffectBoard.empty
    { adv_price := 0, disadv_price := 0, power_my := 31, power_your := 0,
      rbp_my := 0 }
    { adv_price := 0, adv_sq := SQ_INVALID, disadv_price := 0,
      disadv_sq := SQ_INVALID, hanging_your := false,
      king_safety_far_my := 0, king_threat_far_my := 0,
      king_threat_far_your := 9, king_threat_near_my := 0, n_choke_my := 0,
      n_loose_my := 0, n_promoted_my := 0, n_promoted_your := 0 }
    { adv_price := 0, capture_price := 0, disadv_price := 0,
      dst_to_your_king := 5, is_sacrifice := false, nega := 0, posi := 3,
      to_my_king := 5 }
    (Sq.from_xy 2 8)
  exact ⟨h.2.1 (by decide),
    h.2.2.2 (by decide) (by decide) (by decide) (by decide) (by decide)
      (by decide) (by decide) (by decide)⟩

end Naitou

namespace Naitou

--------------------------------------------------------------------
-- C3: the mate test and its effect on the tweak pipeline
--------------------------------------------------------------------

/-- The evasion loop of the mate test answers `true` exactly when some
listed evasion escapes. -/
theorem judge_mate_loop_spec (my : Side) (pos : Position) :
    ∀ (mvs : List Move) (b : Bool), judge_mate_loop my pos mvs = some b →
      (b = true ↔ ∃ mv ∈ mvs, evasion_escapes my pos mv) := by
  intro mvs
  induction mvs with
  | nil =>
    intro b hb
    rw [judge_mate_loop] at hb
    simp only [Option.some.injEq] at hb
    subst hb
    simp
  | cons mv rest ih =>
    intro b hb
    rw [judge_mate_loop] at hb
    rcases hdo : pos.do_move mv with _ | ⟨pos', cmd⟩
    · simp only [hdo] at hb
      exact Option.noConfusion hb
    · simp only [hdo] at hb
      rcases hk : find_king_sq pos'.board my.inv with _ | k
      · simp only [hk] at hb
        exact Option.noConfusion hb
      · simp only [hk] at hb
        by_cases hc : (EffectBoard.from_board pos'.board my k my).count = 0
        · rw [if_pos hc] at hb
          simp only [Option.some.injEq] at hb
          subst hb
          simp only [true_iff]
          exact ⟨mv, List.mem_cons_self _ _, pos', cmd, hdo, k, hk, hc⟩
        · rw [if_neg hc] at hb
          rw [ih b hb]
          constructor
          · rintro ⟨mv', hmem, hesc⟩
            exact ⟨mv', List.mem_cons_of_mem _ hmem, hesc⟩
          · rintro ⟨mv', hmem, hesc⟩
            rcases List.mem_cons.mp hmem with heq | hmem'
            · subst heq
              obtain ⟨p2, c2, hdo2, k2, hk2, hc2⟩ := hesc
              rw [hdo] at hdo2
              injection hdo2 with h
              obtain ⟨rfl, rfl⟩ : pos' = p2 ∧ cmd = c2 :=
                ⟨congrArg Prod.fst h, congrArg Prod.snd h⟩
              rw [hk] at hk2
              injection hk2 with h2
              subst h2
              exact absurd hc2 hc
            · exact ⟨mv', hmem', hesc⟩

/-- C3.  Under the mate-test trigger (`disadv_price < 30`,
`adv_price ≥ 30`, destination within Chebyshev 2 of the opponent king):
the mate test answers `Nonmate` iff some generated opponent evasion leads
to a position whose own-side effect count on the opponent king's square
is 0; when no evasion escapes, a pawn-drop candidate is rejected
(drop-pawn-mate), and otherwise the candidate's evaluation is forced to
`adv_price = 60`, `capture_price = 60`, `disadv_price = 0` at the mate
stage and the pipeline reports opponent-mate. -/
theorem c3_mate_test (my : Side) (pos : Position) (root_eval : RootEval)
    (pos_eval : PositionEval) (ce : CandEval) (cand : CandInfo)
    (mvs : List Move) (htr1 : ce.disadv_price < 30) (htr2 : ce.adv_price ≥ 30)
    (htr3 : ce.dst_to_your_king < 3)
    (hmvs : moves_evasion pos = some mvs) :
    (∀ r, judge_mate_your my pos cand.mv = some r →
      (r = MateJudge.Nonmate ↔ ∃ mv ∈ mvs, evasion_escapes my pos mv)) ∧
    (judge_mate_loop my pos mvs = some false →
      cand.mv.is_drop_pt Piece.Pawn = true →
      tweak_eval my pos root_eval pos_eval ce cand =
        some (TweakResult.Reject, ce)) ∧
    (judge_mate_loop my pos mvs = some false →
      cand.mv.is_drop_pt Piece.Pawn = false →
      tweak_eval my pos root_eval pos_eval ce cand =
        some (TweakResult.YourMate,
          tweak_rest my root_eval pos_eval cand
            (tweak_step_pawn_capture cand
              { ce with adv_price := 60, capture_price := 60,
                        disadv_price := 0 }))) := by
  have htrig : ce.disadv_price < 30 ∧ ce.adv_price ≥ 30 ∧
      ce.dst_to_your_king < 3 := ⟨htr1, htr2, htr3⟩
  refine ⟨?_, ?_, ?_⟩
  · intro r hr
    rw [judge_mate_your] at hr
    simp only [hmvs] at hr
    rcases hl : judge_mate_loop my pos mvs with _ | b
    · simp only [hl] at hr
      exact Option.noConfusion hr
    · simp only [hl] at hr
      have hspec := judge_mate_loop_spec my pos mvs b hl
      cases b
      · simp only [Bool.false_eq_true, false_iff] at hspec
        by_cases hdp : cand.mv.is_drop_pt Piece.Pawn = true
        · rw [if_pos hdp] at hr
          injection hr with h
          subst h
          simp [hspec]
        · rw [if_neg hdp] at hr
          injection hr with h
          subst h
          simp [hspec]
      · simp only [Option.some.injEq] at hr
        subst hr
        simp only [true_iff] at hspec
        simp [hspec]
  · intro hloop hdrop
    have hj : judge_mate_your my pos cand.mv = some MateJudge.DropPawnMate := by
      rw [judge_mate_your]
      simp only [hmvs, hloop, if_pos hdrop]
    rw [tweak_eval, tweak_mate_stage, if_pos htrig, hj]
  · intro hloop hdrop
    have hj : judge_mate_your my pos cand.mv = some MateJudge.Mate := by
      rw [judge_mate_your]
      simp only [hmvs, hloop, hdrop]
      simp
    rw [tweak_eval, tweak_mate_stage, if_pos htrig, hj]
    simp

end Naitou

namespace Naitou

/-- Witness for C3: on the fixture position (Gote king walled in by a
Sente gold and rook) every evasion fails, the candidate is not a pawn
drop, and the pipeline reports opponent-mate with the forced mate-stage
evaluation. -/
theorem c3_mate_test_witness :
    judge_mate_loop Side.Sente pos_c3 mvs_c3 = some false ∧
    cand_c3.mv.is_drop_pt Piece.Pawn = false ∧
    tweak_eval Side.Sente pos_c3 root_eval_c3 pos_eval_c3 ce_c3 cand_c3 =
      some (TweakResult.YourMate,
        tweak_rest Side.Sente root_eval_c3 pos_eval_c3 cand_c3
          (tweak_step_pawn_capture cand_c3
            { ce_c3 with adv_price := 60, capture_price := 60,
                         disadv_price := 0 })) :=
  ⟨by decide, by rfl,
    (c3_mate_test Side.Sente pos_c3 root_eval_c3 pos_eval_c3 ce_c3 cand_c3
      mvs_c3 (by decide) (by decide) (by decide) (by rfl)).2.2
      (by decide) (by rfl)⟩

end Naitou

namespace Naitou

/-- Every book move the opening retry loop accepts passed the full
acceptance test. -/
theorem process_opening_go_accepts (my : Side) (pl pp : Nat) (pos : Position)
    (mvy : Option Move) (eff : EffectBoard) :
    ∀ (fuel : Nat) (bs bs' : BookState) (mv : Move),
      process_opening_go my pl pp pos mvy eff fuel bs = some (some mv, bs') →
      opening_move_ok my pl pos mvy eff mv = some true := by
  intro fuel
  induction fuel with
  | zero =>
    intro bs bs' mv h
    rw [process_opening_go] at h
    exact Option.noConfusion h
  | succ fuel ih =>
    intro bs bs' mv h
    rw [process_opening_go] at h
    rcases hp : bs.process pos pp with _ | ⟨omv, bs1⟩
    · simp only [hp] at h
      exact Option.noConfusion h
    · simp only [hp] at h
      rcases omv with _ | mv0
      · simp only at h
        injection h with h'
        exact absurd (congrArg Prod.fst h') (by simp)
      · simp only at h
        rcases hok : opening_move_ok my pl pos mvy eff mv0 with _ | b
        · simp only [hok] at h
          exact Option.noConfusion h
        · simp only [hok] at h
          cases b
          · simp only at h
            exact ih bs1 bs' mv h
          · simp only at h
            injection h with h'
            have hmv : some mv0 = some mv := congrArg Prod.fst h'
            injection hmv with hmv'
            rw [← hmv']
            exact hok

/-- C2 (amended).  Every book move accepted by the opening processing
that loses material (the post-move evaluation reports
`disadv_price > 0`) was accepted through the exception: the opponent's
last move exists and its destination in own-relative coordinates is
(4,5).  No condition on the ply count is involved: the six-ply
restriction claimed by the specification (and by the comment in the
source) is absent from the code's guard. -/
theorem c2_book_disadv_guard (my : Side) (progress_level progress_ply : Nat)
    (pos : Position) (mv_your : Option Move) (bs : BookState) (mv : Move)
    (hrun : (process_opening my progress_level progress_ply pos mv_your
        bs).map Prod.fst = some (some mv))
    (hdis : opening_disadv my progress_level pos mv = some true) :
    ∃ mvy, mv_your = some mvy ∧ mvy.dst.rel my = Sq.from_xy 4 5 := by
  obtain ⟨⟨omv, bs'⟩, hx, hfst⟩ := Option.map_eq_some'.mp hrun
  have homv : omv = some mv := hfst
  subst homv
  rw [process_opening] at hx
  have hok := process_opening_go_accepts my progress_level progress_ply pos
    mv_your (EffectBoard.from_board pos.board my) 64 bs bs' mv hx
  rw [opening_move_ok.eq_def] at hok
  by_cases hbl : is_book_legal pos (EffectBoard.from_board pos.board my) mv = true
  · rw [if_neg (by simp [hbl])] at hok
    by_cases hcnt : (EffectBoard.from_board pos.board my mv.dst my).count ≤
        (EffectBoard.from_board pos.board my mv.dst my.inv).count
    · rw [if_pos hcnt] at hok
      exact absurd hok (by simp)
    · rw [if_neg hcnt] at hok
      rcases hdo : pos.do_move mv with _ | ⟨pos', cmd⟩
      · simp only [hdo] at hok
        exact Option.noConfusion hok
      · simp only [hdo] at hok
        rw [opening_disadv] at hdis
        simp only [hdo] at hdis
        rcases hev : eval_position my progress_level pos'
            (EffectBoard.from_board pos'.board my) none with _ | ⟨pe, rest⟩
        · simp only [hev] at hok
          exact Option.noConfusion hok
        · simp only [hev] at hok
          simp only [hev] at hdis
          injection hdis with hdis'
          injection hok with hok'
          rw [Bool.not_eq_eq_eq_not, Bool.not_true] at hok'
          rw [hdis'] at hok'
          simp only [Bool.true_and] at hok'
          rcases mv_your with _ | mvy
          · simp only at hok'
            exact Bool.noConfusion hok'
          · simp only at hok'
            refine ⟨mvy, rfl, ?_⟩
            have := of_decide_eq_false hok'
            exact not_not.mp this
  · rw [if_pos (by simp [hbl])] at hok
    exact absurd hok (by simp)

/-- Counterexample to C2 as stated: at progress_ply 7 — beyond the first
six plies — the opening processing accepts a material-losing book move
because the opponent's last destination is own-relative (4,5); the
claimed six-ply conjunct of the exception does not exist in the code. -/
theorem c2_book_disadv_counterexample :
    (process_opening Side.Gote 1 7 pos_c2 (some mv_your_c2) bs_c2).map
        Prod.fst = some (some mv_c2) ∧
    opening_disadv Side.Gote 1 pos_c2 mv_c2 = some true ∧
    mv_your_c2.dst.rel Side.Gote = Sq.from_xy 4 5 ∧ ¬ (7 ≤ 6) :=
  ⟨by decide, by decide, by decide, by decide⟩

/-- Witness for the amended C2 theorem on the fixture state. -/
theorem c2_book_disadv_guard_witness :
    ∃ mvy, some mv_your_c2 = some mvy ∧
      mvy.dst.rel Side.Gote = Sq.from_xy 4 5 :=
  c2_book_disadv_guard Side.Gote 1 7 pos_c2 (some mv_your_c2) bs_c2 mv_c2
    (by decide) (by decide)

end Naitou

namespace Naitou

theorem think_go_rest_progress (ai : Ai) (mb : Option Move) (re : RootEval)
    (be : BestEval) (im : Bool) (e : RecordEntry) (b : Bool) (ai' : Ai)
    (h : think_go_rest ai mb re be im = some (e, b, ai')) :
    (ProgressInv ai → ProgressInv ai') ∧
      ai.progress_level ≤ ai'.progress_level ∧
      ai'.progress_ply = ai.progress_ply := by
  simp only [think_go_rest] at h
  repeat' split at h
  all_goals
    first
    | exact Option.noConfusion h
    | (simp only [Option.some.injEq, Prod.mk.injEq] at h
       obtain ⟨-, -, rfl⟩ := h
       refine ⟨fun hinv => ?_, ?_, ?_⟩ <;>
         (try obtain ⟨i1, i2, i3, i4, i5⟩ := hinv) <;>
         simp_all [ProgressInv] <;> omega)

theorem move_my_progress (ai : Ai) (mv : Move) (c : MoveCmd) (ai' : Ai)
    (h : ai.move_my mv = some (c, ai')) :
    ProgressInv ai →
      ProgressInv ai' ∧ ai.progress_level ≤ ai'.progress_level := by
  simp only [Ai.move_my] at h
  repeat' split at h
  all_goals
    first
    | exact Option.noConfusion h
    | (simp only [Option.some.injEq, Prod.mk.injEq] at h
       obtain ⟨-, rfl⟩ := h
       intro hinv
       obtain ⟨i1, i2, i3, i4, i5⟩ := hinv
       refine ⟨?_, ?_⟩ <;>
         (simp_all [ProgressInv, increment_progress_ply]; try omega))

theorem move_your_progress (ai : Ai) (mv : Move) (c : MoveYourCmd) (ai' : Ai)
    (h : ai.move_your mv = some (c, ai')) :
    ProgressInv ai →
      ProgressInv ai' ∧ ai.progress_level ≤ ai'.progress_level := by
  simp only [Ai.move_your] at h
  repeat' split at h
  all_goals
    first
    | exact Option.noConfusion h
    | (simp only [Option.some.injEq, Prod.mk.injEq] at h
       obtain ⟨-, rfl⟩ := h
       intro hinv
       obtain ⟨i1, i2, i3, i4, i5⟩ := hinv
       refine ⟨?_, ?_⟩ <;>
         (simp_all [ProgressInv, increment_progress_ply]; try omega))

theorem think_go_progress (ai : Ai) (e : RecordEntry) (b : Bool) (ai' : Ai)
    (h : think_go ai = some (e, b, ai')) :
    ProgressInv ai →
      ProgressInv ai' ∧ ai.progress_level ≤ ai'.progress_level := by
  intro hinv
  simp only [think_go] at h
  split at h
  · exact Option.noConfusion h
  · rcases htn : think_nonbook ai.my ai.progress_level ai.progress_ply
        ai.naitou_best_src ai.pos with _ | ⟨mb, re, be, im, nbs⟩
    · rw [htn] at h
      exact Option.noConfusion h
    · rw [htn] at h
      simp only at h
      split at h
      · rename_i hguard
        split at h
        · exact Option.noConfusion h
        · simp only [Option.some.injEq, Prod.mk.injEq] at h
          obtain ⟨-, -, rfl⟩ := h
          obtain ⟨i1, i2, i3, i4, i5⟩ := hinv
          exact ⟨⟨i1, i2, i3, i4, i5⟩, le_refl _⟩
        · have hr := think_go_rest_progress _ _ _ _ _ _ _ _ h
          have hlv : ai.progress_level = 0 := by
            simp only [Bool.and_eq_true, decide_eq_true_eq] at hguard
            exact hguard.2
          obtain ⟨i1, i2, i3, i4, i5⟩ := hinv
          constructor
          · apply hr.1
            refine ⟨i1, ?_, ?_, i4, ?_⟩
            · show (1 : Nat) ≤ 3
              omega
            · intro h3
              exact absurd (show (1 : Nat) = 3 from h3) (by omega)
            · intro h0
              exact absurd (show (1 : Nat) = 0 from h0) (by omega)
          · have h1 : (1 : Nat) ≤ ai'.progress_level := hr.2.1
            omega
      · have hr := think_go_rest_progress _ _ _ _ _ _ _ _ h
        obtain ⟨i1, i2, i3, i4, i5⟩ := hinv
        constructor
        · exact hr.1 ⟨i1, i2, i3, i4, i5⟩
        · exact hr.2.1

theorem think_progress (ai : Ai) (e : RecordEntry) (ai' : Ai)
    (h : think ai = some (e, ai')) :
    ProgressInv ai →
      ProgressInv ai' ∧ ai.progress_level ≤ ai'.progress_level := by
  intro hinv
  simp only [think] at h
  rcases htg : think_go ai with _ | ⟨entry, im, ai₁⟩
  · rw [htg] at h
    exact Option.noConfusion h
  · rw [htg] at h
    simp only at h
    have hgo := think_go_progress ai entry im ai₁ htg hinv
    repeat' split at h
    all_goals
      first
      | exact Option.noConfusion h
      | (simp only [Option.some.injEq, Prod.mk.injEq] at h
         obtain ⟨-, rfl⟩ := h
         exact hgo)

theorem step_my_progress (ai : Ai) (e : RecordEntry) (c : StepMyCmd) (ai' : Ai)
    (h : ai.step_my = some (e, c, ai')) :
    ProgressInv ai →
      ProgressInv ai' ∧ ai.progress_level ≤ ai'.progress_level := by
  intro hinv
  simp only [Ai.step_my] at h
  rcases htk : think ai with _ | ⟨entry, ai₁⟩
  · rw [htk] at h
    exact Option.noConfusion h
  · rw [htk] at h
    simp only at h
    have htp := think_progress ai entry ai₁ htk hinv
    repeat' split at h
    all_goals
      first
      | exact Option.noConfusion h
      | (simp only [Option.some.injEq, Prod.mk.injEq] at h
         obtain ⟨-, -, rfl⟩ := h
         first
         | exact htp
         | (rename_i hmm
            have := move_my_progress ai₁ _ _ _ hmm htp.1
            exact ⟨this.1, le_trans htp.2 this.2⟩))

/-- C8.  From any engine state satisfying the progress-counter
invariant, every forward operation (`think`, `move_my`, `move_your`,
`step_my`) preserves it — so `progress_ply` never exceeds 100 and
`progress_level_sub` never exceeds 5 — and never decreases
`progress_level`. -/
theorem c8_progress_counters (ai : Ai) (h : ProgressInv ai) :
    (∀ e ai', think ai = some (e, ai') →
      ProgressInv ai' ∧ ai.progress_level ≤ ai'.progress_level) ∧
    (∀ mv c ai', ai.move_my mv = some (c, ai') →
      ProgressInv ai' ∧ ai.progress_level ≤ ai'.progress_level) ∧
    (∀ mv c ai', ai.move_your mv = some (c, ai') →
      ProgressInv ai' ∧ ai.progress_level ≤ ai'.progress_level) ∧
    (∀ e c ai', ai.step_my = some (e, c, ai') →
      ProgressInv ai' ∧ ai.progress_level ≤ ai'.progress_level) :=
  ⟨fun e ai' he => think_progress ai e ai' he h,
   fun mv c ai' hm => move_my_progress ai mv c ai' hm h,
   fun mv c ai' hm => move_your_progress ai mv c ai' hm h,
   fun e c ai' hs => step_my_progress ai e c ai' hs h⟩

/-- Witness for C8: the fixture opponent move crosses ply 71 and forces
level 3 while keeping the invariant. -/
theorem c8_progress_counters_witness :
    ProgressInv aiW' ∧ aiW.progress_level ≤ aiW'.progress_level :=
  (c8_progress_counters aiW ⟨by decide, by decide, by decide, by decide, by decide⟩).2.2.1 mvW cW aiW' (by rfl)

end Naitou

namespace Naitou

theorem chmax_cases (a b : Nat) : (chmax a b).1 = a ∨ (chmax a b).1 = b := by
  rw [chmax]
  split <;> simp

theorem eval_adv_price_shape (my : Side) (pl : Nat) (pos : Position)
    (eff : EffectBoard) :
    (eval_adv my pl pos eff).2.1 = 0 ∨
      ∃ pt, (eval_adv my pl pos eff).2.1 = PRICES_1 pt := by
  rw [eval_adv]
  generalize ((Sq.iter_valid_sim my).filter _) = sqs
  suffices h : ∀ (l : List Sq) (acc : Nat × Nat × Sq),
      (acc.2.1 = 0 ∨ ∃ pt, acc.2.1 = PRICES_1 pt) →
      ((l.foldl (fun acc sq =>
        match (pos.board sq).piece_of my.inv with
        | some pt_your =>
          let price := PRICES_1 pt_your
          let sum' := wadd acc.1 price
          let r := chmax acc.2.1 price
          (sum', r.1, if r.2 then sq else acc.2.2)
        | none => acc) acc).2.1 = 0 ∨
       ∃ pt, (l.foldl (fun acc sq =>
        match (pos.board sq).piece_of my.inv with
        | some pt_your =>
          let price := PRICES_1 pt_your
          let sum' := wadd acc.1 price
          let r := chmax acc.2.1 price
          (sum', r.1, if r.2 then sq else acc.2.2)
        | none => acc) acc).2.1 = PRICES_1 pt) by
    exact h sqs (0, 0, SQ_INVALID) (Or.inl rfl)
  intro l
  induction l with
  | nil => intro acc hacc; exact hacc
  | cons sq rest ih =>
    intro acc hacc
    simp only [List.foldl_cons]
    rcases hpc : (pos.board sq).piece_of my.inv with _ | pt_your
    · simp only [hpc]
      exact ih acc hacc
    · simp only [hpc]
      apply ih
      rcases chmax_cases acc.2.1 (PRICES_1 pt_your) with hc | hc
      · rcases hacc with h0 | ⟨pt, hpt⟩
        · left
          show (chmax acc.2.1 (PRICES_1 pt_your)).1 = 0
          rw [hc, h0]
        · right
          refine ⟨pt, ?_⟩
          show (chmax acc.2.1 (PRICES_1 pt_your)).1 = PRICES_1 pt
          rw [hc, hpt]
      · right
        refine ⟨pt_your, ?_⟩
        show (chmax acc.2.1 (PRICES_1 pt_your)).1 = PRICES_1 pt_your
        rw [hc]

theorem eval_position_adv (my : Side) (pl : Nat) (pos : Position)
    (eff : EffectBoard) (cand : Option CandInfo) (pe : PositionEval)
    (ce : Option CandEval)
    (h : eval_position my pl pos eff cand = some (pe, ce)) :
    pe.adv_price = (eval_adv my pl pos eff).2.1 := by
  simp only [eval_position] at h
  split at h
  · exact Option.noConfusion h
  · simp only [Option.some.injEq, Prod.mk.injEq] at h
    obtain ⟨rfl, -⟩ := h
    rfl

theorem eval_root_adv (my : Side) (pl pp : Nat) (pos : Position)
    (eff : EffectBoard) (re : RootEval)
    (h : eval_root my pl pp pos eff = some re) :
    re.adv_price = (eval_adv my pl pos eff).2.1 := by
  simp only [eval_root] at h
  split at h
  · exact Option.noConfusion h
  · rename_i pe rest heq
    simp only [Option.some.injEq] at h
    subst h
    exact eval_position_adv my pl pos eff none pe rest heq

theorem try_improve_best_not_improved (my : Side) (pl nbs : Nat)
    (pos : Position) (re : RootEval) (best : BestEval) (cand : CandInfo)
    (cim : Bool) (pe : PositionEval) (ce : CandEval) (be' : BestEval)
    (h : try_improve_best my pl nbs pos re best cand =
      some (false, cim, pe, ce, be')) :
    be' = best := by
  simp only [try_improve_best] at h
  repeat' split at h
  all_goals
    first
    | exact Option.noConfusion h
    | (simp only [Option.some.injEq, Prod.mk.injEq] at h
       obtain ⟨h1, -, -, -, h5⟩ := h
       first
       | exact h5.symm
       | simp_all)

theorem cand_loop_none (my : Side) (pl : Nat) (pos : Position)
    (re : RootEval) :
    ∀ (l : List Move) (best : BestEval) (mbest : Option Move) (nbs : Nat)
      (be : BestEval) (mb' : Option Move) (nbs' : Nat) (im : Bool),
      cand_loop my pl pos re l best mbest nbs = some (be, mb', nbs', im) →
      mb' = none → be = best ∧ mbest = none := by
  intro l
  induction l with
  | nil =>
    intro best mbest nbs be mb' nbs' im h hnone
    rw [cand_loop] at h
    simp only [Option.some.injEq, Prod.mk.injEq] at h
    obtain ⟨h1, h2, -, -⟩ := h
    subst hnone
    exact ⟨h1.symm, h2⟩
  | cons mv rest ih =>
    intro best mbest nbs be mb' nbs' im h hnone
    rw [cand_loop] at h
    rcases hci : CandInfo.from_pos_mv pos mv with _ | cand
    · rw [hci] at h
      exact Option.noConfusion h
    · rw [hci] at h
      simp only at h
      rcases hti : try_improve_best my pl nbs pos re best cand with
        _ | ⟨improved, cim, pe, ce, best'⟩
      · rw [hti] at h
        exact Option.noConfusion h
      · rw [hti] at h
        simp only at h
        cases cim
        · cases improved
          · simp at h
            obtain ⟨hbe, hmb⟩ := ih best' mbest nbs be mb' nbs' im h hnone
            have hb : best' = best :=
              try_improve_best_not_improved my pl nbs pos re best cand
                false pe ce best' hti
            exact ⟨hbe.trans hb, hmb⟩
          · simp at h
            obtain ⟨-, hmb⟩ := ih best' (some mv) (naitou_src_of_move mv)
              be mb' nbs' im h hnone
            exact Option.noConfusion hmb
        · simp at h
          obtain ⟨-, h2, -, -⟩ := h
          rw [← h2] at hnone
          exact Option.noConfusion hnone

/-- C1.  For every successful non-book think: a root advantage of at
least 30 is in fact at least 31 (no advantage price equals 30), so the
skipped candidate loop always falls into the opponent-suicide verdict;
when neither verdict threshold is reached the best move exists (the
source's unwrap cannot panic, because an all-rejected candidate loop
leaves the default best disadv_price of 99); and `think_go_rest` returns
the opponent-king-capturable verdict exactly at `adv_price ≥ 31` and the
opponent-wins verdict at `disadv_price ≥ 31` below that. -/
theorem c1_think_verdicts (my : Side) (pl pp nbs : Nat) (pos : Position)
    (ai : Ai) (mb : Option Move) (re : RootEval) (be : BestEval) (im : Bool)
    (nbs' : Nat)
    (h : think_nonbook my pl pp nbs pos = some (mb, re, be, im, nbs')) :
    (re.adv_price ≥ 30 → re.adv_price ≥ 31) ∧
    (re.adv_price < 31 → be.disadv_price < 31 → ∃ mv, mb = some mv) ∧
    (re.adv_price ≥ 31 →
      think_go_rest ai mb re be im = some (RecordEntry.YourSuicide, im, ai)) ∧
    (re.adv_price < 31 → be.disadv_price ≥ 31 →
      think_go_rest ai mb re be im = some (RecordEntry.YourWin, im, ai)) := by
  have hc3 : re.adv_price ≥ 31 →
      think_go_rest ai mb re be im = some (RecordEntry.YourSuicide, im, ai) := by
    intro hge
    rw [think_go_rest.eq_def, if_pos hge]
  have hc4 : re.adv_price < 31 → be.disadv_price ≥ 31 →
      think_go_rest ai mb re be im = some (RecordEntry.YourWin, im, ai) := by
    intro hlt hge
    rw [think_go_rest.eq_def, if_neg (by omega), if_pos hge]
  simp only [think_nonbook] at h
  rcases her : eval_root my pl pp pos (EffectBoard.from_board pos.board my)
    with _ | re0
  · rw [her] at h
    exact Option.noConfusion h
  · rw [her] at h
    simp only at h
    have hadv : re0.adv_price =
        (eval_adv my pl pos (EffectBoard.from_board pos.board my)).2.1 :=
      eval_root_adv my pl pp pos _ re0 her
    have h30 : re0.adv_price ≥ 30 → re0.adv_price ≥ 31 := by
      rw [hadv]
      rcases eval_adv_price_shape my pl pos
        (EffectBoard.from_board pos.board my) with h0 | ⟨pt, hpt⟩
      · omega
      · rw [hpt]
        cases pt <;> decide
    split at h
    · rename_i hge30
      simp only [Option.some.injEq, Prod.mk.injEq] at h
      obtain ⟨hmb, hre, hbe, him, -⟩ := h
      subst hmb hre hbe him
      refine ⟨h30, ?_, hc3, hc4⟩
      intro h1 _
      exact absurd (h30 hge30) (by omega)
    · rename_i hlt30
      rcases hcl : cand_loop my pl pos re0 (moves_pseudo_legal pos)
          BestEval.default none nbs with _ | ⟨be0, mb0, nbs0, im0⟩
      · rw [hcl] at h
        exact Option.noConfusion h
      · rw [hcl] at h
        simp only [Option.some.injEq, Prod.mk.injEq] at h
        obtain ⟨hmb, hre, hbe, him, -⟩ := h
        subst hmb hre hbe him
        refine ⟨h30, ?_, hc3, hc4⟩
        intro h1 h2
        rcases hm : mb0 with _ | mv
        · obtain ⟨hbe0, -⟩ := cand_loop_none my pl pos re0
            (moves_pseudo_legal pos) BestEval.default none nbs
            be0 mb0 nbs0 im0 hcl hm
          rw [hbe0] at h2
          exact absurd h2 (by decide)
        · exact ⟨mv, rfl⟩

/-- Witness for C1 on the bare-kings fixture. -/
theorem c1_think_verdicts_witness :
    (reK.adv_price ≥ 30 → reK.adv_price ≥ 31) ∧
    (reK.adv_price < 31 → beK.disadv_price < 31 → ∃ mv, mbK = some mv) ∧
    (reK.adv_price ≥ 31 →
      think_go_rest aiK mbK reK beK imK =
        some (RecordEntry.YourSuicide, imK, aiK)) ∧
    (reK.adv_price < 31 → beK.disadv_price ≥ 31 →
      think_go_rest aiK mbK reK beK imK =
        some (RecordEntry.YourWin, imK, aiK)) :=
  c1_think_verdicts Side.Sente 1 4 200 posK aiK mbK reK beK imK nbsK (by rfl)

end Naitou

namespace Naitou

theorem Side.inv_inv (s : Side) : s.inv.inv = s := by cases s <;> rfl

theorem piece_of_eq_cell (c : BoardCell) (s : Side) (pt : Piece)
    (h : c.piece_of s = some pt) : c = BoardCell.from_side_pt s pt := by
  cases c <;> cases s <;>
    simp_all [BoardCell.piece_of, BoardCell.from_side_pt]

theorem piece_of_from_side_pt (s : Side) (pt : Piece) :
    (BoardCell.from_side_pt s pt).piece_of s = some pt := by
  cases s <;> rfl

theorem cell_is_empty_eq (c : BoardCell) (h : c.is_empty = true) :
    c = BoardCell.Empty := by
  cases c <;> simp_all [BoardCell.is_empty]

theorem cell_empty_of_no_side (c : BoardCell) (s : Side)
    (h1 : c.is_side s = false) (h2 : c.piece_of s.inv = none)
    (h3 : c ≠ BoardCell.Wall) : c = BoardCell.Empty := by
  cases c <;> cases s <;>
    simp_all [BoardCell.is_side, BoardCell.piece_of, Side.inv]

theorem to_raw_to_promoted (pt pt' : Piece) (hc : pt.can_promote = true)
    (h : pt.to_promoted = some pt') : pt'.to_raw = pt := by
  cases pt <;> simp_all [Piece.to_promoted, Piece.can_promote] <;>
    subst h <;> rfl

theorem is_side_from_side_pt (s : Side) (pt : Piece) :
    (BoardCell.from_side_pt s pt).is_side s = true := by
  cases s <;> rfl

theorem do_move_undo_move (pos : Position) (mv : Move) (pos' : Position)
    (cmd : MoveCmd) (hw : mv_wf pos mv)
    (h : pos.do_move mv = some (pos', cmd)) :
    pos'.undo_move cmd = some pos := by
  obtain ⟨s, b, hd, py⟩ := pos
  cases mv with
  | Drop pt dst =>
    simp only [Position.do_move] at h
    split at h
    · rename_i hcnt
      split at h
      · rename_i hemp
        simp only [Option.some.injEq, Prod.mk.injEq] at h
        obtain ⟨hpos, hcmd⟩ := h
        subst hpos hcmd
        simp only [Position.undo_move, Side.inv_inv]
        rw [if_pos (show (Board.update b dst (BoardCell.from_side_pt s pt)) dst
          = BoardCell.from_side_pt s pt from by simp [Board.update])]
        simp only [Option.some.injEq, Position.mk.injEq]
        refine ⟨trivial, ?_, ?_, by omega⟩
        · funext sq
          by_cases hsq : sq = dst
          · subst hsq
            simp [Board.update, (cell_is_empty_eq _ hemp).symm]
          · simp [Board.update, hsq]
        · funext s' p'
          by_cases hsp : s' = s ∧ p' = pt
          · obtain ⟨rfl, rfl⟩ := hsp
            simp [Hands.update]
            simp only [Position.hand] at hcnt
            omega
          · simp [Hands.update, hsp]
      · exact Option.noConfusion h
    · exact Option.noConfusion h
  | Nondrop src dst promo =>
    simp only [Position.do_move] at h
    rcases hps : (b src).piece_of s with _ | pt_src
    · simp only [hps] at h
      exact Option.noConfusion h
    · simp only [hps] at h
      split at h
      · exact Option.noConfusion h
      · rename_i hnotmine
        rcases hpd : (if promo = true then pt_src.to_promoted else some pt_src)
          with _ | pt_dst
        · simp only [hpd] at h
          exact Option.noConfusion h
        · simp only [hpd] at h
          simp only [Option.some.injEq, Prod.mk.injEq] at h
          obtain ⟨hpos, hcmd⟩ := h
          subst hpos hcmd
          have hsd : src ≠ dst := by
            intro heq
            rw [heq] at hps
            have hc := piece_of_eq_cell _ _ _ hps
            rw [hc, is_side_from_side_pt] at hnotmine
            exact hnotmine rfl
          have hraw : (if promo = true then pt_dst.to_raw else pt_dst)
              = pt_src := by
            cases promo
            · rw [if_neg (by decide : ¬ (false = true))]
              rw [if_neg (by decide : ¬ (false = true))] at hpd
              injection hpd with hpd'
              exact hpd'.symm
            · simp only [if_pos rfl]
              simp only [if_pos rfl] at hpd
              exact to_raw_to_promoted pt_src pt_dst
                (hw.2 rfl pt_src hps) hpd
          simp only [Position.undo_move, Side.inv_inv]
          rw [show (((b.update src BoardCell.Empty).update dst
              (BoardCell.from_side_pt s pt_dst)) dst) =
            BoardCell.from_side_pt s pt_dst from by simp [Board.update]]
          rw [piece_of_from_side_pt]
          simp only
          rw [if_pos (show (((b.update src BoardCell.Empty).update dst
              (BoardCell.from_side_pt s pt_dst)) src).is_empty = true from by
            simp [Board.update, hsd, Ne.symm hsd, BoardCell.is_empty])]
          rcases hcap : (b dst).piece_of s.inv with _ | ptc
          · dsimp only
            rw [if_pos rfl]
            simp only [Option.some.injEq, Position.mk.injEq]
            have hdempty : b dst = BoardCell.Empty := by
              apply cell_empty_of_no_side _ s
              · simp_all
              · exact hcap
              · exact hw.1
            refine ⟨trivial, ?_, trivial, by omega⟩
            funext sq
            by_cases hq1 : sq = dst
            · subst hq1
              simp [Board.update, hdempty]
            · by_cases hq2 : sq = src
              · subst hq2
                simp [Board.update, hsd, hq1, hraw, Side.inv_inv,
                  (piece_of_eq_cell _ _ _ hps).symm]
              · simp [Board.update, hq1, hq2]
          · dsimp only
            rw [if_pos (show (decide ((hd.update s ptc.to_raw
                (hd s ptc.to_raw + 1)) s ptc.to_raw > 0)) = true from by
              simp [Hands.update])]
            simp only [Option.some.injEq, Position.mk.injEq]
            refine ⟨trivial, ?_, ?_, by omega⟩
            · funext sq
              by_cases hq1 : sq = dst
              · subst hq1
                simp [Board.update, Side.inv_inv,
                  (piece_of_eq_cell _ _ _ hcap).symm]
              · by_cases hq2 : sq = src
                · subst hq2
                  simp [Board.update, hsd, hq1, hraw, Side.inv_inv,
                    (piece_of_eq_cell _ _ _ hps).symm]
                · simp [Board.update, hq1, hq2]
            · funext s' p'
              by_cases hsp : s' = s ∧ p' = ptc.to_raw
              · obtain ⟨rfl, rfl⟩ := hsp
                simp [Hands.update]
              · simp [Hands.update, hsp]

theorem think_go_rest_frame (ai : Ai) (mb : Option Move) (re : RootEval)
    (be : BestEval) (im : Bool) (e : RecordEntry) (b : Bool) (ai' : Ai)
    (h : think_go_rest ai mb re be im = some (e, b, ai')) :
    ai'.my = ai.my ∧ ai'.pos = ai.pos ∧ ai'.mv_your = ai.mv_your := by
  simp only [think_go_rest] at h
  repeat' split at h
  all_goals
    first
    | exact Option.noConfusion h
    | (simp only [Option.some.injEq, Prod.mk.injEq] at h
       obtain ⟨-, -, rfl⟩ := h
       exact ⟨rfl, rfl, rfl⟩)

theorem think_go_frame (ai : Ai) (e : RecordEntry) (b : Bool) (ai' : Ai)
    (h : think_go ai = some (e, b, ai')) :
    ai'.my = ai.my ∧ ai'.pos = ai.pos ∧ ai'.mv_your = ai.mv_your := by
  simp only [think_go] at h
  split at h
  · exact Option.noConfusion h
  · rcases htn : think_nonbook ai.my ai.progress_level ai.progress_ply
        ai.naitou_best_src ai.pos with _ | ⟨mb, re, be, im, nbs⟩
    · rw [htn] at h
      exact Option.noConfusion h
    · rw [htn] at h
      simp only at h
      split at h
      · split at h
        · exact Option.noConfusion h
        · simp only [Option.some.injEq, Prod.mk.injEq] at h
          obtain ⟨-, -, rfl⟩ := h
          exact ⟨rfl, rfl, rfl⟩
        · have hf := think_go_rest_frame _ mb re be im e b ai' h
          exact hf
      · have hf := think_go_rest_frame _ mb re be im e b ai' h
        exact hf


theorem think_frame (ai : Ai) (e : RecordEntry) (ai₁ : Ai)
    (h : think ai = some (e, ai₁)) :
    ai₁.my = ai.my ∧ ai₁.pos = ai.pos ∧ ai₁.mv_your = ai.mv_your := by
  simp only [think] at h
  rcases htg : think_go ai with _ | ⟨entry, im, aig⟩
  · rw [htg] at h
    exact Option.noConfusion h
  · rw [htg] at h
    simp only at h
    have hf := think_go_frame ai entry im aig htg
    repeat' split at h
    all_goals
      first
      | exact Option.noConfusion h
      | (simp only [Option.some.injEq, Prod.mk.injEq] at h
         obtain ⟨-, rfl⟩ := h
         exact hf)

/-- C6.  A successful `step_my` (think, then apply the chosen move) is
fully reversed by `undo_step_my` with the returned record: position
(board, hands, side, ply), progress counters, book state and
`naitou_best_src` all return to the pre-call snapshot.  The move
well-formedness hypothesis (non-wall destination, promotions only of
promotable pieces) is guaranteed by the source's move constructors. -/
theorem c6_step_roundtrip (ai : Ai) (e : RecordEntry) (cmd : StepMyCmd) (ai₂ : Ai)
    (h : ai.step_my = some (e, cmd, ai₂))
    (hwf : ∀ mv, e = RecordEntry.Move mv ∨ e = RecordEntry.MyWin mv →
      mv_wf ai.pos mv) :
    ai₂.undo_step_my cmd = some ai := by
  obtain ⟨m, p, mvy, pp, pl, ps, bk, nb⟩ := ai
  simp only [Ai.step_my] at h
  rcases htk : think ⟨m, p, mvy, pp, pl, ps, bk, nb⟩ with _ | ⟨entry, ai₁⟩
  · rw [htk] at h
    exact Option.noConfusion h
  · rw [htk] at h
    simp only at h
    obtain ⟨hmy, hpos, hmv⟩ := think_frame _ entry ai₁ htk
    cases entry with
    | YourSuicide =>
      simp only [Option.some.injEq, Prod.mk.injEq] at h
      obtain ⟨rfl, rfl, rfl⟩ := h
      simp only [Ai.undo_step_my]
      simp only [Option.some.injEq, Ai.mk.injEq]
      exact ⟨hmy, hpos, hmv, trivial, trivial, trivial, trivial, trivial⟩
    | YourWin =>
      simp only [Option.some.injEq, Prod.mk.injEq] at h
      obtain ⟨rfl, rfl, rfl⟩ := h
      simp only [Ai.undo_step_my]
      simp only [Option.some.injEq, Ai.mk.injEq]
      exact ⟨hmy, hpos, hmv, trivial, trivial, trivial, trivial, trivial⟩
    | Move mv =>
      simp only at h
      rcases hmm : ai₁.move_my mv with _ | ⟨mv_cmd, ai₂'⟩
      · rw [hmm] at h
        exact Option.noConfusion h
      · rw [hmm] at h
        simp only [Option.some.injEq, Prod.mk.injEq] at h
        obtain ⟨rfl, rfl, rfl⟩ := h
        simp only [Ai.move_my] at hmm
        split at hmm
        · exact Option.noConfusion hmm
        · rcases hdm : ai₁.pos.do_move mv with _ | ⟨pos', mc⟩
          · rw [hdm] at hmm
            exact Option.noConfusion hmm
          · rw [hdm] at hmm
            simp only [Option.some.injEq, Prod.mk.injEq] at hmm
            obtain ⟨rfl, rfl⟩ := hmm
            have hrt := do_move_undo_move ai₁.pos mv pos' mc
              (by rw [hpos]; exact hwf mv (Or.inl rfl)) hdm
            simp only [Ai.undo_step_my]
            rw [hrt, hpos]
            simp only [Option.some.injEq, Ai.mk.injEq]
            exact ⟨hmy, trivial, hmv, trivial, trivial, trivial, trivial,
              trivial⟩
    | MyWin mv =>
      simp only at h
      rcases hmm : ai₁.move_my mv with _ | ⟨mv_cmd, ai₂'⟩
      · rw [hmm] at h
        exact Option.noConfusion h
      · rw [hmm] at h
        simp only [Option.some.injEq, Prod.mk.injEq] at h
        obtain ⟨rfl, rfl, rfl⟩ := h
        simp only [Ai.move_my] at hmm
        split at hmm
        · exact Option.noConfusion hmm
        · rcases hdm : ai₁.pos.do_move mv with _ | ⟨pos', mc⟩
          · rw [hdm] at hmm
            exact Option.noConfusion hmm
          · rw [hdm] at hmm
            simp only [Option.some.injEq, Prod.mk.injEq] at hmm
            obtain ⟨rfl, rfl⟩ := hmm
            have hrt := do_move_undo_move ai₁.pos mv pos' mc
              (by rw [hpos]; exact hwf mv (Or.inr rfl)) hdm
            simp only [Ai.undo_step_my]
            rw [hrt, hpos]
            simp only [Option.some.injEq, Ai.mk.injEq]
            exact ⟨hmy, trivial, hmv, trivial, trivial, trivial, trivial,
              trivial⟩

/-- Witness for C6 on the bare-kings fixture. -/
theorem c6_step_roundtrip_witness : aiK2.undo_step_my cmdK = some aiK :=
  c6_step_roundtrip aiK eK cmdK aiK2 (by rfl)
    (by
      intro mv hor
      rcases hor with he | he
      · rw [show eK = RecordEntry.Move (Move.Nondrop 104 92 false)
          from rfl] at he
        injection he with he'
        rw [← he']
        exact ⟨by decide, fun hh => absurd hh (by decide)⟩
      · rw [show eK = RecordEntry.Move (Move.Nondrop 104 92 false)
          from rfl] at he
        exact RecordEntry.noConfusion he)

end Naitou

namespace Naitou

theorem eff_find_filter (sq sq' : Sq) (hne : sq' ≠ sq) :
    ∀ d : EffectData,
      (d.filter fun c => decide (c.1 ≠ sq)).find? (fun c => decide (c.1 = sq'))
        = d.find? fun c => decide (c.1 = sq') := by
  intro d
  induction d with
  | nil => rfl
  | cons c rest ih =>
    by_cases hcs : c.1 = sq
    · have h2 : (decide (c.1 = sq')) = false := by simp [hcs, Ne.symm hne]
      rw [List.filter_cons_of_neg (by simp [hcs]), List.find?_cons, h2]
      exact ih
    · rw [List.filter_cons_of_pos (by simp [hcs]), List.find?_cons,
        List.find?_cons]
      rcases hdec : decide (c.1 = sq') with _ | _
      · exact ih
      · rfl

theorem eff_get_set (d : EffectData) (sq : Sq) (v : EffectInfo × EffectInfo)
    (sq' : Sq) :
    eff_data_get (eff_data_set d sq v) sq' =
      if sq' = sq then v else eff_data_get d sq' := by
  by_cases h : sq' = sq
  · subst h
    simp [eff_data_get, eff_data_set, List.find?_cons]
  · simp only [if_neg h]
    simp only [eff_data_get, eff_data_set, List.find?_cons]
    rw [show (decide ((sq, v).1 = sq')) = false by
      simp [Ne.symm h]]
    rw [eff_find_filter sq sq' h]

theorem eff_pick_put (p : EffectInfo × EffectInfo) (side side' : Side)
    (v : EffectInfo) :
    eff_pick (eff_put p side v) side' =
      if side' = side then v else eff_pick p side' := by
  cases side <;> cases side' <;> simp [eff_pick, eff_put]

theorem apply_one_pick (b : Board) (side : Side) (d : EffectData)
    (e : Bool × Sq × Sq) (sq : Sq) (side' : Side) :
    eff_pick (eff_data_get (EffectBoard.apply_one b side d e) sq) side' =
      if sq = e.2.2 ∧ side' = side then
        { count := (eff_pick (eff_data_get d sq) side).count + 1,
          attacker :=
            if e.1 then (eff_pick (eff_data_get d sq) side).attacker
            else
              match (b e.2.1).piece_of side with
              | some pt =>
                opt_chmin_attacker
                  (eff_pick (eff_data_get d sq) side).attacker pt
              | none => (eff_pick (eff_data_get d sq) side).attacker }
      else eff_pick (eff_data_get d sq) side' := by
  simp only [EffectBoard.apply_one]
  rw [eff_get_set]
  by_cases h1 : sq = e.2.2
  · subst h1
    rw [if_pos rfl, eff_pick_put]
    by_cases h2 : side' = side
    · subst h2
      simp
    · rw [if_neg h2, if_neg (fun hc => h2 hc.2)]
  · rw [if_neg h1, if_neg (fun hc => h1 hc.1)]

theorem fold_apply_other (b : Board) (side : Side) :
    ∀ (es : List (Bool × Sq × Sq)) (d : EffectData) (sq : Sq) (side' : Side),
      side' ≠ side →
      eff_pick (eff_data_get
        (es.foldl (EffectBoard.apply_one b side) d) sq) side' =
        eff_pick (eff_data_get d sq) side' := by
  intro es
  induction es with
  | nil => intro d sq side' _; rfl
  | cons e rest ih =>
    intro d sq side' hne
    rw [List.foldl_cons, ih _ sq side' hne, apply_one_pick,
      if_neg (by tauto)]

theorem fold_apply_count (b : Board) (side : Side) :
    ∀ (es : List (Bool × Sq × Sq)) (d : EffectData) (sq : Sq),
      (eff_pick (eff_data_get
        (es.foldl (EffectBoard.apply_one b side) d) sq) side).count =
        (eff_pick (eff_data_get d sq) side).count +
          (es.filter fun e => decide (e.2.2 = sq)).length := by
  intro es
  induction es with
  | nil => intro d sq; rfl
  | cons e rest ih =>
    intro d sq
    rw [List.foldl_cons, ih, apply_one_pick, List.filter_cons]
    by_cases h1 : e.2.2 = sq
    · rw [if_pos ⟨h1.symm, rfl⟩]
      simp [h1]
      omega
    · rw [if_neg (by tauto)]
      simp [h1]

theorem fold_apply_attacker (b : Board) (side : Side) :
    ∀ (es : List (Bool × Sq × Sq)) (d : EffectData) (sq : Sq),
      (eff_pick (eff_data_get
        (es.foldl (EffectBoard.apply_one b side) d) sq) side).attacker =
        (es.filterMap fun e =>
          if e.1 = false ∧ e.2.2 = sq then (b e.2.1).piece_of side
          else none).foldl
          opt_chmin_attacker
          (eff_pick (eff_data_get d sq) side).attacker := by
  intro es
  induction es with
  | nil => intro d sq; rfl
  | cons e rest ih =>
    intro d sq
    rw [List.foldl_cons, ih, apply_one_pick, List.filterMap_cons]
    by_cases h1 : e.2.2 = sq
    · rw [if_pos (show sq = e.2.2 ∧ side = side from ⟨h1.symm, rfl⟩)]
      rcases he : e.1 with _ | _
      · rcases hpt : (b e.2.1).piece_of side with _ | pt
        · simp [he, h1, hpt]
        · simp [he, h1, hpt]
      · simp [he, h1]
    · rw [if_neg (fun hc => h1 hc.1.symm)]
      simp [h1]

theorem opt_chmin_isSome (a : Option Piece) (x : Piece) :
    (opt_chmin_attacker a x).isSome := by
  rcases a with _ | q
  · rfl
  · rw [opt_chmin_attacker]
    split <;> rfl

theorem foldl_chmin_some (l : List Piece) :
    ∀ acc : Option Piece, acc.isSome →
      (l.foldl opt_chmin_attacker acc).isSome := by
  induction l with
  | nil => intro acc h; exact h
  | cons x t ih =>
    intro acc h
    rw [List.foldl_cons]
    exact ih _ (opt_chmin_isSome acc x)

theorem attacker_spec_none (l : List Piece) (h : attacker_spec l = none) :
    l = [] := by
  rcases l with _ | ⟨x, t⟩
  · rfl
  · exfalso
    rw [attacker_spec, List.foldl_cons] at h
    have := foldl_chmin_some t (opt_chmin_attacker none x)
      (opt_chmin_isSome none x)
    rw [h] at this
    exact Bool.noConfusion this

theorem attacker_spec_some (l : List Piece) :
    ∀ pt : Piece, attacker_spec l = some pt →
    ∃ i, ∃ hi : i < l.length, l[i] = pt ∧
      (∀ j, ∀ hj : j < l.length, PRICES_0 pt ≤ PRICES_0 l[j]) ∧
      ∀ j, ∀ hj : j < i, PRICES_0 pt < PRICES_0 l[j] := by
  induction l using List.reverseRecOn with
  | nil =>
    intro pt h
    exact absurd h (by simp [attacker_spec])
  | append_singleton l x ih =>
    intro pt h
    rw [attacker_spec, List.foldl_append, List.foldl_cons,
      List.foldl_nil] at h
    rcases hl : attacker_spec l with _ | q
    · rw [show l.foldl opt_chmin_attacker none = attacker_spec l from rfl,
        hl] at h
      obtain rfl := attacker_spec_none l hl
      simp only [opt_chmin_attacker, Option.some.injEq] at h
      subst h
      refine ⟨0, by simp, by simp, ?_, ?_⟩
      · intro j hj
        simp only [List.nil_append, List.length_cons, List.length_nil,
          Nat.lt_succ_iff, Nat.le_zero] at hj
        subst hj
        simp
      · intro j hj
        omega
    · rw [show l.foldl opt_chmin_attacker none = attacker_spec l from rfl,
        hl] at h
      obtain ⟨i, hi, hget, hmin, hstrict⟩ := ih q hl
      by_cases hx : PRICES_0 x < PRICES_0 q
      · rw [opt_chmin_attacker, if_pos hx] at h
        injection h with h2
        subst h2
        refine ⟨l.length, by simp, by simp, ?_, ?_⟩
        · intro j hj
          rcases Nat.lt_or_ge j l.length with hj2 | hj2
          · rw [List.getElem_append_left hj2]
            have hq := hmin j hj2
            omega
          · have hje : j = l.length := by
              simp only [List.length_append, List.length_cons,
                List.length_nil] at hj
              omega
            subst hje
            simp
        · intro j hj
          rw [List.getElem_append_left hj]
          have hq := hmin j hj
          omega
      · rw [opt_chmin_attacker, if_neg hx] at h
        injection h with h2
        subst h2
        have hi2 : i < (l ++ [x]).length := by simp; omega
        refine ⟨i, hi2, ?_, ?_, ?_⟩
        · rw [List.getElem_append_left hi]
          exact hget
        · intro j hj
          rcases Nat.lt_or_ge j l.length with hj2 | hj2
          · rw [List.getElem_append_left hj2]
            exact hmin j hj2
          · have hje : j = l.length := by
              simp only [List.length_append, List.length_cons,
                List.length_nil] at hj
              omega
            subst hje
            simp
            omega
        · intro j hj
          rw [List.getElem_append_left (lt_trans hj hi)]
          exact hstrict j hj

theorem support_ranged_dsts_no_wall (b : Board) (side : Side) (dir : Int) :
    ∀ (fuel : Nat) (dst : Sq) (e : Bool × Sq),
      e ∈ support_ranged_dsts b side dir fuel dst →
      (b e.2).is_wall = false := by
  intro fuel
  induction fuel with
  | zero => intro dst e he; exact absurd he (by simp [support_ranged_dsts])
  | succ fuel ih =>
    intro dst e he
    rw [support_ranged_dsts] at he
    split at he
    · exact absurd he (by simp)
    · rename_i hwall
      split at he
      · rename_i pt hpt
        rcases List.mem_cons.mp he with rfl | he2
        · simpa using hwall
        · split at he2
          · rw [support_step] at he2
            split at he2
            · exact absurd he2 (by simp)
            · rename_i hw2
              rcases List.mem_singleton.mp he2 with rfl
              simpa using hw2
          · exact absurd he2 (by simp)
      · split at he
        · rcases List.mem_singleton.mp he with rfl
          simpa using hwall
        · rcases List.mem_cons.mp he with rfl | he2
          · simpa using hwall
          · exact ih _ e he2

theorem iter_support_effects_valid (b : Board) (side my : Side)
    (hw : Board.walled b) :
    ∀ e ∈ iter_support_effects b side my, Sq.is_valid e.2.2 = true := by
  intro e he
  have hvalid_of_nowall : ∀ sq : Sq, (b sq).is_wall = false →
      Sq.is_valid sq = true := by
    intro sq hnw
    by_contra hv
    rw [hw sq hv] at hnw
    exact Bool.noConfusion hnw
  rw [iter_support_effects] at he
  rcases List.mem_flatMap.mp he with ⟨src, hsrc, he2⟩
  rcases hpc : (b src).piece_of side with _ | pt
  · rw [hpc] at he2
    exact absurd he2 (by simp)
  · rw [hpc] at he2
    rcases List.mem_map.mp he2 with ⟨e0, he0, rfl⟩
    simp only
    rw [iter_support_effects_by] at he0
    rcases List.mem_append.mp he0 with hm | hr
    · rw [iter_melee_support_effects_by] at hm
      rcases List.mem_map.mp hm with ⟨d0, hd0, rfl⟩
      rw [iter_melee_effects_by] at hd0
      exact (List.mem_filter.mp hd0).2
    · rw [iter_ranged_support_effects_by] at hr
      rcases List.mem_flatMap.mp hr with ⟨dir, -, hdst⟩
      exact hvalid_of_nowall _
        (support_ranged_dsts_no_wall b side dir rayFuel (src + dir) e0 hdst)

theorem effect_info_ext (x y : EffectInfo) (h1 : x.count = y.count)
    (h2 : x.attacker = y.attacker) : x = y := by
  cases x
  cases y
  simp_all

theorem from_board_pick (b : Board) (my : Side) (sq : Sq) (side : Side) :
    EffectBoard.from_board b my sq side =
      { count := ((iter_support_effects b side my).filter fun e =>
          decide (e.2.2 = sq)).length,
        attacker := attacker_spec (contributors b side my sq) } := by
  have hbase : ∀ side' : Side,
      eff_pick (eff_data_get ([] : EffectData) sq) side' =
        EffectInfo.default := by
    intro side'
    cases side' <;> rfl
  show eff_pick (eff_data_get (EffectBoard.from_board_data b my) sq) side = _
  rw [EffectBoard.from_board_data]
  simp only [Side.iter, List.foldl_cons, List.foldl_nil]
  cases side
  · rw [fold_apply_other b Side.Gote _ _ sq Side.Sente (by decide)]
    apply effect_info_ext
    · rw [fold_apply_count b Side.Sente, hbase Side.Sente]
      simp [EffectInfo.default]
    · rw [fold_apply_attacker b Side.Sente, hbase Side.Sente]
      rfl
  · apply effect_info_ext
    · rw [fold_apply_count b Side.Gote,
        fold_apply_other b Side.Sente _ _ sq Side.Gote (by decide),
        hbase Side.Gote]
      simp [EffectInfo.default]
    · rw [fold_apply_attacker b Side.Gote,
        fold_apply_other b Side.Sente _ _ sq Side.Gote (by decide),
        hbase Side.Gote]
      rfl

theorem walled_empty : Board.walled Board.empty := by
  intro sq hv
  rw [Board.empty]
  rw [if_neg hv]

theorem walled_update (b : Board) (hb : Board.walled b) (sq : Sq)
    (hv : Sq.is_valid sq = true) (c : BoardCell) :
    Board.walled (b.update sq c) := by
  intro s hs
  rw [Board.update]
  rw [if_neg (fun he => hs (by rw [he]; exact hv))]
  exact hb s hs

theorem mkBoard_walled (l : List (Int × Int × BoardCell))
    (hl : ∀ e ∈ l, Sq.is_valid (Sq.from_xy e.1 e.2.1) = true) :
    Board.walled (mkBoard l) := by
  rw [mkBoard]
  suffices hgen : ∀ (l : List (Int × Int × BoardCell)) (b : Board),
      Board.walled b → (∀ e ∈ l, Sq.is_valid (Sq.from_xy e.1 e.2.1) = true) →
      Board.walled (l.foldl
        (fun b e => b.update (Sq.from_xy e.1 e.2.1) e.2.2) b) by
    exact hgen l Board.empty walled_empty hl
  intro l2
  induction l2 with
  | nil => intro b hb _; exact hb
  | cons e rest ih =>
    intro b hb hall
    rw [List.foldl_cons]
    exact ih _ (walled_update b hb _ (hall e (List.mem_cons_self _ _)) _)
      fun e2 he2 => hall e2 (List.mem_cons_of_mem _ he2)

/-- C7.  For every walled board and viewing side, the effect board
satisfies: frame squares carry the default info (count 0, no attacker)
for both sides; the count at a square totals every emitted effect hitting
it, shadows included, while the attacker folds only the non-shadow
contributors; and the stored attacker is the first contributor in the
side-specific scan order whose price-table-0 value is minimal. -/
theorem c7_effect_board (b : Board) (my : Side) (hw : Board.walled b) :
    (∀ sq (side : Side), ¬ Sq.is_valid sq = true →
      EffectBoard.from_board b my sq side = EffectInfo.default) ∧
    (∀ sq (side : Side),
      (EffectBoard.from_board b my sq side).count =
        ((iter_support_effects b side my).filter fun e =>
          decide (e.2.2 = sq)).length) ∧
    (∀ sq (side : Side),
      (EffectBoard.from_board b my sq side).attacker =
        attacker_spec (contributors b side my sq)) ∧
    (∀ sq (side : Side) (pt : Piece),
      (EffectBoard.from_board b my sq side).attacker = some pt →
      ∃ i, ∃ hi : i < (contributors b side my sq).length,
        (contributors b side my sq)[i] = pt ∧
        (∀ j, ∀ hj : j < (contributors b side my sq).length,
          PRICES_0 pt ≤ PRICES_0 (contributors b side my sq)[j]) ∧
        ∀ j, ∀ hj : j < i,
          PRICES_0 pt < PRICES_0 (contributors b side my sq)[j]) := by
  refine ⟨?_, ?_, ?_, ?_⟩
  · intro sq side hv
    rw [from_board_pick]
    have hfil : ((iter_support_effects b side my).filter fun e =>
        decide (e.2.2 = sq)) = [] := by
      rw [List.filter_eq_nil_iff]
      intro e he hd
      exact hv (of_decide_eq_true hd ▸
        iter_support_effects_valid b side my hw e he)
    have hcon : contributors b side my sq = [] := by
      rw [contributors, List.filterMap_eq_nil_iff]
      intro e he
      rw [if_neg]
      rintro ⟨-, hdst⟩
      exact hv (hdst ▸ iter_support_effects_valid b side my hw e he)
    rw [hfil, hcon]
    rfl
  · intro sq side
    rw [from_board_pick]
  · intro sq side
    rw [from_board_pick]
  · intro sq side pt hatk
    rw [from_board_pick] at hatk
    exact attacker_spec_some (contributors b side my sq) pt hatk

/-- Witness for C7 on the C5 fixture board: the sentinel frame square is
effect-free and the counts and attackers at (3,3) match their
characterizations. -/
theorem c7_effect_board_witness :
    EffectBoard.from_board board_c5 Side.Gote SQ_INVALID Side.Gote =
      EffectInfo.default ∧
    (EffectBoard.from_board board_c5 Side.Gote (Sq.from_xy 3 3)
      Side.Sente).count =
      ((iter_support_effects board_c5 Side.Sente Side.Gote).filter fun e =>
        decide (e.2.2 = Sq.from_xy 3 3)).length ∧
    (EffectBoard.from_board board_c5 Side.Gote (Sq.from_xy 3 3)
      Side.Gote).attacker =
      attacker_spec (contributors board_c5 Side.Gote Side.Gote
        (Sq.from_xy 3 3)) := by
  have hw : Board.walled board_c5 := mkBoard_walled _ (by decide)
  exact ⟨(c7_effect_board board_c5 Side.Gote hw).1 SQ_INVALID Side.Gote (by decide),
    (c7_effect_board board_c5 Side.Gote hw).2.1 (Sq.from_xy 3 3) Side.Sente,
    (c7_effect_board board_c5 Side.Gote hw).2.2.1 (Sq.from_xy 3 3) Side.Gote⟩

end Naitou

namespace Naitou

theorem effects_melee_mem (side : Side) (pt : Piece) (di : Int) :
    di ∈ Piece.effects_melee pt side ↔ di ∈ piece_effects_melee side pt := by
  cases side <;> cases pt <;>
    simp [Piece.effects_melee, piece_effects_melee, Side.sgn] <;> omega

theorem king_cell_props (c : BoardCell) (s : Side)
    (h : c.is_side_pt s Piece.King = true) :
    c.is_side s = true ∧ c.is_empty = false ∧ c.is_wall = false := by
  cases c <;> cases s <;>
    simp_all [BoardCell.is_side_pt, BoardCell.is_side, BoardCell.is_empty,
      BoardCell.is_wall]

theorem iter_valid_mem_valid (sq : Sq) (h : sq ∈ Sq.iter_valid) :
    Sq.is_valid sq = true :=
  (List.mem_filter.mp h).2

theorem melee_dst_equiv (pos : Position) (src : Sq) (pt : Piece) (k : Sq)
    (hkv : Sq.is_valid k = true)
    (hkc : (pos.board k).is_side pos.side.inv = true) :
    k ∈ iter_melee_effects_by pos.side src pt ↔
      ∃ mv ∈ moves_pseudo_legal_nondrop_melee pos src pt, mv.dst = k := by
  have hke : (pos.board k).is_empty = false := by
    rcases hcell : pos.board k with _ | p | p <;>
      rw [hcell] at hkc <;> cases hs : pos.side <;>
        simp_all [BoardCell.is_side, BoardCell.is_empty, Side.inv]
  constructor
  · intro hm
    rw [iter_melee_effects_by] at hm
    obtain ⟨hm1, -⟩ := List.mem_filter.mp hm
    obtain ⟨di, hdi, hdk⟩ := List.mem_map.mp hm1
    refine ⟨Move.Nondrop src k (can_promote_mv pos.side pt src k), ?_, rfl⟩
    rw [moves_pseudo_legal_nondrop_melee]
    rw [List.mem_filterMap]
    refine ⟨di, (effects_melee_mem pos.side pt di).mp hdi, ?_⟩
    rw [hdk]
    rw [if_pos (by rw [hkc]; simp)]
  · rintro ⟨mv, hmv, hdst⟩
    rw [moves_pseudo_legal_nondrop_melee, List.mem_filterMap] at hmv
    obtain ⟨di, hdi, hf⟩ := hmv
    dsimp only at hf
    split at hf
    · injection hf with hf2
      subst hf2
      simp only [Move.dst] at hdst
      rw [iter_melee_effects_by, List.mem_filter]
      subst hdst
      exact ⟨List.mem_map.mpr ⟨di, (effects_melee_mem pos.side pt di).mpr hdi,
        rfl⟩, hkv⟩
    · exact Option.noConfusion hf

theorem walk_dst_equiv (pos : Position) (src : Sq) (pt : Piece) (dir : Int)
    (k : Sq) (hkc : (pos.board k).is_side pos.side.inv = true) :
    ∀ (fuel : Nat) (cur : Sq),
      k ∈ ranged_dsts pos.board dir fuel cur ↔
        ∃ mv ∈ pl_ranged_walk pos src pt dir fuel cur, mv.dst = k := by
  have hke : (pos.board k).is_empty = false := by
    rcases hcell : pos.board k with _ | p | p <;>
      rw [hcell] at hkc <;> cases hs : pos.side <;>
        simp_all [BoardCell.is_side, BoardCell.is_empty, Side.inv]
  have hkw : (pos.board k).is_wall = false := by
    rcases hcell : pos.board k with _ | p | p <;>
      rw [hcell] at hkc <;> cases hs : pos.side <;>
        simp_all [BoardCell.is_side, BoardCell.is_wall, Side.inv]
  intro fuel
  induction fuel with
  | zero =>
    intro cur
    rw [ranged_dsts, pl_ranged_walk]
    simp
  | succ fuel ih =>
    intro cur
    rw [ranged_dsts, pl_ranged_walk]
    by_cases hw : (pos.board cur).is_wall = true
    · rw [if_pos hw]
      have hcs : (pos.board cur).is_side pos.side.inv = false := by
        rcases hcell : pos.board cur with _ | p | p <;>
          rw [hcell] at hw <;> cases hs : pos.side <;>
            simp_all [BoardCell.is_side, BoardCell.is_wall, Side.inv]
      have hcne : (pos.board cur).is_empty = false := by
        rcases hcell : pos.board cur with _ | p | p <;>
          rw [hcell] at hw <;>
            simp_all [BoardCell.is_empty, BoardCell.is_wall]
      rw [if_neg (by rw [hcs]; simp), if_pos (by rw [hcne]; simp)]
      simp
    · rw [if_neg hw]
      by_cases hemp : (pos.board cur).is_empty = true
      · have hcs : (pos.board cur).is_side pos.side.inv = false := by
          rcases hcell : pos.board cur with _ | p | p <;>
            rw [hcell] at hemp <;> cases hs : pos.side <;>
              simp_all [BoardCell.is_side, BoardCell.is_empty, Side.inv]
        rw [if_neg (by rw [hemp]; simp), if_neg (by rw [hcs]; simp),
          if_neg (by rw [hemp]; simp)]
        have hkc2 : k ≠ cur := by
          intro he
          rw [← he] at hemp
          rw [hemp] at hke
          exact Bool.noConfusion hke
        constructor
        · intro hmem
          rcases List.mem_cons.mp hmem with he | hrest
          · exact absurd he hkc2
          · obtain ⟨mv, hmv, hd⟩ := (ih (cur + dir)).mp hrest
            exact ⟨mv, List.mem_cons_of_mem _ hmv, hd⟩
        · rintro ⟨mv, hmv, hd⟩
          rcases List.mem_cons.mp hmv with he | hrest
          · subst he
            simp only [Move.dst] at hd
            exact absurd hd.symm hkc2
          · exact List.mem_cons_of_mem _
              ((ih (cur + dir)).mpr ⟨mv, hrest, hd⟩)
      · have hemp2 : (pos.board cur).is_empty = false :=
          Bool.eq_false_iff.mpr hemp
        rw [if_pos (by rw [hemp2]; rfl)]
        by_cases hcs : (pos.board cur).is_side pos.side.inv = true
        · rw [if_pos hcs]
          constructor
          · intro hmem
            rcases List.mem_singleton.mp hmem with rfl
            exact ⟨Move.Nondrop src k (can_promote_mv pos.side pt src k),
              List.mem_singleton.mpr rfl, rfl⟩
          · rintro ⟨mv, hmv, hd⟩
            rcases List.mem_singleton.mp hmv with rfl
            simp only [Move.dst] at hd
            subst hd
            exact List.mem_singleton.mpr rfl
        · rw [if_neg hcs, if_pos (by rw [hemp2]; rfl)]
          constructor
          · intro hmem
            rcases List.mem_singleton.mp hmem with rfl
            exact absurd hkc hcs
          · rintro ⟨mv, hmv, -⟩
            exact absurd hmv (List.not_mem_nil mv)

theorem ranged_gen_equiv (pos : Position) (src : Sq) (pt : Piece)
    (dir : Int) (k : Sq)
    (hkc : (pos.board k).is_side pos.side.inv = true) :
    k ∈ ranged_dsts pos.board dir rayFuel (src + dir) ↔
      ∃ mv ∈ moves_pseudo_legal_nondrop_ranged pos src pt dir,
        mv.dst = k := by
  rw [moves_pseudo_legal_nondrop_ranged]
  exact walk_dst_equiv pos src pt dir k hkc rayFuel (src + dir)

theorem multi_ranged_equiv (pos : Position) (src : Sq) (pt : Piece)
    (dirsE dirsM : List Int)
    (hdirs : ∀ d : Int, d ∈ dirsE ↔ ∃ d0 ∈ dirsM, d0 * pos.side.sgn = d)
    (k : Sq) (hkc : (pos.board k).is_side pos.side.inv = true) :
    k ∈ dirsE.flatMap (fun dir =>
        ranged_dsts pos.board dir rayFuel (src + dir)) ↔
      ∃ mv ∈ dirsM.flatMap (fun dir =>
        moves_pseudo_legal_nondrop_ranged pos src pt
          (dir * pos.side.sgn)), mv.dst = k := by
  rw [List.mem_flatMap]
  constructor
  · rintro ⟨d, hd, hk⟩
    obtain ⟨d0, hd0, hde⟩ := (hdirs d).mp hd
    obtain ⟨mv, hmv, hdst⟩ :=
      (ranged_gen_equiv pos src pt d k hkc).mp hk
    refine ⟨mv, List.mem_flatMap.mpr ⟨d0, hd0, ?_⟩, hdst⟩
    rw [hde]
    exact hmv
  · rintro ⟨mv, hmv, hdst⟩
    obtain ⟨d0, hd0, hmv2⟩ := List.mem_flatMap.mp hmv
    have hd : (d0 * pos.side.sgn) ∈ dirsE :=
      (hdirs _).mpr ⟨d0, hd0, rfl⟩
    exact ⟨d0 * pos.side.sgn, hd,
      (ranged_gen_equiv pos src pt _ k hkc).mpr ⟨mv, hmv2, hdst⟩⟩

theorem nondrop_dst_equiv (pos : Position) (src : Sq) (pt : Piece) (k : Sq)
    (hkv : Sq.is_valid k = true)
    (hkc : (pos.board k).is_side pos.side.inv = true) :
    k ∈ iter_effects_by pos.board pos.side src pt ↔
      ∃ mv ∈ moves_pseudo_legal_nondrop pos src pt, mv.dst = k := by
  have hmelee := melee_dst_equiv pos src pt k hkv hkc
  rw [iter_effects_by, List.mem_append, iter_ranged_effects_by]
  cases pt
  case Lance =>
    rw [moves_pseudo_legal_nondrop, moves_pseudo_legal_nondrop_lance]
    have hmel0 : k ∈ iter_melee_effects_by pos.side src Piece.Lance ↔
        False := by
      simp [iter_melee_effects_by, Piece.effects_melee]
    rw [hmel0]
    have h1 : Piece.effects_ranged Piece.Lance pos.side =
        [-11 * pos.side.sgn] := by
      cases hs : pos.side <;>
        simp [Piece.effects_ranged, Side.sgn]
    rw [h1]
    simp only [List.flatMap_cons, List.flatMap_nil, List.append_nil,
      false_or]
    exact ranged_gen_equiv pos src Piece.Lance (-11 * pos.side.sgn) k hkc
  case Bishop =>
    rw [moves_pseudo_legal_nondrop, moves_pseudo_legal_nondrop_bishop]
    have hmel0 : k ∈ iter_melee_effects_by pos.side src Piece.Bishop ↔
        False := by
      simp [iter_melee_effects_by, Piece.effects_melee]
    rw [hmel0]
    simp only [false_or]
    exact multi_ranged_equiv pos src Piece.Bishop
      (Piece.effects_ranged Piece.Bishop pos.side) [12, 10, -10, -12]
      (by cases hs : pos.side <;> intro d <;>
        simp [Piece.effects_ranged, Side.sgn] <;> omega) k hkc
  case Rook =>
    rw [moves_pseudo_legal_nondrop, moves_pseudo_legal_nondrop_rook]
    have hmel0 : k ∈ iter_melee_effects_by pos.side src Piece.Rook ↔
        False := by
      simp [iter_melee_effects_by, Piece.effects_melee]
    rw [hmel0]
    simp only [false_or]
    exact multi_ranged_equiv pos src Piece.Rook
      (Piece.effects_ranged Piece.Rook pos.side) [11, -11, 1, -1]
      (by cases hs : pos.side <;> intro d <;>
        simp [Piece.effects_ranged, Side.sgn] <;> omega) k hkc
  case Horse =>
    rw [moves_pseudo_legal_nondrop, moves_pseudo_legal_nondrop_horse]
    constructor
    · intro hm
      rcases hm with hmel | hrng
      · obtain ⟨mv, hmv, hdst⟩ := hmelee.mp hmel
        exact ⟨mv, List.mem_append.mpr (Or.inr hmv), hdst⟩
      · obtain ⟨mv, hmv, hdst⟩ :=
          (multi_ranged_equiv pos src Piece.Horse
            (Piece.effects_ranged Piece.Horse pos.side) [12, 10, -10, -12]
            (by cases hs : pos.side <;> intro d <;>
              simp [Piece.effects_ranged, Side.sgn] <;> omega) k
            hkc).mp hrng
        exact ⟨mv, List.mem_append.mpr (Or.inl hmv), hdst⟩
    · rintro ⟨mv, hmv, hdst⟩
      rcases List.mem_append.mp hmv with hb | hm
      · exact Or.inr ((multi_ranged_equiv pos src Piece.Horse
          (Piece.effects_ranged Piece.Horse pos.side) [12, 10, -10, -12]
          (by cases hs : pos.side <;> intro d <;>
            simp [Piece.effects_ranged, Side.sgn] <;> omega) k
          hkc).mpr ⟨mv, hb, hdst⟩)
      · exact Or.inl (hmelee.mpr ⟨mv, hm, hdst⟩)
  case Dragon =>
    rw [moves_pseudo_legal_nondrop, moves_pseudo_legal_nondrop_dragon]
    constructor
    · intro hm
      rcases hm with hmel | hrng
      · obtain ⟨mv, hmv, hdst⟩ := hmelee.mp hmel
        exact ⟨mv, List.mem_append.mpr (Or.inr hmv), hdst⟩
      · obtain ⟨mv, hmv, hdst⟩ :=
          (multi_ranged_equiv pos src Piece.Dragon
            (Piece.effects_ranged Piece.Dragon pos.side) [11, -11, 1, -1]
            (by cases hs : pos.side <;> intro d <;>
              simp [Piece.effects_ranged, Side.sgn] <;> omega) k
            hkc).mp hrng
        exact ⟨mv, List.mem_append.mpr (Or.inl hmv), hdst⟩
    · rintro ⟨mv, hmv, hdst⟩
      rcases List.mem_append.mp hmv with hb | hm
      · exact Or.inr ((multi_ranged_equiv pos src Piece.Dragon
          (Piece.effects_ranged Piece.Dragon pos.side) [11, -11, 1, -1]
          (by cases hs : pos.side <;> intro d <;>
            simp [Piece.effects_ranged, Side.sgn] <;> omega) k
          hkc).mpr ⟨mv, hb, hdst⟩)
      · exact Or.inl (hmelee.mpr ⟨mv, hm, hdst⟩)
  all_goals
    (constructor
     · (intro hm
        rcases hm with hmel | hrng
        · exact hmelee.mp hmel
        · (exfalso
           rw [List.mem_flatMap] at hrng
           obtain ⟨d, hd, -⟩ := hrng
           revert hd
           cases pos.side <;> simp [Piece.effects_ranged]))
     · (intro hex
        exact Or.inl (hmelee.mpr hex)))

theorem mem_iter_valid_sim (s : Side) (sq : Sq) :
    sq ∈ Sq.iter_valid_sim s ↔ sq ∈ Sq.iter_valid := by
  cases s <;> simp [Sq.iter_valid_sim, Sq.iter_valid_rev]

theorem walk_shape (pos : Position) (src : Sq) (pt : Piece) (dir : Int) :
    ∀ (fuel : Nat) (cur : Sq) (mv : Move),
      mv ∈ pl_ranged_walk pos src pt dir fuel cur →
      ∃ s d p, mv = Move.Nondrop s d p := by
  intro fuel
  induction fuel with
  | zero =>
    intro cur mv h
    rw [pl_ranged_walk] at h
    exact absurd h (List.not_mem_nil mv)
  | succ fuel ih =>
    intro cur mv h
    rw [pl_ranged_walk] at h
    split at h
    · rcases List.mem_singleton.mp h with rfl
      exact ⟨_, _, _, rfl⟩
    · split at h
      · exact absurd h (List.not_mem_nil mv)
      · rcases List.mem_cons.mp h with rfl | h2
        · exact ⟨_, _, _, rfl⟩
        · exact ih _ mv h2

theorem ranged_gen_shape (pos : Position) (src : Sq) (pt : Piece)
    (dir : Int) (mv : Move)
    (h : mv ∈ moves_pseudo_legal_nondrop_ranged pos src pt dir) :
    ∃ s d p, mv = Move.Nondrop s d p :=
  walk_shape pos src pt dir rayFuel (src + dir) mv h

theorem melee_gen_shape (pos : Position) (src : Sq) (pt : Piece) (mv : Move)
    (h : mv ∈ moves_pseudo_legal_nondrop_melee pos src pt) :
    ∃ s d p, mv = Move.Nondrop s d p := by
  rw [moves_pseudo_legal_nondrop_melee, List.mem_filterMap] at h
  obtain ⟨di, -, hf⟩ := h
  dsimp only at hf
  split at hf
  · injection hf with hf2
    exact ⟨_, _, _, hf2.symm⟩
  · exact Option.noConfusion hf

theorem nondrop_gen_shape (pos : Position) (src : Sq) (pt : Piece) (mv : Move)
    (h : mv ∈ moves_pseudo_legal_nondrop pos src pt) :
    ∃ s d p, mv = Move.Nondrop s d p := by
  cases pt <;>
    first
    | exact melee_gen_shape pos src _ mv h
    | exact ranged_gen_shape pos src _ _ mv h
    | (obtain ⟨d, -, h2⟩ := List.mem_flatMap.mp h
       exact ranged_gen_shape pos src _ _ mv h2)
    | (rcases List.mem_append.mp h with h2 | h2
       · (obtain ⟨d, -, h3⟩ := List.mem_flatMap.mp h2
          exact ranged_gen_shape pos src _ _ mv h3)
       · exact melee_gen_shape pos src _ mv h2)

theorem drop_gen_mem (pos : Position) (sq : Sq) (mv : Move)
    (h : mv ∈ moves_pseudo_legal_drop pos sq) :
    ∃ pt, mv = Move.Drop pt sq ∧ (pos.board sq).is_empty = true := by
  rw [moves_pseudo_legal_drop] at h
  simp only [List.mem_map, List.mem_filter] at h
  obtain ⟨pt, ⟨⟨-, hok⟩, rfl⟩⟩ := h
  refine ⟨pt, rfl, ?_⟩
  by_cases he : (pos.board sq).is_empty = true
  · exact he
  · rw [if_pos (by rw [Bool.eq_false_iff.mpr he]; rfl)] at hok
    exact Bool.noConfusion hok

/-- C9.  With the opposite king on the board, the effect-board test
`can_capture_king` answers true exactly when some move of the side-to-move
pseudo-legal generator has the opposite king's square as its destination;
drop moves never contribute, because the king's square is occupied. -/
theorem c9_capture_king_equiv (pos : Position) (k : Sq)
    (hk : find_king_sq pos.board pos.side.inv = some k) :
    (pos.can_capture_king = true ↔
      ∃ mv ∈ moves_pseudo_legal pos, mv.dst = k) ∧
    (∀ pt dst, Move.Drop pt dst ∈ moves_pseudo_legal pos → dst ≠ k) := by
  have hkmem : k ∈ Sq.iter_valid := List.mem_of_find?_eq_some hk
  have hkp : (pos.board k).is_side_pt pos.side.inv Piece.King = true := by
    have := List.find?_some hk
    simpa using this
  have hkv : Sq.is_valid k = true := iter_valid_mem_valid k hkmem
  obtain ⟨hkc, hke, -⟩ := king_cell_props (pos.board k) pos.side.inv hkp
  have hdropnot : ∀ pt dst, Move.Drop pt dst ∈ moves_pseudo_legal pos →
      dst ≠ k := by
    intro pt dst hmem heq
    subst heq
    rw [moves_pseudo_legal, List.mem_flatMap] at hmem
    obtain ⟨sq, -, hmv⟩ := hmem
    rcases hpc : (pos.board sq).piece_of pos.side with _ | pt2
    · rw [hpc] at hmv
      obtain ⟨pt3, heq2, hemp⟩ := drop_gen_mem pos sq _ hmv
      injection heq2 with h1 h2
      subst h2
      rw [hemp] at hke
      exact Bool.noConfusion hke
    · rw [hpc] at hmv
      obtain ⟨s, d, p, heq2⟩ := nondrop_gen_shape pos sq pt2 _ hmv
      exact Move.noConfusion heq2
  refine ⟨?_, hdropnot⟩
  rw [Position.can_capture_king, hk]
  rw [List.any_eq_true]
  constructor
  · rintro ⟨e, hmem, hde⟩
    rw [iter_effects, List.mem_flatMap] at hmem
    obtain ⟨src, hsrc, he2⟩ := hmem
    rcases hpc : (pos.board src).piece_of pos.side with _ | pt
    · rw [hpc] at he2
      exact absurd he2 (List.not_mem_nil e)
    · rw [hpc] at he2
      obtain ⟨dst, hdst, rfl⟩ := List.mem_map.mp he2
      simp only [decide_eq_true_eq] at hde
      obtain ⟨mv, hmv, hmvd⟩ :=
        (nondrop_dst_equiv pos src pt k hkv hkc).mp (hde ▸ hdst)
      refine ⟨mv, ?_, hmvd⟩
      rw [moves_pseudo_legal, List.mem_flatMap]
      exact ⟨src, (mem_iter_valid_sim pos.side src).mpr hsrc, by
        rw [hpc]; exact hmv⟩
  · rintro ⟨mv, hmv, hdst⟩
    rw [moves_pseudo_legal, List.mem_flatMap] at hmv
    obtain ⟨src, hsrc, hmv2⟩ := hmv
    rcases hpc : (pos.board src).piece_of pos.side with _ | pt
    · rw [hpc] at hmv2
      obtain ⟨pt3, rfl, hemp⟩ := drop_gen_mem pos src _ hmv2
      simp only [Move.dst] at hdst
      subst hdst
      rw [hemp] at hke
      exact Bool.noConfusion hke
    · rw [hpc] at hmv2
      have hkmem2 : k ∈ iter_effects_by pos.board pos.side src pt :=
        (nondrop_dst_equiv pos src pt k hkv hkc).mpr ⟨mv, hmv2, hdst⟩
      refine ⟨(src, k), ?_, by simp⟩
      rw [iter_effects, List.mem_flatMap]
      refine ⟨src, (mem_iter_valid_sim pos.side src).mp hsrc, ?_⟩
      rw [hpc]
      exact List.mem_map.mpr ⟨k, hkmem2, rfl⟩

/-- Witness for C9 on the fixture where the sente gold reaches the gote
king. -/
theorem c9_capture_king_equiv_witness :
    (posC9.can_capture_king = true ↔
      ∃ mv ∈ moves_pseudo_legal posC9, mv.dst = Sq.from_xy 5 1) ∧
    (∀ pt dst, Move.Drop pt dst ∈ moves_pseudo_legal posC9 →
      dst ≠ Sq.from_xy 5 1) :=
  c9_capture_king_equiv posC9 (Sq.from_xy 5 1) (by decide)

end Naitou
